import Mathlib

/-!
# Black-oil two-phase indices and the box model time step

A shallow embedding of

* `ewoms/models/blackoil/blackoiltwophaseindices.hh` (`Ewoms::BlackOilTwoPhaseIndices`),
* `dumux/new_models/box/boxmodel.hh` (`Dune::BoxModel`),
* `dumux/boxmodels/1p/1plocalresidual.hh` (`Dumux::OnePLocalResidual`),
* `dumux/new_material/fluidmatrixinteractions/2p/absolutesaturationslawparams.hh`
  (`Dune::AbsoluteSaturationsLawParams`),

followed by the properties proved about them.

Machine integers: `unsigned` values are natural numbers below `2 ^ 32` and every
`unsigned` operation is reduced modulo `2 ^ 32`; `int` values are integers, obtained
from an `unsigned` value by the two's complement reading.  A failed `assert` is the
result `none`.
-/

namespace Ewoms

/-! ## Machine integers -/

/-- Conversion of an `int` to `unsigned` (usual arithmetic conversions): the value
modulo `2 ^ 32`. -/
def toUnsigned (z : Int) : Nat := (z % (2 ^ 32 : Int)).toNat

/-- Conversion of an `unsigned` value to `int`, as done when a `static const int` is
initialised from an `unsigned` expression: a value below `2 ^ 31` is kept, a value from
`2 ^ 31` on wraps to the negative numbers (the two's complement reading, which the
language leaves to the implementation before C++20). -/
def toInt (n : Nat) : Int :=
  if n % 2 ^ 32 < 2 ^ 31 then ((n % 2 ^ 32 : Nat) : Int) else ((n % 2 ^ 32 : Nat) : Int) - 2 ^ 32

/-- Addition of two `unsigned` values. -/
def uadd (a b : Nat) : Nat := (a + b) % 2 ^ 32

/-- Subtraction of two `unsigned` values. -/
def usub (a b : Nat) : Nat := (a + 2 ^ 32 - b % 2 ^ 32) % 2 ^ 32

/-- Multiplication of two `unsigned` values. -/
def umul (a b : Nat) : Nat := (a * b) % 2 ^ 32

/-- The C `assert` macro of a build without `NDEBUG`, in a function returning through
`Option`: a condition that does not hold aborts, the call ends without a value. -/
def cassert (cond : Bool) : Option Unit := if cond then some () else none

/-! ## `BlackOilTwoPhaseIndices` -/

/-- The template parameters of `BlackOilTwoPhaseIndices`; the two `unsigned`
parameters are natural numbers, see `BlackOilTwoPhaseIndices.WellTyped`. -/
structure BlackOilTwoPhaseIndices where
  enableSolventV : Bool
  enablePolymerV : Bool
  enableEnergyV : Bool
  PVOffset : Nat
  disabledCanonicalCompIdx : Nat
  deriving DecidableEq, Repr

namespace BlackOilTwoPhaseIndices

/-- Both `unsigned` template arguments are values of the type `unsigned`. -/
def WellTyped (c : BlackOilTwoPhaseIndices) : Prop :=
  c.PVOffset < 2 ^ 32 ∧ c.disabledCanonicalCompIdx < 2 ^ 32

instance (c : BlackOilTwoPhaseIndices) : Decidable c.WellTyped := by
  unfold WellTyped; infer_instance

def oilEnabled (c : BlackOilTwoPhaseIndices) : Bool := c.disabledCanonicalCompIdx != 0

def waterEnabled (c : BlackOilTwoPhaseIndices) : Bool := c.disabledCanonicalCompIdx != 1

def gasEnabled (c : BlackOilTwoPhaseIndices) : Bool := c.disabledCanonicalCompIdx != 2

def enableSolvent (c : BlackOilTwoPhaseIndices) : Bool := c.enableSolventV

def enablePolymer (c : BlackOilTwoPhaseIndices) : Bool := c.enablePolymerV

def enableEnergy (c : BlackOilTwoPhaseIndices) : Bool := c.enableEnergyV

def numSolvents_ (c : BlackOilTwoPhaseIndices) : Int := if c.enableSolvent then 1 else 0

def numPolymers_ (c : BlackOilTwoPhaseIndices) : Int := if c.enablePolymer then 1 else 0

def numEnergy_ (c : BlackOilTwoPhaseIndices) : Int := if c.enableEnergy then 1 else 0

def numPhases : Int := 2

def numEq (c : BlackOilTwoPhaseIndices) : Int :=
  numPhases + c.numSolvents_ + c.numPolymers_ + c.numEnergy_

/-- The sum `PVOffset + k` for an `int` operand `k`: the operand is converted to
`unsigned` and the sum is taken modulo `2 ^ 32`. -/
def offsetPlus (c : BlackOilTwoPhaseIndices) (k : Int) : Nat := uadd c.PVOffset (toUnsigned k)

/-- The conditional `enabled ? slot : sentinel` with an `unsigned` slot and an `int`
sentinel, stored in a `static const int`: the sentinel is converted to `unsigned`, the
chosen value back to `int`. -/
def slotOr (enabled : Bool) (slot : Nat) (sentinel : Int) : Int :=
  toInt (if enabled then slot else toUnsigned sentinel)

def waterSaturationIdx (c : BlackOilTwoPhaseIndices) : Int :=
  slotOr c.waterEnabled (c.offsetPlus 0) (-10000)

def pressureSwitchIdx (c : BlackOilTwoPhaseIndices) : Int :=
  toInt (if c.waterEnabled then c.offsetPlus 1 else c.offsetPlus 0)

def compositionSwitchIdx (c : BlackOilTwoPhaseIndices) : Int :=
  slotOr c.gasEnabled (c.offsetPlus 1) (-10000)

def solventSaturationIdx (c : BlackOilTwoPhaseIndices) : Int :=
  slotOr c.enableSolvent
    (uadd (c.offsetPlus (numPhases - 1)) (toUnsigned c.numSolvents_)) (-1000)

def polymerConcentrationIdx (c : BlackOilTwoPhaseIndices) : Int :=
  slotOr c.enablePolymer
    (uadd (uadd (c.offsetPlus (numPhases - 1)) (toUnsigned c.numSolvents_))
      (toUnsigned c.numPolymers_)) (-1000)

def temperatureIdx (c : BlackOilTwoPhaseIndices) : Int :=
  slotOr c.enableEnergy
    (uadd (uadd (uadd (c.offsetPlus (numPhases - 1)) (toUnsigned c.numSolvents_))
      (toUnsigned c.numPolymers_)) (toUnsigned c.numEnergy_)) (-1000)

/-- A failed `assert` gives `none`. -/
def canonicalToActiveComponentIndex (c : BlackOilTwoPhaseIndices) (compIdx : Nat) :
    Option Nat := do
  if !c.gasEnabled then
    cassert (compIdx != 2)
    return compIdx
  else if !c.waterEnabled then
    cassert (compIdx != 1)
    return compIdx / 2
  else
    cassert (!c.oilEnabled)
    cassert (compIdx != 0)
  return usub compIdx 1

/-- A failed `assert` gives `none`. -/
def activeToCanonicalComponentIndex (c : BlackOilTwoPhaseIndices) (compIdx : Nat) :
    Option Nat := do
  cassert (decide (compIdx < 2))
  if !c.gasEnabled then
    return compIdx
  else if !c.waterEnabled then
    return umul compIdx 2
  else
    cassert (!c.oilEnabled)
  return uadd compIdx 1

def conti0EqIdx (c : BlackOilTwoPhaseIndices) : Int := toInt (c.offsetPlus 0)

def contiSolventEqIdx (c : BlackOilTwoPhaseIndices) : Int :=
  slotOr c.enableSolvent
    (uadd (c.offsetPlus (numPhases - 1)) (toUnsigned c.numSolvents_)) (-1000)

/-- The condition is written `enablePolymer > 0` in the source: the flag is promoted
to `int`. -/
def contiPolymerEqIdx (c : BlackOilTwoPhaseIndices) : Int :=
  slotOr (decide ((if c.enablePolymer then (1 : Int) else 0) > 0))
    (uadd (uadd (c.offsetPlus (numPhases - 1)) (toUnsigned c.numSolvents_))
      (toUnsigned c.numPolymers_)) (-1000)

def contiEnergyEqIdx (c : BlackOilTwoPhaseIndices) : Int :=
  slotOr c.enableEnergy
    (uadd (uadd (uadd (c.offsetPlus (numPhases - 1)) (toUnsigned c.numSolvents_))
      (toUnsigned c.numPolymers_)) (toUnsigned c.numEnergy_)) (-1000)

/-! ### Vocabulary of the index layout properties -/

/-- The slot range of a configuration: `PVOffset ≤ x < PVOffset + numEq`. -/
def InSlotRange (c : BlackOilTwoPhaseIndices) (x : Int) : Prop :=
  (c.PVOffset : Int) ≤ x ∧ x < (c.PVOffset : Int) + c.numEq

instance (c : BlackOilTwoPhaseIndices) (x : Int) : Decidable (c.InSlotRange x) := by
  unfold InSlotRange; infer_instance

/-- The two values the source stores in the offset of a disabled role. -/
def isSentinel (x : Int) : Bool := x == -10000 || x == -1000

/-- An offset guarded by a feature flag is negative exactly when the feature is
disabled, is then one of the disabled markers, and lies in the slot range when the
feature is enabled. -/
def SentinelOrSlot (c : BlackOilTwoPhaseIndices) (enabled : Bool) (idx : Int) : Prop :=
  (idx < 0 ↔ enabled = false) ∧ (enabled = false → isSentinel idx = true) ∧
    (enabled = true → c.InSlotRange idx)

instance (c : BlackOilTwoPhaseIndices) (enabled : Bool) (idx : Int) :
    Decidable (c.SentinelOrSlot enabled idx) := by
  unfold SentinelOrSlot; infer_instance

/-- The six primary variable offsets, in the order of their declaration. -/
def primaryVariableIdxs (c : BlackOilTwoPhaseIndices) : List Int :=
  [c.waterSaturationIdx, c.pressureSwitchIdx, c.compositionSwitchIdx,
   c.solventSaturationIdx, c.polymerConcentrationIdx, c.temperatureIdx]

/-- The primary variable offsets that are not a disabled marker. -/
def activePrimaryVariableIdxs (c : BlackOilTwoPhaseIndices) : List Int :=
  c.primaryVariableIdxs.filter (fun x => !isSentinel x)

/-- The number of enabled features among solvent, polymer and energy. -/
def numEnabledFeatures (c : BlackOilTwoPhaseIndices) : Nat :=
  [c.enableSolvent, c.enablePolymer, c.enableEnergy].count true

end BlackOilTwoPhaseIndices

end Ewoms

namespace Dune

/-! ## `BoxModel`

The grid, the problem, the local Jacobian, the Newton method and its controller are
collaborators of `BoxModel` whose code lies outside `boxmodel.hh`.  They enter the
embedding as records of functions over their own state: `J` is the state of the local
Jacobian, `S` that of the `NewtonMethod` object, `C` that of the Newton controller and
`A` that of the operator assembler.  `U` is the vector of unknowns at a vertex and
`Scalar` the type of time step sizes.  A `BoxFunction` is its representation, the list
of the unknowns indexed by global vertex id.
-/

section

variable {U A J S C Scalar Cell Face LocalCoord WorldCoord : Type}

/-- The data members of `BoxModel`, except the reference `_problem`. -/
structure BoxModel (U A J : Type) where
  _uCur : List U
  _uPrev : List U
  _f : List U
  _opAsm : A
  _localJacobian : J

/-- What `BoxModel` asks of the problem and, through it, of the grid: the leaf cells
in iteration order (`leafbegin<0>()` to `leafend<0>()`), the shape function set
`ShapeFnSets::general(cell.geometry().type(), 1)` of a cell (its size and the position
and entity of each shape function), the map `cell.geometry().global`, the intersections
of a cell (`IntersectionIteratorGetter::begin` to `end`), `vertexIndex`, and the
callbacks `initial` and `dirichlet`, which receive the unknowns of a vertex by
reference and are functions from their old to their new value. -/
structure Problem (Cell Face LocalCoord WorldCoord U : Type) where
  leafCells : List Cell
  hasBoundaryIntersections : Cell → Bool
  shapeFnSetSize : Cell → Nat
  shapeFnPosition : Cell → Nat → LocalCoord
  shapeFnEntity : Cell → Nat → Nat
  geometryGlobal : Cell → LocalCoord → WorldCoord
  intersections : Cell → List Face
  vertexIndex : Cell → Nat → Nat
  initial : U → Cell → WorldCoord → LocalCoord → U
  dirichlet : U → Cell → Face → WorldCoord → LocalCoord → U

/-- The methods of the local Jacobian called by `update` and
`_applyDirichletBoundaries`; each changes the state of the local Jacobian only.
`bcIsDirichlet jac i` is the test `bc(i)[0] == Dune::BoundaryConditions::dirichlet`. -/
structure LocalJacobian (J Cell Scalar : Type) where
  setCurrentSolution : J → J
  setOldSolution : J → J
  setDt : J → Scalar → J
  assembleBoundaryCondition : J → Cell → J
  bcIsDirichlet : J → Nat → Bool

/-- What a call `solver.execute(*this, controller)` leaves behind: its return value and
the solver, the model and the controller, all three passed by reference. -/
structure Executed (U A J S C : Type) where
  converged : Bool
  solver : S
  model : BoxModel U A J
  controller : C

/-- The Newton method and the Newton controller: the constructor
`NewtonMethod solver(*this)`, `solver.execute(*this, controller)` and
`controller.suggestTimeStepSize(dt)`, which returns the suggested size and may change
the controller. -/
structure NewtonMethod (U A J S C Scalar : Type) where
  newtonMethod : BoxModel U A J → S
  execute : S → BoxModel U A J → C → Executed U A J S C
  suggestTimeStepSize : C → Scalar → Scalar × C

/-- The assignment through the reference `(*u)[globalId]`: the entry at `globalId`
becomes `f` of its old value.  An index beyond the vector, undefined behaviour in the
source, leaves the list as it is. -/
def writeEntry (f : U → U) : List U → Nat → List U
  | [], _ => []
  | x :: xs, 0 => f x :: xs
  | x :: xs, n + 1 => x :: writeEntry f xs n

/-- The body of the innermost loop of `_applyDirichletBoundaries`, for the shape
function `i` of `cell` at the intersection `face`. -/
def applyDirichletAtVertex (prob : Problem Cell Face LocalCoord WorldCoord U)
    (lj : LocalJacobian J Cell Scalar) (jac : J) (cell : Cell) (face : Face)
    (u : List U) (i : Nat) : List U :=
  if !lj.bcIsDirichlet jac i then
    u
  else
    let localPos := prob.shapeFnPosition cell i
    let globalPos := prob.geometryGlobal cell localPos
    let globalId := prob.vertexIndex cell (prob.shapeFnEntity cell i)
    writeEntry (fun x => prob.dirichlet x cell face globalPos localPos) u globalId

/-- The body of the cell loop of `_applyDirichletBoundaries`. -/
def applyDirichletAtCell (prob : Problem Cell Face LocalCoord WorldCoord U)
    (lj : LocalJacobian J Cell Scalar) (st : List U × J) (cell : Cell) : List U × J :=
  if !prob.hasBoundaryIntersections cell then
    st
  else
    let jac := lj.assembleBoundaryCondition st.2 cell
    ((prob.intersections cell).foldl
      (fun u face =>
        (List.range (prob.shapeFnSetSize cell)).foldl
          (applyDirichletAtVertex prob lj jac cell face) u)
      st.1, jac)

/-- `BoxModel::_applyDirichletBoundaries(u)`: the new `u` and the new state of the
local Jacobian. -/
def _applyDirichletBoundaries (prob : Problem Cell Face LocalCoord WorldCoord U)
    (lj : LocalJacobian J Cell Scalar) (u : List U) (jac : J) : List U × J :=
  prob.leafCells.foldl (applyDirichletAtCell prob lj) (u, jac)

/-- The statements of `update` that call a collaborator, print, or assign the
previous solution; `update` records them in the order in which it runs them. -/
inductive Call (Scalar : Type) where
  | setCurrentSolution
  | setOldSolution
  | applyDirichletBoundaries
  | newtonMethod
  | setDt (dt : Scalar)
  | execute (converged : Bool)
  | suggestTimeStepSize (dt nextDt : Scalar)
  | retryMessage (dt : Scalar)
  | assignPrev
  deriving DecidableEq, Repr

/-- Whether a recorded statement is a call of `solver.execute`. -/
def Call.isExecute : Call Scalar → Bool
  | .execute _ => true
  | _ => false

/-- The number of `solver.execute` calls in a record. -/
def numExecuteCalls (calls : List (Call Scalar)) : Nat := calls.countP Call.isExecute

/-- Everything `update` reads and writes: the model, the controller, the reference
parameters `dt` and `nextDt`, and the record of the statements run so far. -/
structure Run (U A J C Scalar : Type) where
  model : BoxModel U A J
  controller : C
  dt : Scalar
  nextDt : Scalar
  calls : List (Call Scalar)

/-- The text streamed into the `Dune::MathError` before the value of `dt`. -/
def mathErrorText : String :=
  "Newton solver didn\x27t converge after 10 timestep divisions. dt="

/-- The exception built by `DUNE_THROW(Dune::MathError, text << dt)`. -/
structure MathError (Scalar : Type) where
  text : String
  dt : Scalar

/-- How a call of `update` ends: `thrown` is the exception it leaves with, `none` for
a normal return; `run` is the state it leaves behind in both cases. -/
structure Outcome (U A J C Scalar : Type) where
  thrown : Option (MathError Scalar)
  run : Run U A J C Scalar

/-- One pass through the first three statements of the loop body of `update`. -/
structure Attempt (U A J S C Scalar : Type) where
  converged : Bool
  solver : S
  run : Run U A J C Scalar

/-- The first three statements of the loop body of `update`:
`_localJacobian.setDt(dt)`, `converged = solver.execute(*this, controller)` and
`nextDt = controller.suggestTimeStepSize(dt)`. -/
def attempt (lj : LocalJacobian J Cell Scalar) (nm : NewtonMethod U A J S C Scalar)
    (solver : S) (r : Run U A J C Scalar) : Attempt U A J S C Scalar :=
  let model1 := { r.model with _localJacobian := lj.setDt r.model._localJacobian r.dt }
  let e := nm.execute solver model1 r.controller
  let s := nm.suggestTimeStepSize e.controller r.dt
  { converged := e.converged
    solver := e.solver
    run :=
      { model := e.model
        controller := s.2
        dt := r.dt
        nextDt := s.1
        calls := r.calls ++
          [Call.setDt r.dt, Call.execute e.converged, Call.suggestTimeStepSize r.dt s.1] } }

/-- The end of the loop body of `update` after a rejected attempt: `dt = nextDt` and
the message on `std::cout` (the increment of `numRetries` is in `updateLoop`). -/
def retry (r : Run U A J C Scalar) : Run U A J C Scalar :=
  { r with dt := r.nextDt, calls := r.calls ++ [Call.retryMessage r.nextDt] }

/-- The loop `while (true)` of `update`, entered with the given value of
`numRetries`.  It ends by `break` (`thrown = none`) or by `DUNE_THROW`. -/
def updateLoop (lj : LocalJacobian J Cell Scalar) (nm : NewtonMethod U A J S C Scalar)
    (numRetries : Nat) (solver : S) (r : Run U A J C Scalar) : Outcome U A J C Scalar :=
  let a := attempt lj nm solver r
  if a.converged then
    { thrown := none, run := a.run }
  else if h : numRetries ≥ 10 then
    { thrown := some { text := mathErrorText, dt := a.run.dt }, run := a.run }
  else
    updateLoop lj nm (numRetries + 1) a.solver (retry a.run)
termination_by 10 - numRetries
decreasing_by omega

/-- The statements of `update` before its loop: the state and the solver with which
the loop is entered. -/
def loopEntry (prob : Problem Cell Face LocalCoord WorldCoord U)
    (lj : LocalJacobian J Cell Scalar) (nm : NewtonMethod U A J S C Scalar)
    (model : BoxModel U A J) (controller : C) (dt nextDt : Scalar) :
    S × Run U A J C Scalar :=
  let jac1 := lj.setCurrentSolution model._localJacobian
  let jac2 := lj.setOldSolution jac1
  let d := _applyDirichletBoundaries prob lj model._uCur jac2
  let model1 := { model with _uCur := d.1, _localJacobian := d.2 }
  (nm.newtonMethod model1,
    { model := model1
      controller := controller
      dt := dt
      nextDt := nextDt
      calls := [Call.setCurrentSolution, Call.setOldSolution, Call.applyDirichletBoundaries,
        Call.newtonMethod] })

/-- `BoxModel::update(dt, nextDt, controller)`: the statements before the loop, the
loop with `numRetries = 0`, and after a `break` the assignment `*_uPrev = *_uCur`. -/
def BoxModel.update (prob : Problem Cell Face LocalCoord WorldCoord U)
    (lj : LocalJacobian J Cell Scalar) (nm : NewtonMethod U A J S C Scalar)
    (model : BoxModel U A J) (controller : C) (dt nextDt : Scalar) :
    Outcome U A J C Scalar :=
  let entry := loopEntry prob lj nm model controller dt nextDt
  let o := updateLoop lj nm 0 entry.1 entry.2
  match o.thrown with
  | some _ => o
  | none =>
    { o with
      run :=
        { o.run with
          model := { o.run.model with _uPrev := o.run.model._uCur }
          calls := o.run.calls ++ [Call.assignPrev] } }

/-- The solver and the state at the start of the attempt number `k` (counted from 0)
of a loop started with `solver` and `r`, the attempts before it having been rejected. -/
def attemptStart (lj : LocalJacobian J Cell Scalar) (nm : NewtonMethod U A J S C Scalar)
    (solver : S) (r : Run U A J C Scalar) : Nat → S × Run U A J C Scalar
  | 0 => (solver, r)
  | k + 1 =>
    let a := attempt lj nm (attemptStart lj nm solver r k).1 (attemptStart lj nm solver r k).2
    (a.solver, retry a.run)

/-! ### A small instance

Two cells over three vertices; the first cell lies on the boundary and its local vertex
0 is a Dirichlet vertex with the value 100.  Time step sizes are natural numbers and the
controller suggests half the size it is given. -/

/-- Cells 0 and 1 with the vertices 0, 1 and 1, 2; cell 0 has one boundary face. -/
def exampleProblem : Problem Nat Nat Nat Nat Nat where
  leafCells := [0, 1]
  hasBoundaryIntersections := fun cell => cell == 0
  shapeFnSetSize := fun _ => 2
  shapeFnPosition := fun _ i => i
  shapeFnEntity := fun _ i => i
  geometryGlobal := fun cell localPos => cell + localPos
  intersections := fun cell => if cell == 0 then [0] else []
  vertexIndex := fun cell entity => cell + entity
  initial := fun _ _ globalPos _ => globalPos
  dirichlet := fun _ _ _ _ _ => 100

/-- A local Jacobian whose state is the last time step size set; local vertex 0 is the
Dirichlet vertex of every cell. -/
def exampleJacobian : LocalJacobian Nat Nat Nat where
  setCurrentSolution := fun jac => jac
  setOldSolution := fun jac => jac
  setDt := fun _ dt => dt
  assembleBoundaryCondition := fun jac _ => jac
  bcIsDirichlet := fun _ i => i == 0

/-- A Newton method that counts its `execute` calls in the solver state, adds one to
every unknown of the current solution in each call and reports convergence from the
call number `needed` on (never for `needed = none`). -/
def exampleNewton (needed : Option Nat) : NewtonMethod Nat Unit Nat Nat Unit Nat where
  newtonMethod := fun _ => 0
  execute := fun solver model controller =>
    { converged := match needed with
        | some n => decide (n ≤ solver + 1)
        | none => false
      solver := solver + 1
      model := { model with _uCur := model._uCur.map (· + 1) }
      controller := controller }
  suggestTimeStepSize := fun controller dt => (dt / 2, controller)

/-- A model over three vertices. -/
def exampleModel : BoxModel Nat Unit Nat where
  _uCur := [5, 6, 7]
  _uPrev := [1, 2, 3]
  _f := [0, 0, 0]
  _opAsm := ()
  _localJacobian := 0

end

end Dune

namespace Dune

/-! ## `BoxModel`: the global defect and the initial solution -/

section

variable {U A J L Scalar Cell Face LocalCoord WorldCoord : Type}

/-- The methods of the local Jacobian called by `evalGlobalDefect`; `L` is the type
`LocalFunction`.  `evalLocal(local, u)` and `evalLocalDefect(localDefect, localU,
localOldU)` return the local function they fill in and the new state of the local
Jacobian; an `evalLocalDefect` that fails, by throwing, gives `none`.
`atSubContVol d i` is `d.atSubContVol[i]`. -/
structure LocalDefect (J Cell U L : Type) where
  setCurrentCell : J → Cell → J
  evalLocal : J → List U → L × J
  evalLocalDefect : J → L → L → Option L × J
  atSubContVol : L → Nat → U

/-- How a call of `evalGlobalDefect` ends: whether it was left by an exception of the
local defect evaluation, and the global defect and the state of the local Jacobian it
leaves behind. -/
structure DefectOutcome (U J : Type) where
  threw : Bool
  globDefect : List U
  jac : J

/-- The first part of the loop body of `evalGlobalDefect`: `setCurrentCell`, the two
calls of `evalLocal` and `evalLocalDefect`. -/
def evalCellDefect (ld : LocalDefect J Cell U L) (uCur uPrev : List U) (jac : J)
    (cell : Cell) : Option L × J :=
  let jac1 := ld.setCurrentCell jac cell
  let localU := ld.evalLocal jac1 uCur
  let localOldU := ld.evalLocal localU.2 uPrev
  ld.evalLocalDefect localOldU.2 localU.1 localOldU.1

/-- The inner loop of `evalGlobalDefect`: for every local vertex id of the cell the
statement `(*globDefect)[globalId] += localDefect.atSubContVol[localId]`. -/
def scatterAdd [Add U] (prob : Problem Cell Face LocalCoord WorldCoord U)
    (ld : LocalDefect J Cell U L) (cell : Cell) (localDefect : L) (globDefect : List U) :
    List U :=
  (List.range (prob.shapeFnSetSize cell)).foldl
    (fun gd localId =>
      let globalId := prob.vertexIndex cell (prob.shapeFnEntity cell localId)
      writeEntry (fun x => x + ld.atSubContVol localDefect localId) gd globalId)
    globDefect

/-- The cell loop of `evalGlobalDefect` over the remaining cells. -/
def evalGlobalDefectLoop [Add U] (prob : Problem Cell Face LocalCoord WorldCoord U)
    (ld : LocalDefect J Cell U L) (uCur uPrev : List U) :
    List Cell → List U → J → DefectOutcome U J
  | [], globDefect, jac => { threw := false, globDefect := globDefect, jac := jac }
  | cell :: rest, globDefect, jac =>
    match evalCellDefect ld uCur uPrev jac cell with
    | (none, jac1) => { threw := true, globDefect := globDefect, jac := jac1 }
    | (some localDefect, jac1) =>
      evalGlobalDefectLoop prob ld uCur uPrev rest
        (scatterAdd prob ld cell localDefect globDefect) jac1

/-- `BoxModel::evalGlobalDefect(globDefect)`: `(*globDefect) = 0` sets every entry to
zero, then the cell loop runs over the leaf cells. -/
def BoxModel.evalGlobalDefect [Add U] [Zero U]
    (prob : Problem Cell Face LocalCoord WorldCoord U) (ld : LocalDefect J Cell U L)
    (model : BoxModel U A J) (globDefect : List U) : DefectOutcome U J :=
  evalGlobalDefectLoop prob ld model._uCur model._uPrev prob.leafCells
    (globDefect.map (fun _ => 0)) model._localJacobian

/-- The local defects of the cells `evalGlobalDefect` gets through, in the order of the
pass: those of all cells, or of the cells before the first one whose local defect
evaluation fails. -/
def localDefects (ld : LocalDefect J Cell U L) (uCur uPrev : List U) :
    List Cell → J → List (Cell × L)
  | [], _ => []
  | cell :: rest, jac =>
    match evalCellDefect ld uCur uPrev jac cell with
    | (none, _) => []
    | (some localDefect, jac1) => (cell, localDefect) :: localDefects ld uCur uPrev rest jac1

/-- The values of the local defect `cd.2` of the cell `cd.1` at the local vertex ids
whose global vertex index is `g`, in ascending order of the local id. -/
def contributionsOfCell (prob : Problem Cell Face LocalCoord WorldCoord U)
    (ld : LocalDefect J Cell U L) (g : Nat) (cd : Cell × L) : List U :=
  ((List.range (prob.shapeFnSetSize cd.1)).filter
    (fun localId => prob.vertexIndex cd.1 (prob.shapeFnEntity cd.1 localId) == g)).map
    (fun localId => ld.atSubContVol cd.2 localId)

/-- The local defect values of the pairs (cell, local vertex id) whose global vertex
index is `g`, in the order of the pass. -/
def contributions (prob : Problem Cell Face LocalCoord WorldCoord U)
    (ld : LocalDefect J Cell U L) (defects : List (Cell × L)) (g : Nat) : List U :=
  defects.flatMap (contributionsOfCell prob ld g)

/-- A call of a callback of the problem for a vertex: the global index of the vertex
and the context handed to the callback. -/
structure VertexCall (Cell LocalCoord WorldCoord : Type) where
  globalId : Nat
  cell : Cell
  globalPos : WorldCoord
  localPos : LocalCoord

/-- The body of the inner loop of `_applyInitialSolution` for the shape function `i`
of `cell`; the second component records the calls of `_problem.initial`. -/
def applyInitialAtVertex (prob : Problem Cell Face LocalCoord WorldCoord U) (cell : Cell)
    (st : List U × List (VertexCall Cell LocalCoord WorldCoord)) (i : Nat) :
    List U × List (VertexCall Cell LocalCoord WorldCoord) :=
  let localPos := prob.shapeFnPosition cell i
  let globalPos := prob.geometryGlobal cell localPos
  let globalId := prob.vertexIndex cell (prob.shapeFnEntity cell i)
  (writeEntry (fun x => prob.initial x cell globalPos localPos) st.1 globalId,
    st.2 ++ [{ globalId := globalId, cell := cell, globalPos := globalPos,
               localPos := localPos }])

/-- `BoxModel::_applyInitialSolution(u)`: the new `u` and the record of the calls of
`_problem.initial` in the order in which they are made. -/
def _applyInitialSolution (prob : Problem Cell Face LocalCoord WorldCoord U) (u : List U) :
    List U × List (VertexCall Cell LocalCoord WorldCoord) :=
  prob.leafCells.foldl
    (fun st cell =>
      (List.range (prob.shapeFnSetSize cell)).foldl (applyInitialAtVertex prob cell) st)
    (u, [])

/-- The local vertex `i` of `cell` with the global index of the vertex and its
positions. -/
def vertexVisit (prob : Problem Cell Face LocalCoord WorldCoord U) (cell : Cell) (i : Nat) :
    VertexCall Cell LocalCoord WorldCoord :=
  { globalId := prob.vertexIndex cell (prob.shapeFnEntity cell i)
    cell := cell
    globalPos := prob.geometryGlobal cell (prob.shapeFnPosition cell i)
    localPos := prob.shapeFnPosition cell i }

/-- The pairs (leaf cell, local vertex) in the order of the leaf iteration, the local
vertices of a cell in ascending order. -/
def vertexVisits (prob : Problem Cell Face LocalCoord WorldCoord U) :
    List (VertexCall Cell LocalCoord WorldCoord) :=
  prob.leafCells.flatMap (fun cell =>
    (List.range (prob.shapeFnSetSize cell)).map (vertexVisit prob cell))

/-- The value the calls of `_problem.initial` listed in `calls` leave in an entry that
held `x`. -/
def initialValueAfter (prob : Problem Cell Face LocalCoord WorldCoord U)
    (calls : List (VertexCall Cell LocalCoord WorldCoord)) (x : U) : U :=
  calls.foldl (fun y c => prob.initial y c.cell c.globalPos c.localPos) x

/-- The cells with boundary intersections among `cells`, in order, each with the state
of the local Jacobian after its `assembleBoundaryCondition(cell)`. -/
def boundaryStates (prob : Problem Cell Face LocalCoord WorldCoord U)
    (lj : LocalJacobian J Cell Scalar) : List Cell → J → List (Cell × J)
  | [], _ => []
  | cell :: rest, jac =>
    if !prob.hasBoundaryIntersections cell then
      boundaryStates prob lj rest jac
    else
      (cell, lj.assembleBoundaryCondition jac cell) ::
        boundaryStates prob lj rest (lj.assembleBoundaryCondition jac cell)

/-- A call of `_problem.dirichlet` for a vertex. -/
structure DirichletCall (Cell Face LocalCoord WorldCoord : Type) where
  globalId : Nat
  cell : Cell
  face : Face
  globalPos : WorldCoord
  localPos : LocalCoord

/-- The call of `_problem.dirichlet` for the local vertex `i` of `cell` at the
intersection `face`. -/
def dirichletVisit (prob : Problem Cell Face LocalCoord WorldCoord U) (cell : Cell)
    (face : Face) (i : Nat) : DirichletCall Cell Face LocalCoord WorldCoord :=
  { globalId := prob.vertexIndex cell (prob.shapeFnEntity cell i)
    cell := cell
    face := face
    globalPos := prob.geometryGlobal cell (prob.shapeFnPosition cell i)
    localPos := prob.shapeFnPosition cell i }

/-- The pairs (intersection, local vertex of boundary condition type Dirichlet) of a
cell with boundary intersections, in the order of the two inner loops of
`_applyDirichletBoundaries`. -/
def dirichletVisitsOfCell (prob : Problem Cell Face LocalCoord WorldCoord U)
    (lj : LocalJacobian J Cell Scalar) (cj : Cell × J) :
    List (DirichletCall Cell Face LocalCoord WorldCoord) :=
  (prob.intersections cj.1).flatMap (fun face =>
    ((List.range (prob.shapeFnSetSize cj.1)).filter (fun i => lj.bcIsDirichlet cj.2 i)).map
      (dirichletVisit prob cj.1 face))

/-- The triples (cell with boundary intersections, intersection of the cell, local
vertex of boundary condition type Dirichlet), in the order of the loops of
`_applyDirichletBoundaries`. -/
def dirichletVisits (prob : Problem Cell Face LocalCoord WorldCoord U)
    (lj : LocalJacobian J Cell Scalar) (jac : J) :
    List (DirichletCall Cell Face LocalCoord WorldCoord) :=
  (boundaryStates prob lj prob.leafCells jac).flatMap (dirichletVisitsOfCell prob lj)

/-- The value the calls of `_problem.dirichlet` listed in `calls` leave in an entry
that held `x`. -/
def dirichletValueAfter (prob : Problem Cell Face LocalCoord WorldCoord U)
    (calls : List (DirichletCall Cell Face LocalCoord WorldCoord)) (x : U) : U :=
  calls.foldl (fun y c => prob.dirichlet y c.cell c.face c.globalPos c.localPos) x

/-- The number of `Call.retryMessage` entries of a record: the number of times
`update` ran `++numRetries`. -/
def numRetryCalls (calls : List (Call Scalar)) : Nat :=
  calls.countP (fun c => match c with
    | Call.retryMessage _ => true
    | _ => false)

/-! ### Further instances -/

/-- The problem `exampleProblem` with an initial value that tells the cells apart:
10 in cell 0 and 11 in cell 1. -/
def exampleInitialProblem : Problem Nat Nat Nat Nat Nat :=
  { exampleProblem with initial := fun _ cell _ _ => 10 + cell }

/-- A local defect evaluation for the cells of `exampleProblem`: the local function of a
cell is a pair of numbers, the local defect of cell `c` is `(c + 1, 10 * (c + 1))`, and
the evaluation fails from the cell `failing` on (never for `failing = none`).  The state
of the local Jacobian is the current cell. -/
def exampleLocalDefect (failing : Option Nat) : LocalDefect Nat Nat Nat (Nat × Nat) where
  setCurrentCell := fun _ cell => cell
  evalLocal := fun jac _ => ((0, 0), jac)
  evalLocalDefect := fun jac _ _ =>
    (match failing with
      | some c => if c ≤ jac then none else some (jac + 1, 10 * (jac + 1))
      | none => some (jac + 1, 10 * (jac + 1)), jac)
  atSubContVol := fun d i => if i = 0 then d.1 else d.2

end

end Dune

namespace Dune

/-! ## `AbsoluteSaturationsLawParams` -/

/-- The class `AbsoluteSaturationsLawParams<RawLawParamsT>`: the base class object and
the two data members. -/
structure AbsoluteSaturationsLawParams (RawLawParams Scalar : Type) where
  raw : RawLawParams
  Swr_ : Scalar
  Snr_ : Scalar

namespace AbsoluteSaturationsLawParams

/-- The constructor: the base class is default constructed (`raw`) and
`Swr_ = Snr_ = 0`. -/
def new {RawLawParams Scalar : Type} [Zero Scalar] (raw : RawLawParams) :
    AbsoluteSaturationsLawParams RawLawParams Scalar :=
  { raw := raw, Swr_ := 0, Snr_ := 0 }

def Swr {RawLawParams Scalar : Type} (p : AbsoluteSaturationsLawParams RawLawParams Scalar) :
    Scalar := p.Swr_

def setSwr {RawLawParams Scalar : Type} (p : AbsoluteSaturationsLawParams RawLawParams Scalar)
    (v : Scalar) : AbsoluteSaturationsLawParams RawLawParams Scalar :=
  { p with Swr_ := v }

def Snr {RawLawParams Scalar : Type} (p : AbsoluteSaturationsLawParams RawLawParams Scalar) :
    Scalar := p.Snr_

def setSnr {RawLawParams Scalar : Type} (p : AbsoluteSaturationsLawParams RawLawParams Scalar)
    (v : Scalar) : AbsoluteSaturationsLawParams RawLawParams Scalar :=
  { p with Snr_ := v }

end AbsoluteSaturationsLawParams

end Dune

namespace Dumux

/-! ## `OnePLocalResidual`

`Scalar` is a type parameter of the source.  The embedding has it twice.  For the
formulas of `computeStorage` and `computeFlux`, `Scalar` is a field: the arithmetic is
exact, and rounding, the infinities and NaN are outside it.  For what `computeFlux`
gives where a density over viscosity is no number, `Scalar` is `Double`, below: a
number, an infinity or NaN, with the quotient by zero, the overflow and the products
and sums of infinities and NaN of the type `double`.  The classes `VolumeVariables`,
`FluxVariables` and `OnePIndices` are declared outside `1plocalresidual.hh`; they enter
as records of what `OnePLocalResidual` reads from them.
-/

/-- What `OnePLocalResidual` reads from the `VolumeVariables` of a sub-control
volume. -/
structure VolumeVariables (Scalar : Type) where
  density : Scalar
  porosity : Scalar
  viscosity : Scalar

/-- What `computeFlux` reads from the `FluxVariables` of a sub-control volume face:
`intrinsicPermeability()`, `potentialGrad()`, `face().normal`, and the local indices
`upstreamIdx(normalFlux)` and `downstreamIdx(normalFlux)`. -/
structure FluxVariables (Scalar : Type) (dimWorld : Nat) where
  intrinsicPermeability : Matrix (Fin dimWorld) (Fin dimWorld) Scalar
  potentialGrad : Fin dimWorld → Scalar
  normal : Fin dimWorld → Scalar
  upstreamIdx : Scalar → Int
  downstreamIdx : Scalar → Int

/-- The state of an `OnePLocalResidual` at an element: the member `upwindWeight_`, the
constant `pressureIdx` of the indices, the volume variables of the current and of the
previous time level by sub-control volume index (`curVolVars_()`, `prevVolVars_()`),
and the constructor of `FluxVariables` for the problem, element and geometry at hand,
a function of the face index and the current volume variables.  `PrimaryVariables` is
the vector `Fin numEq → Scalar`. -/
structure OnePLocalResidual (Scalar : Type) (dimWorld numEq : Nat) where
  upwindWeight_ : Scalar
  pressureIdx : Fin numEq
  curVolVars_ : Int → VolumeVariables Scalar
  prevVolVars_ : Int → VolumeVariables Scalar
  fluxVariables : Int → (Int → VolumeVariables Scalar) → FluxVariables Scalar dimWorld

namespace OnePLocalResidual

variable {Scalar : Type} [Field Scalar] {dimWorld numEq : Nat}

/-- `OnePLocalResidual::computeFlux(flux, faceIdx)`: the new value of `flux`. -/
def computeFlux (r : OnePLocalResidual Scalar dimWorld numEq) (flux : Fin numEq → Scalar)
    (faceIdx : Int) : Fin numEq → Scalar :=
  let fluxVars := r.fluxVariables faceIdx r.curVolVars_
  let tmpVec := fluxVars.intrinsicPermeability.mulVec fluxVars.potentialGrad
  let normalFlux := -(Matrix.dotProduct tmpVec fluxVars.normal)
  let up := r.curVolVars_ (fluxVars.upstreamIdx normalFlux)
  let dn := r.curVolVars_ (fluxVars.downstreamIdx normalFlux)
  Function.update flux r.pressureIdx
    ((r.upwindWeight_ * (up.density / up.viscosity)
        + (1 - r.upwindWeight_) * (dn.density / dn.viscosity))
      * normalFlux)

/-! ### The flux in the words of the specification -/

/-- The flow-driving quantity of a face: minus the permeability applied to the
potential gradient, times the face normal. -/
def normalFlux (fv : FluxVariables Scalar dimWorld) : Scalar :=
  -(Matrix.dotProduct (fv.intrinsicPermeability.mulVec fv.potentialGrad) fv.normal)

/-- The transport coefficient of a sub-control volume: density over viscosity. -/
def mobility (v : VolumeVariables Scalar) : Scalar := v.density / v.viscosity

/-- The blend `w·coef(upstream) + (1−w)·coef(downstream)`. -/
def upwindCoefficient (w : Scalar) (up dn : VolumeVariables Scalar) : Scalar :=
  w * mobility up + (1 - w) * mobility dn

/-- The upstream volume variables of the face `faceIdx`. -/
def upstream (r : OnePLocalResidual Scalar dimWorld numEq) (faceIdx : Int) :
    VolumeVariables Scalar :=
  r.curVolVars_ ((r.fluxVariables faceIdx r.curVolVars_).upstreamIdx
    (normalFlux (r.fluxVariables faceIdx r.curVolVars_)))

/-- The downstream volume variables of the face `faceIdx`. -/
def downstream (r : OnePLocalResidual Scalar dimWorld numEq) (faceIdx : Int) :
    VolumeVariables Scalar :=
  r.curVolVars_ ((r.fluxVariables faceIdx r.curVolVars_).downstreamIdx
    (normalFlux (r.fluxVariables faceIdx r.curVolVars_)))

end OnePLocalResidual

/-! ### A small instance -/

/-- A face between the sub-control volumes `i` and `j` in one space dimension, with
unit permeability: `i` is upstream for a non-negative normal flux, `j` for a negative
one. -/
def exampleFace (i j : Int) (potentialGrad normal : ℚ) : FluxVariables ℚ 1 where
  intrinsicPermeability := fun _ _ => 1
  potentialGrad := fun _ => potentialGrad
  normal := fun _ => normal
  upstreamIdx := fun q => if 0 ≤ q then i else j
  downstreamIdx := fun q => if 0 ≤ q then j else i

/-- A residual over the rationals with one equation: the sub-control volume 0 has
density 2, porosity 1/2 and viscosity 4, every other one density 3, porosity 1/4 and
viscosity 1 (density 6 at the previous time level); the face 0 runs from 0 to 1 with
potential gradient -5 and normal 2, every other face is the face 0 seen from the
other side. -/
def exampleResidual (w : ℚ) : OnePLocalResidual ℚ 1 1 where
  upwindWeight_ := w
  pressureIdx := 0
  curVolVars_ := fun k => if k = 0 then ⟨2, 1 / 2, 4⟩ else ⟨3, 1 / 4, 1⟩
  prevVolVars_ := fun k => if k = 0 then ⟨2, 1 / 2, 4⟩ else ⟨6, 1 / 4, 1⟩
  fluxVariables := fun faceIdx _ =>
    if faceIdx = 0 then exampleFace 0 1 (-5) 2 else exampleFace 1 0 (-5) (-2)

/-! ### `Scalar = double`

A `double` is a rational number, an infinity or NaN.  The operations are those of the
type on infinities and NaN, and on zero divisors; a result of numbers is the exact
result, or an infinity when it is `2^1024` or more in magnitude.  Rounding and the
sign of zero are outside the embedding: there is one zero, and it compares `>= 0`.
-/

/-- A value of the type `double`: a number, an infinity or NaN. -/
inductive Double where
  | finite (q : ℚ)
  | posInf
  | negInf
  | nan
  deriving DecidableEq

namespace Double

/-- The magnitude from which on a result is no finite `double`: `2^1024`. -/
@[irreducible]
def overflowBound : ℚ := 2 ^ 1024

/-- The `double` of an exact result: an infinity from `overflowBound` on. -/
def ofRat (q : ℚ) : Double :=
  if overflowBound ≤ q then posInf else if q ≤ -overflowBound then negInf else finite q

/-- Unary minus. -/
def neg : Double → Double
  | finite q => finite (-q)
  | posInf => negInf
  | negInf => posInf
  | nan => nan

/-- The sum `x + y`. -/
def add : Double → Double → Double
  | finite a, finite b => ofRat (a + b)
  | finite _, posInf => posInf
  | finite _, negInf => negInf
  | posInf, finite _ => posInf
  | negInf, finite _ => negInf
  | posInf, posInf => posInf
  | negInf, negInf => negInf
  | posInf, negInf => nan
  | negInf, posInf => nan
  | nan, _ => nan
  | _, nan => nan

/-- The difference `x - y`. -/
def sub (x y : Double) : Double := add x (neg y)

/-- An infinity times a number: NaN for zero, else the infinity with the sign of the
product. -/
def infTimes (positive : Bool) (q : ℚ) : Double :=
  if q = 0 then nan else if (0 < q) = positive then posInf else negInf

/-- The product `x * y`. -/
def mul : Double → Double → Double
  | finite a, finite b => ofRat (a * b)
  | finite a, posInf => infTimes true a
  | finite a, negInf => infTimes false a
  | posInf, finite b => infTimes true b
  | negInf, finite b => infTimes false b
  | posInf, posInf => posInf
  | negInf, negInf => posInf
  | posInf, negInf => negInf
  | negInf, posInf => negInf
  | nan, _ => nan
  | _, nan => nan

/-- The quotient `x / y`. -/
def div : Double → Double → Double
  | finite a, finite b =>
    if b = 0 then (if a = 0 then nan else if 0 < a then posInf else negInf) else ofRat (a / b)
  | finite _, posInf => finite 0
  | finite _, negInf => finite 0
  | posInf, finite b => if 0 ≤ b then posInf else negInf
  | negInf, finite b => if 0 ≤ b then negInf else posInf
  | posInf, posInf => nan
  | negInf, negInf => nan
  | posInf, negInf => nan
  | negInf, posInf => nan
  | nan, _ => nan
  | _, nan => nan

/-- The comparison `x >= 0`. -/
def geZero : Double → Bool
  | finite q => decide (0 ≤ q)
  | posInf => true
  | negInf => false
  | nan => false

/-- The comparison `x == y`. -/
def eq : Double → Double → Bool
  | nan, _ => false
  | _, nan => false
  | x, y => decide (x = y)

/-- The value is a number: neither an infinity nor NaN. -/
def isFinite : Double → Bool
  | finite _ => true
  | _ => false

/-- The value is in the range of `double`: a number is below `overflowBound` in
magnitude. -/
def InRange : Double → Prop
  | finite q => -overflowBound < q ∧ q < overflowBound
  | _ => True

instance : Zero Double := ⟨finite 0⟩
instance : One Double := ⟨finite 1⟩
instance : Neg Double := ⟨neg⟩
instance : Add Double := ⟨add⟩
instance : Sub Double := ⟨sub⟩
instance : Mul Double := ⟨mul⟩
instance : Div Double := ⟨div⟩

end Double

/-- `tmpVec * normal`, the scalar product of two `FieldVector`s: the products of the
components, added up from zero. -/
def dot {dimWorld : Nat} (x y : Fin dimWorld → Double) : Double :=
  (List.finRange dimWorld).foldl (fun acc k => acc + x k * y k) 0

/-- `K.mv(x, y)`, the product of a `FieldMatrix` and a `FieldVector`: the new value of
`y`. -/
def mv {dimWorld : Nat} (K : Matrix (Fin dimWorld) (Fin dimWorld) Double)
    (x : Fin dimWorld → Double) : Fin dimWorld → Double :=
  fun i => dot (K i) x

namespace OnePLocalResidual

variable {dimWorld numEq : Nat}

/-- `OnePLocalResidual::computeFlux(flux, faceIdx)` for `Scalar = double`: the new value
of `flux`. -/
def computeFluxDouble (r : OnePLocalResidual Double dimWorld numEq)
    (flux : Fin numEq → Double) (faceIdx : Int) : Fin numEq → Double :=
  let fluxVars := r.fluxVariables faceIdx r.curVolVars_
  let tmpVec := mv fluxVars.intrinsicPermeability fluxVars.potentialGrad
  let normalFlux := -(dot tmpVec fluxVars.normal)
  let up := r.curVolVars_ (fluxVars.upstreamIdx normalFlux)
  let dn := r.curVolVars_ (fluxVars.downstreamIdx normalFlux)
  Function.update flux r.pressureIdx
    ((r.upwindWeight_ * (up.density / up.viscosity)
        + (1 - r.upwindWeight_) * (dn.density / dn.viscosity))
      * normalFlux)

/-- The flow-driving quantity of a face in `double`. -/
def normalFluxDouble (fv : FluxVariables Double dimWorld) : Double :=
  -(dot (mv fv.intrinsicPermeability fv.potentialGrad) fv.normal)

/-- The transport coefficient of a sub-control volume in `double`: density over
viscosity. -/
def mobilityDouble (v : VolumeVariables Double) : Double := v.density / v.viscosity

/-- The blend `w·coef(upstream) + (1−w)·coef(downstream)` in `double`. -/
def upwindCoefficientDouble (w : Double) (up dn : VolumeVariables Double) : Double :=
  w * mobilityDouble up + (1 - w) * mobilityDouble dn

/-- The upstream volume variables of the face `faceIdx`. -/
def upstreamDouble (r : OnePLocalResidual Double dimWorld numEq) (faceIdx : Int) :
    VolumeVariables Double :=
  r.curVolVars_ ((r.fluxVariables faceIdx r.curVolVars_).upstreamIdx
    (normalFluxDouble (r.fluxVariables faceIdx r.curVolVars_)))

/-- The downstream volume variables of the face `faceIdx`. -/
def downstreamDouble (r : OnePLocalResidual Double dimWorld numEq) (faceIdx : Int) :
    VolumeVariables Double :=
  r.curVolVars_ ((r.fluxVariables faceIdx r.curVolVars_).downstreamIdx
    (normalFluxDouble (r.fluxVariables faceIdx r.curVolVars_)))

end OnePLocalResidual

/-- A sub-control volume face: the local indices `i` and `j` of the two sub-control
volumes it separates, and its normal. -/
structure SCVFace (dimWorld : Nat) where
  i : Int
  j : Int
  normal : Fin dimWorld → Double

namespace SCVFace

variable {dimWorld : Nat}

/-- Modelled from the spec: `FluxVariables::upstreamIdx(normalFlux)`, a method of a class
declared outside `1plocalresidual.hh`.  The specification has `computeFlux` "determine
upstream and downstream subvolumes by the sign of that quantity": the sub-control
volume `i` of the face is upstream for a normal flux `>= 0`, the sub-control volume `j`
otherwise. -/
def upstreamIdx (f : SCVFace dimWorld) (normalFlux : Double) : Int :=
  if normalFlux.geZero then f.i else f.j

/-- Modelled from the spec: `FluxVariables::downstreamIdx(normalFlux)`, a method of a
class declared outside `1plocalresidual.hh`: the sub-control volume of the face which
is not upstream. -/
def downstreamIdx (f : SCVFace dimWorld) (normalFlux : Double) : Int :=
  if normalFlux.geZero then f.j else f.i

/-- The flux variables of a face for a permeability and a potential gradient. -/
def fluxVariables (f : SCVFace dimWorld) (K : Matrix (Fin dimWorld) (Fin dimWorld) Double)
    (potentialGrad : Fin dimWorld → Double) : FluxVariables Double dimWorld where
  intrinsicPermeability := K
  potentialGrad := potentialGrad
  normal := f.normal
  upstreamIdx := f.upstreamIdx
  downstreamIdx := f.downstreamIdx

/-- The face with the opposite orientation: the normal negated and the two sub-control
volumes exchanged in the naming `i`, `j`. -/
def opposite (f : SCVFace dimWorld) : SCVFace dimWorld where
  i := f.j
  j := f.i
  normal := fun k => -(f.normal k)

end SCVFace

/-- A sub-control volume state: density 2, porosity 1/2, viscosity 4. -/
def exampleStateA : VolumeVariables Double := ⟨.finite 2, .finite (1 / 2), .finite 4⟩

/-- A sub-control volume state: density 3, porosity 1/4, viscosity 1. -/
def exampleStateB : VolumeVariables Double := ⟨.finite 3, .finite (1 / 4), .finite 1⟩

/-- A sub-control volume state with a density of `2^1000` and a viscosity of `2^-100`:
the viscosity is not zero, the density over viscosity is beyond the range of
`double`. -/
def overflowState : VolumeVariables Double :=
  ⟨.finite (2 ^ 1000), .finite (1 / 4), .finite (1 / 2 ^ 100)⟩

/-- A sub-control volume state with viscosity zero. -/
def zeroViscosityState : VolumeVariables Double := ⟨.finite 3, .finite (1 / 4), .finite 0⟩

/-- A sub-control volume state with density `2^1023` and viscosity 1. -/
def largeState : VolumeVariables Double := ⟨.finite (2 ^ 1023), .finite (1 / 4), .finite 1⟩

/-- A sub-control volume state with density 1 and viscosity 1. -/
def unitState : VolumeVariables Double := ⟨.finite 1, .finite (1 / 4), .finite 1⟩

/-- A residual in `double` with one equation in one space dimension, with unit
permeability: the sub-control volume 0 has the volume variables `v0`, every other one
`v1`; the face 0 runs from 0 to 1 with normal 2, every other face is the face 0 with
the opposite orientation. -/
def exampleResidualDouble (w : Double) (v0 v1 : VolumeVariables Double) (potentialGrad : ℚ) :
    OnePLocalResidual Double 1 1 where
  upwindWeight_ := w
  pressureIdx := 0
  curVolVars_ := fun k => if k = 0 then v0 else v1
  prevVolVars_ := fun k => if k = 0 then v0 else v1
  fluxVariables := fun faceIdx _ =>
    if faceIdx = 0 then
      (SCVFace.mk 0 1 (fun _ => Double.finite 2)).fluxVariables (fun _ _ => 1)
        (fun _ => Double.finite potentialGrad)
    else
      (SCVFace.mk 0 1 (fun _ => Double.finite 2)).opposite.fluxVariables (fun _ _ => 1)
        (fun _ => Double.finite potentialGrad)

end Dumux

namespace Dune

/-! ## `BoxModel`: construction and `initial` -/

section

variable {U A J S C Scalar Cell Face LocalCoord WorldCoord : Type}

/-- The constructor `BoxModel(prob, localJac)`.  `boxFunction` is the value of
`BoxFunction(prob.grid())`, the constructor of the class `BoxFunction` applied to the
grid, from which `_uCur`, `_uPrev` and `_f` are each built; `opAsm` is that of
`OperatorAssembler(prob.grid())`. -/
def BoxModel.new (boxFunction : List U) (opAsm : A) (localJac : J) : BoxModel U A J :=
  { _uCur := boxFunction
    _uPrev := boxFunction
    _f := boxFunction
    _opAsm := opAsm
    _localJacobian := localJac }

/-- `BoxModel::initial()`: `_applyInitialSolution(_uCur)`,
`_applyDirichletBoundaries(_uCur)` and `*_uPrev = *_uCur`. -/
def BoxModel.initial (prob : Problem Cell Face LocalCoord WorldCoord U)
    (lj : LocalJacobian J Cell Scalar) (model : BoxModel U A J) : BoxModel U A J :=
  let u1 := (_applyInitialSolution prob model._uCur).1
  let d := _applyDirichletBoundaries prob lj u1 model._localJacobian
  { model with _uCur := d.1, _uPrev := d.1, _localJacobian := d.2 }

/-- Whether a recorded statement is the call of `_applyDirichletBoundaries`. -/
def Call.isApplyDirichlet : Call Scalar → Bool
  | .applyDirichletBoundaries => true
  | _ => false

/-- The number of calls of `_applyDirichletBoundaries` in a record. -/
def numDirichletCalls (calls : List (Call Scalar)) : Nat := calls.countP Call.isApplyDirichlet

/-- Whether every `solver.execute` of a record is preceded by a call of
`_applyDirichletBoundaries` made after the `execute` before it; `applied` tells whether
such a call has been seen since the last `execute`. -/
def dirichletBeforeEachExecute : Bool → List (Call Scalar) → Bool
  | _, [] => true
  | _, Call.applyDirichletBoundaries :: rest => dirichletBeforeEachExecute true rest
  | applied, Call.execute _ :: rest => applied && dirichletBeforeEachExecute false rest
  | applied, _ :: rest => dirichletBeforeEachExecute applied rest

/-- A Newton method that never reports convergence and drops the first unknown of the
current solution in every `execute`. -/
def shrinkingNewton : NewtonMethod Nat Unit Nat Nat Unit Nat where
  newtonMethod := fun _ => 0
  execute := fun solver model controller =>
    { converged := false
      solver := solver + 1
      model := { model with _uCur := model._uCur.tail }
      controller := controller }
  suggestTimeStepSize := fun controller dt => (dt / 2, controller)

end

end Dune

namespace Ewoms.BlackOilTwoPhaseIndices

/-- The equation indices in use: the continuity equation of the first phase, the one
that follows it, and the equations of the enabled features among solvent, polymer and
energy. -/
def activeEquationIdxs (c : BlackOilTwoPhaseIndices) : List Int :=
  [c.conti0EqIdx, c.conti0EqIdx + 1] ++
    (if c.enableSolvent then [c.contiSolventEqIdx] else []) ++
    (if c.enablePolymer then [c.contiPolymerEqIdx] else []) ++
    (if c.enableEnergy then [c.contiEnergyEqIdx] else [])

end Ewoms.BlackOilTwoPhaseIndices

namespace Ewoms.BlackOilTwoPhaseIndices

/-! ## Machine integer lemmas -/

theorem toUnsigned_zero : toUnsigned 0 = 0 := by decide

theorem toUnsigned_one : toUnsigned 1 = 1 := by decide

theorem toUnsigned_numPhases_pred : toUnsigned (numPhases - 1) = 1 := by decide

theorem toInt_sentinel_phase : toInt (toUnsigned (-10000)) = -10000 := by decide

theorem toInt_sentinel_feature : toInt (toUnsigned (-1000)) = -1000 := by decide

theorem isSentinel_phase : isSentinel (-10000) = true := by decide

theorem isSentinel_feature : isSentinel (-1000) = true := by decide

theorem isSentinel_of_nonneg (x : Int) (h : 0 ≤ x) : isSentinel x = false := by
  simp only [isSentinel, Bool.or_eq_false_iff, beq_eq_false_iff_ne, ne_eq]
  omega

theorem toInt_uadd (a b : Nat) (h : a + b < 2 ^ 31) : toInt (uadd a b) = (a : Int) + b := by
  unfold toInt uadd; split <;> omega

theorem toInt_uadd2 (a b c : Nat) (h : a + b + c < 2 ^ 31) :
    toInt (uadd (uadd a b) c) = (a : Int) + b + c := by
  unfold toInt uadd; split <;> omega

theorem toInt_uadd3 (a b c d : Nat) (h : a + b + c + d < 2 ^ 31) :
    toInt (uadd (uadd (uadd a b) c) d) = (a : Int) + b + c + d := by
  unfold toInt uadd; split <;> omega

theorem toInt_uadd4 (a b c d e : Nat) (h : a + b + c + d + e < 2 ^ 31) :
    toInt (uadd (uadd (uadd (uadd a b) c) d) e) = (a : Int) + b + c + d + e := by
  unfold toInt uadd; split <;> omega

/-! ## Component index translation -/

/-- C1: for every configuration whose disabled canonical component `d` is 0, 1 or 2
and every canonical component index `i` in {0,1,2} other than `d`,
`canonicalToActiveComponentIndex i` passes its assertions and
`activeToCanonicalComponentIndex` maps its result back to `i`. -/
theorem canonicalToActive_roundtrip (c : BlackOilTwoPhaseIndices) (i : Nat)
    (hd : c.disabledCanonicalCompIdx < 3) (hi : i < 3)
    (hne : i ≠ c.disabledCanonicalCompIdx) :
    ∃ j, c.canonicalToActiveComponentIndex i = some j ∧
      c.activeToCanonicalComponentIndex j = some i := by
  obtain ⟨s, p, e, off, d⟩ := c
  simp only at hd hne
  interval_cases d <;> interval_cases i <;> first
    | exact absurd rfl hne
    | exact ⟨_, rfl, rfl⟩

theorem canonicalToActive_roundtrip_witness :
    ∃ j, canonicalToActiveComponentIndex ⟨true, false, true, 5, 1⟩ 2 = some j ∧
      activeToCanonicalComponentIndex ⟨true, false, true, 5, 1⟩ j = some 2 :=
  canonicalToActive_roundtrip ⟨true, false, true, 5, 1⟩ 2 (by decide) (by decide) (by decide)

/-- C2: for every configuration whose disabled canonical component `d` is 0, 1 or 2
and every active component index `j` in {0,1}, `activeToCanonicalComponentIndex j`
passes its assertions, its result is a canonical index in {0,1,2} other than `d`, and
`canonicalToActiveComponentIndex` maps that result back to `j`. -/
theorem activeToCanonical_roundtrip (c : BlackOilTwoPhaseIndices) (j : Nat)
    (hd : c.disabledCanonicalCompIdx < 3) (hj : j < 2) :
    ∃ i, c.activeToCanonicalComponentIndex j = some i ∧ i < 3 ∧
      i ≠ c.disabledCanonicalCompIdx ∧ c.canonicalToActiveComponentIndex i = some j := by
  obtain ⟨s, p, e, off, d⟩ := c
  simp only at hd
  interval_cases d <;> interval_cases j <;>
    exact ⟨_, rfl, by decide, by simp [uadd, umul], rfl⟩

theorem activeToCanonical_roundtrip_witness :
    ∃ i, activeToCanonicalComponentIndex ⟨false, true, false, 3, 0⟩ 1 = some i ∧ i < 3 ∧
      i ≠ 0 ∧ canonicalToActiveComponentIndex ⟨false, true, false, 3, 0⟩ i = some 1 :=
  activeToCanonical_roundtrip ⟨false, true, false, 3, 0⟩ 1 (by decide) (by decide)

/-- C3: for every configuration whose disabled canonical component `d` is 0, 1 or 2,
`canonicalToActiveComponentIndex d` fails an assertion: it yields no index. -/
theorem canonicalToActive_disabled_fails (c : BlackOilTwoPhaseIndices)
    (hd : c.disabledCanonicalCompIdx < 3) :
    c.canonicalToActiveComponentIndex c.disabledCanonicalCompIdx = none := by
  obtain ⟨s, p, e, off, d⟩ := c
  simp only at hd
  interval_cases d <;> rfl

theorem canonicalToActive_disabled_fails_witness :
    canonicalToActiveComponentIndex ⟨false, false, false, 0, 2⟩ 2 = none :=
  canonicalToActive_disabled_fails ⟨false, false, false, 0, 2⟩ (by decide)

/-! ## Layout of the offsets -/

/-- C4, as the code has it: for every choice of the solvent, polymer and energy flags,
every disabled canonical component in {0,1,2} and every `PVOffset` for which the last
slot `PVOffset + numEq - 1` is representable as an `int` (`PVOffset + numEq ≤ 2 ^ 31`),
each guarded offset is negative exactly when its feature is disabled, being then one of
the markers -10000 and -1000, and otherwise lies in `[PVOffset, PVOffset + numEq)`;
`pressureSwitchIdx` and `conti0EqIdx` always lie in that range. -/
theorem offsets_sentinel_or_in_range (c : BlackOilTwoPhaseIndices)
    (hd : c.disabledCanonicalCompIdx < 3)
    (hfit : (c.PVOffset : Int) + c.numEq ≤ 2 ^ 31) :
    c.SentinelOrSlot c.waterEnabled c.waterSaturationIdx ∧
    c.SentinelOrSlot c.gasEnabled c.compositionSwitchIdx ∧
    c.SentinelOrSlot c.enableSolvent c.solventSaturationIdx ∧
    c.SentinelOrSlot c.enablePolymer c.polymerConcentrationIdx ∧
    c.SentinelOrSlot c.enableEnergy c.temperatureIdx ∧
    c.SentinelOrSlot c.enableSolvent c.contiSolventEqIdx ∧
    c.SentinelOrSlot c.enablePolymer c.contiPolymerEqIdx ∧
    c.SentinelOrSlot c.enableEnergy c.contiEnergyEqIdx ∧
    c.InSlotRange c.pressureSwitchIdx ∧ c.InSlotRange c.conti0EqIdx := by
  obtain ⟨s, p, e, off, d⟩ := c
  simp only at hd
  interval_cases d <;> cases s <;> cases p <;> cases e <;>
    simp only [SentinelOrSlot, InSlotRange, waterEnabled, gasEnabled, enableSolvent,
      enablePolymer, enableEnergy, waterSaturationIdx, compositionSwitchIdx,
      solventSaturationIdx, polymerConcentrationIdx, temperatureIdx, contiSolventEqIdx,
      contiPolymerEqIdx, contiEnergyEqIdx, pressureSwitchIdx, conti0EqIdx, slotOr, offsetPlus,
      numSolvents_, numPolymers_, numEnergy_, numEq, toUnsigned_numPhases_pred] at hfit ⊢ <;>
    simp [numPhases, toUnsigned_zero, toUnsigned_one, toInt_sentinel_phase,
      toInt_sentinel_feature, isSentinel_phase, isSentinel_feature] at hfit ⊢ <;>
    simp (disch := omega) only [toInt_uadd, toInt_uadd2, toInt_uadd3, toInt_uadd4] <;>
    omega

theorem offsets_sentinel_or_in_range_witness :
    let c : BlackOilTwoPhaseIndices := ⟨true, false, true, 3, 1⟩
    c.SentinelOrSlot c.waterEnabled c.waterSaturationIdx ∧
    c.SentinelOrSlot c.gasEnabled c.compositionSwitchIdx ∧
    c.SentinelOrSlot c.enableSolvent c.solventSaturationIdx ∧
    c.SentinelOrSlot c.enablePolymer c.polymerConcentrationIdx ∧
    c.SentinelOrSlot c.enableEnergy c.temperatureIdx ∧
    c.SentinelOrSlot c.enableSolvent c.contiSolventEqIdx ∧
    c.SentinelOrSlot c.enablePolymer c.contiPolymerEqIdx ∧
    c.SentinelOrSlot c.enableEnergy c.contiEnergyEqIdx ∧
    c.InSlotRange c.pressureSwitchIdx ∧ c.InSlotRange c.conti0EqIdx :=
  offsets_sentinel_or_in_range ⟨true, false, true, 3, 1⟩ (by decide) (by decide)

/-- C4 fails as stated: with `PVOffset = 4294967295` (the largest `unsigned`) and the gas
component disabled, `pressureSwitchIdx` is `PVOffset + 1`, which wraps to 0 and lies
outside `[PVOffset, PVOffset + numEq)`; the water saturation offset, `PVOffset` read as
an `int`, is negative although the water phase is enabled. -/
theorem offsets_in_range_fails_at_uint_max :
    let c : BlackOilTwoPhaseIndices := ⟨false, false, false, 4294967295, 2⟩
    c.WellTyped ∧ c.disabledCanonicalCompIdx < 3 ∧ c.pressureSwitchIdx = 0 ∧
      ¬ c.InSlotRange c.pressureSwitchIdx ∧
      c.waterEnabled = true ∧ c.waterSaturationIdx = -1 ∧
      ¬ c.SentinelOrSlot c.waterEnabled c.waterSaturationIdx := by
  decide

/-- C5 at the water-gas configuration (`disabledCanonicalCompIdx = 0`, no solvent,
polymer or energy, `PVOffset = 0`): the pressure and the composition switch share the
offset 1, so the three active roles occupy the offsets 0, 1, 1 while `numEq` is 2. -/
theorem water_gas_offsets_collide :
    let c : BlackOilTwoPhaseIndices := ⟨false, false, false, 0, 0⟩
    c.WellTyped ∧ c.waterEnabled = true ∧ c.gasEnabled = true ∧
      c.pressureSwitchIdx = 1 ∧ c.compositionSwitchIdx = 1 ∧
      c.activePrimaryVariableIdxs = [0, 1, 1] ∧ ¬ c.activePrimaryVariableIdxs.Nodup ∧
      c.numEq = 2 := by
  decide

/-- With the oil component enabled (water or gas disabled) and all slots representable
as `int`, the active primary variable offsets are pairwise distinct and there are
`numEq` of them. -/
theorem active_offsets_nodup_of_oil_enabled (c : BlackOilTwoPhaseIndices)
    (hd : c.disabledCanonicalCompIdx = 1 ∨ c.disabledCanonicalCompIdx = 2)
    (hfit : (c.PVOffset : Int) + c.numEq ≤ 2 ^ 31) :
    c.activePrimaryVariableIdxs.Nodup ∧ (c.activePrimaryVariableIdxs.length : Int) = c.numEq := by
  obtain ⟨s, p, e, off, d⟩ := c
  simp only at hd
  rcases hd with rfl | rfl <;> cases s <;> cases p <;> cases e <;>
    simp only [activePrimaryVariableIdxs, primaryVariableIdxs, waterEnabled, gasEnabled,
      enableSolvent, enablePolymer, enableEnergy, waterSaturationIdx, compositionSwitchIdx,
      solventSaturationIdx, polymerConcentrationIdx, temperatureIdx, pressureSwitchIdx, slotOr,
      offsetPlus, numSolvents_, numPolymers_, numEnergy_, numEq,
      toUnsigned_numPhases_pred] at hfit ⊢ <;>
    simp [numPhases, toUnsigned_zero, toUnsigned_one, toInt_sentinel_phase,
      toInt_sentinel_feature] at hfit ⊢ <;>
    simp (disch := omega) only [toInt_uadd, toInt_uadd2, toInt_uadd3, toInt_uadd4] <;>
    simp (disch := omega) only [List.filter_cons, isSentinel_of_nonneg, isSentinel_phase,
      isSentinel_feature, Bool.not_true, Bool.not_false, Bool.false_eq_true, if_true, if_false,
      List.filter_nil] <;>
    (refine ⟨?_, by simp⟩; simp only [List.nodup_cons, List.mem_cons, List.mem_singleton,
      List.not_mem_nil, List.nodup_nil, or_false, not_or, and_true, not_false_eq_true]; omega)

/-- C6, as the code has it: for every choice of the solvent, polymer and energy flags,
every disabled canonical component in {0,1,2} and every `PVOffset` with
`PVOffset + numEq ≤ 2 ^ 31` (the last slot is representable as an `int`), the
primary variable offsets that are not a disabled marker are exactly the integers of
`[PVOffset, PVOffset + numEq)`, and `numEq` is 2 plus the number of enabled features
among solvent, polymer and energy. -/
theorem active_offsets_eq_slot_range (c : BlackOilTwoPhaseIndices)
    (hd : c.disabledCanonicalCompIdx < 3)
    (hfit : (c.PVOffset : Int) + c.numEq ≤ 2 ^ 31) :
    (∀ x : Int, x ∈ c.activePrimaryVariableIdxs ↔ c.InSlotRange x) ∧
      c.numEq = 2 + (c.numEnabledFeatures : Int) := by
  obtain ⟨s, p, e, off, d⟩ := c
  simp only at hd
  interval_cases d <;> cases s <;> cases p <;> cases e <;>
    simp only [activePrimaryVariableIdxs, primaryVariableIdxs, InSlotRange, numEnabledFeatures,
      waterEnabled, gasEnabled, enableSolvent, enablePolymer, enableEnergy, waterSaturationIdx,
      compositionSwitchIdx, solventSaturationIdx, polymerConcentrationIdx, temperatureIdx,
      pressureSwitchIdx, slotOr, offsetPlus, numSolvents_, numPolymers_, numEnergy_, numEq,
      toUnsigned_numPhases_pred] at hfit ⊢ <;>
    simp [numPhases, toUnsigned_zero, toUnsigned_one, toInt_sentinel_phase,
      toInt_sentinel_feature] at hfit ⊢ <;>
    simp (disch := omega) only [toInt_uadd, toInt_uadd2, toInt_uadd3, toInt_uadd4] <;>
    (intro x; simp only [isSentinel, Bool.or_eq_false_iff, beq_eq_false_iff_ne, ne_eq]; omega)

theorem active_offsets_eq_slot_range_witness :
    let c : BlackOilTwoPhaseIndices := ⟨true, true, false, 10, 2⟩
    (∀ x : Int, x ∈ c.activePrimaryVariableIdxs ↔ c.InSlotRange x) ∧
      c.numEq = 2 + (c.numEnabledFeatures : Int) :=
  active_offsets_eq_slot_range ⟨true, true, false, 10, 2⟩ (by decide) (by decide)

/-- C6 fails as stated: with `PVOffset = 4294967295` and the gas component disabled,
`pressureSwitchIdx = PVOffset + 1` wraps to 0, so 0 is a non-sentinel offset outside
`[PVOffset, PVOffset + numEq)`. -/
theorem active_offsets_not_slot_range_at_uint_max :
    let c : BlackOilTwoPhaseIndices := ⟨false, false, false, 4294967295, 2⟩
    ¬ ∀ x : Int, x ∈ c.activePrimaryVariableIdxs ↔ c.InSlotRange x := by
  intro c h
  exact absurd ((h 0).1 (by decide)) (by decide)

/-- C7, as the code has it: the offset of a disabled role is one of two markers. A
disabled water saturation or composition switch offset is -10000; a disabled solvent,
polymer or energy offset, primary variable and equation alike, is -1000. -/
theorem disabled_offsets_are_markers (c : BlackOilTwoPhaseIndices) :
    (c.waterEnabled = false → c.waterSaturationIdx = -10000) ∧
    (c.gasEnabled = false → c.compositionSwitchIdx = -10000) ∧
    (c.enableSolvent = false → c.solventSaturationIdx = -1000 ∧ c.contiSolventEqIdx = -1000) ∧
    (c.enablePolymer = false →
      c.polymerConcentrationIdx = -1000 ∧ c.contiPolymerEqIdx = -1000) ∧
    (c.enableEnergy = false → c.temperatureIdx = -1000 ∧ c.contiEnergyEqIdx = -1000) := by
  refine ⟨fun h => ?_, fun h => ?_, fun h => ?_, fun h => ?_, fun h => ?_⟩
  · simp [waterSaturationIdx, slotOr, h, toInt_sentinel_phase]
  · simp [compositionSwitchIdx, slotOr, h, toInt_sentinel_phase]
  · simp [solventSaturationIdx, contiSolventEqIdx, slotOr, h, toInt_sentinel_feature]
  · simp [polymerConcentrationIdx, contiPolymerEqIdx, slotOr, h, toInt_sentinel_feature]
  · simp [temperatureIdx, contiEnergyEqIdx, slotOr, h, toInt_sentinel_feature]

theorem disabled_offsets_are_markers_witness :
    waterSaturationIdx ⟨false, false, false, 0, 1⟩ = -10000 ∧
      solventSaturationIdx ⟨false, false, false, 0, 1⟩ = -1000 :=
  ⟨(disabled_offsets_are_markers ⟨false, false, false, 0, 1⟩).1 (by decide),
   ((disabled_offsets_are_markers ⟨false, false, false, 0, 1⟩).2.2.1 (by decide)).1⟩

/-- C7 fails as stated: in the oil-gas configuration without solvent both the water
saturation and the solvent saturation are disabled, and their offsets are -10000 and
-1000, so no single value is the offset of every disabled role. -/
theorem no_single_sentinel :
    let c : BlackOilTwoPhaseIndices := ⟨false, false, false, 0, 1⟩
    c.waterEnabled = false ∧ c.enableSolvent = false ∧
      ¬ ∃ s : Int, c.waterSaturationIdx = s ∧ c.solventSaturationIdx = s := by
  refine ⟨by decide, by decide, ?_⟩
  rintro ⟨s, h1, h2⟩
  exact absurd (h1.trans h2.symm) (by decide)

end Ewoms.BlackOilTwoPhaseIndices

namespace Dune

section

variable {U A J S C Scalar Cell Face LocalCoord WorldCoord : Type}

/-! ## The retry loop of `update` -/

theorem updateLoop_converged (lj : LocalJacobian J Cell Scalar)
    (nm : NewtonMethod U A J S C Scalar) (n : Nat) (solver : S) (r : Run U A J C Scalar)
    (h : (attempt lj nm solver r).converged = true) :
    updateLoop lj nm n solver r = { thrown := none, run := (attempt lj nm solver r).run } := by
  rw [updateLoop]; simp [h]

theorem updateLoop_exhausted (lj : LocalJacobian J Cell Scalar)
    (nm : NewtonMethod U A J S C Scalar) (n : Nat) (solver : S) (r : Run U A J C Scalar)
    (h : (attempt lj nm solver r).converged = false) (hn : 10 ≤ n) :
    updateLoop lj nm n solver r =
      { thrown := some { text := mathErrorText, dt := (attempt lj nm solver r).run.dt },
        run := (attempt lj nm solver r).run } := by
  rw [updateLoop]; simp [h, hn]

theorem updateLoop_rejected (lj : LocalJacobian J Cell Scalar)
    (nm : NewtonMethod U A J S C Scalar) (n : Nat) (solver : S) (r : Run U A J C Scalar)
    (h : (attempt lj nm solver r).converged = false) (hn : n < 10) :
    updateLoop lj nm n solver r =
      updateLoop lj nm (n + 1) (attempt lj nm solver r).solver
        (retry (attempt lj nm solver r).run) := by
  rw [updateLoop]; simp [h, Nat.not_le.mpr hn]

theorem numExecuteCalls_attempt (lj : LocalJacobian J Cell Scalar)
    (nm : NewtonMethod U A J S C Scalar) (solver : S) (r : Run U A J C Scalar) :
    numExecuteCalls (attempt lj nm solver r).run.calls = numExecuteCalls r.calls + 1 := by
  simp [attempt, numExecuteCalls, List.countP_append, List.countP_cons, Call.isExecute]

theorem numExecuteCalls_retry (r : Run U A J C Scalar) :
    numExecuteCalls (retry r).calls = numExecuteCalls r.calls := by
  simp [retry, numExecuteCalls, List.countP_append, List.countP_cons, Call.isExecute]

theorem attempt_converged (lj : LocalJacobian J Cell Scalar)
    (nm : NewtonMethod U A J S C Scalar) (solver : S) (r : Run U A J C Scalar) :
    (attempt lj nm solver r).converged =
      (nm.execute solver { r.model with _localJacobian := lj.setDt r.model._localJacobian r.dt }
        r.controller).converged := rfl

theorem attempt_model (lj : LocalJacobian J Cell Scalar)
    (nm : NewtonMethod U A J S C Scalar) (solver : S) (r : Run U A J C Scalar) :
    (attempt lj nm solver r).run.model =
      (nm.execute solver { r.model with _localJacobian := lj.setDt r.model._localJacobian r.dt }
        r.controller).model := rfl

theorem updateLoop_never_converging (lj : LocalJacobian J Cell Scalar)
    (nm : NewtonMethod U A J S C Scalar)
    (hnc : ∀ s m c, (nm.execute s m c).converged = false) :
    ∀ (k n : Nat), n + k = 10 → ∀ (solver : S) (r : Run U A J C Scalar),
      (∃ dtLast, (updateLoop lj nm n solver r).thrown = some ⟨mathErrorText, dtLast⟩) ∧
        numExecuteCalls (updateLoop lj nm n solver r).run.calls =
          numExecuteCalls r.calls + (k + 1) := by
  intro k
  induction k with
  | zero =>
    intro n hn solver r
    have hc : (attempt lj nm solver r).converged = false := by rw [attempt_converged]; apply hnc
    rw [updateLoop_exhausted lj nm n solver r hc (by omega)]
    exact ⟨⟨_, rfl⟩, numExecuteCalls_attempt lj nm solver r⟩
  | succ k ih =>
    intro n hn solver r
    have hc : (attempt lj nm solver r).converged = false := by rw [attempt_converged]; apply hnc
    rw [updateLoop_rejected lj nm n solver r hc (by omega)]
    obtain ⟨hthrown, hcount⟩ := ih (n + 1) (by omega) (attempt lj nm solver r).solver
      (retry (attempt lj nm solver r).run)
    refine ⟨hthrown, ?_⟩
    rw [hcount, numExecuteCalls_retry, numExecuteCalls_attempt]
    omega

theorem updateLoop_uPrev (lj : LocalJacobian J Cell Scalar)
    (nm : NewtonMethod U A J S C Scalar)
    (hprev : ∀ s m c, (nm.execute s m c).model._uPrev = m._uPrev) :
    ∀ (k n : Nat), n + k = 10 → ∀ (solver : S) (r : Run U A J C Scalar),
      (updateLoop lj nm n solver r).run.model._uPrev = r.model._uPrev := by
  intro k
  induction k with
  | zero =>
    intro n hn solver r
    have hm : (attempt lj nm solver r).run.model._uPrev = r.model._uPrev := by
      rw [attempt_model, hprev]
    cases hc : (attempt lj nm solver r).converged
    · rw [updateLoop_exhausted lj nm n solver r hc (by omega)]; exact hm
    · rw [updateLoop_converged lj nm n solver r hc]; exact hm
  | succ k ih =>
    intro n hn solver r
    have hm : (attempt lj nm solver r).run.model._uPrev = r.model._uPrev := by
      rw [attempt_model, hprev]
    cases hc : (attempt lj nm solver r).converged
    · rw [updateLoop_rejected lj nm n solver r hc (by omega),
        ih (n + 1) (by omega) (attempt lj nm solver r).solver (retry (attempt lj nm solver r).run)]
      exact hm
    · rw [updateLoop_converged lj nm n solver r hc]; exact hm

theorem attemptStart_uPrev (lj : LocalJacobian J Cell Scalar)
    (nm : NewtonMethod U A J S C Scalar)
    (hprev : ∀ s m c, (nm.execute s m c).model._uPrev = m._uPrev)
    (solver : S) (r : Run U A J C Scalar) (k : Nat) :
    (attemptStart lj nm solver r k).2.model._uPrev = r.model._uPrev := by
  induction k with
  | zero => rfl
  | succ k ih =>
    show (retry (attempt lj nm _ _).run).model._uPrev = _
    rw [← ih]
    show (attempt lj nm _ _).run.model._uPrev = _
    rw [attempt_model, hprev]

theorem attemptStart_succ (lj : LocalJacobian J Cell Scalar)
    (nm : NewtonMethod U A J S C Scalar) (solver : S) (r : Run U A J C Scalar) (k : Nat) :
    attemptStart lj nm solver r (k + 1) =
      attemptStart lj nm (attempt lj nm solver r).solver (retry (attempt lj nm solver r).run) k := by
  induction k with
  | zero => rfl
  | succ k ih =>
    show (_, _) = (_, _)
    rw [ih]

theorem updateLoop_returned (lj : LocalJacobian J Cell Scalar)
    (nm : NewtonMethod U A J S C Scalar) :
    ∀ (m n : Nat), n + m = 10 → ∀ (solver : S) (r : Run U A J C Scalar),
      (updateLoop lj nm n solver r).thrown = none →
      ∃ k, k ≤ m ∧
        (∀ j, j < k → (attempt lj nm (attemptStart lj nm solver r j).1
          (attemptStart lj nm solver r j).2).converged = false) ∧
        (attempt lj nm (attemptStart lj nm solver r k).1
          (attemptStart lj nm solver r k).2).converged = true ∧
        (updateLoop lj nm n solver r).run =
          (attempt lj nm (attemptStart lj nm solver r k).1
            (attemptStart lj nm solver r k).2).run := by
  intro m
  induction m with
  | zero =>
    intro n hn solver r h
    cases hc : (attempt lj nm solver r).converged
    · rw [updateLoop_exhausted lj nm n solver r hc (by omega)] at h
      simp at h
    · refine ⟨0, le_refl _, fun j hj => absurd hj (Nat.not_lt_zero j), hc, ?_⟩
      rw [updateLoop_converged lj nm n solver r hc]
      rfl
  | succ m ih =>
    intro n hn solver r h
    cases hc : (attempt lj nm solver r).converged
    · rw [updateLoop_rejected lj nm n solver r hc (by omega)] at h ⊢
      obtain ⟨k, hk, hrej, hconv, hrun⟩ := ih (n + 1) (by omega) _ _ h
      refine ⟨k + 1, by omega, ?_, ?_, ?_⟩
      · intro j hj
        cases j with
        | zero => exact hc
        | succ j => rw [attemptStart_succ]; exact hrej j (by omega)
      · rw [attemptStart_succ]; exact hconv
      · rw [attemptStart_succ]; exact hrun
    · refine ⟨0, Nat.zero_le _, fun j hj => absurd hj (Nat.not_lt_zero j), hc, ?_⟩
      rw [updateLoop_converged lj nm n solver r hc]
      rfl

theorem update_of_thrown (prob : Problem Cell Face LocalCoord WorldCoord U)
    (lj : LocalJacobian J Cell Scalar) (nm : NewtonMethod U A J S C Scalar)
    (model : BoxModel U A J) (controller : C) (dt nextDt : Scalar) (e : MathError Scalar)
    (ht : (updateLoop lj nm 0 (loopEntry prob lj nm model controller dt nextDt).1
      (loopEntry prob lj nm model controller dt nextDt).2).thrown = some e) :
    model.update prob lj nm controller dt nextDt =
      updateLoop lj nm 0 (loopEntry prob lj nm model controller dt nextDt).1
        (loopEntry prob lj nm model controller dt nextDt).2 := by
  simp only [BoxModel.update, ht]

theorem update_of_returned (prob : Problem Cell Face LocalCoord WorldCoord U)
    (lj : LocalJacobian J Cell Scalar) (nm : NewtonMethod U A J S C Scalar)
    (model : BoxModel U A J) (controller : C) (dt nextDt : Scalar)
    (ht : (updateLoop lj nm 0 (loopEntry prob lj nm model controller dt nextDt).1
      (loopEntry prob lj nm model controller dt nextDt).2).thrown = none) :
    model.update prob lj nm controller dt nextDt =
      { thrown := none
        run :=
          { (updateLoop lj nm 0 (loopEntry prob lj nm model controller dt nextDt).1
              (loopEntry prob lj nm model controller dt nextDt).2).run with
            model :=
              { (updateLoop lj nm 0 (loopEntry prob lj nm model controller dt nextDt).1
                  (loopEntry prob lj nm model controller dt nextDt).2).run.model with
                _uPrev := (updateLoop lj nm 0
                  (loopEntry prob lj nm model controller dt nextDt).1
                  (loopEntry prob lj nm model controller dt nextDt).2).run.model._uCur }
            calls := (updateLoop lj nm 0 (loopEntry prob lj nm model controller dt nextDt).1
              (loopEntry prob lj nm model controller dt nextDt).2).run.calls ++
                [Call.assignPrev] } } := by
  simp only [BoxModel.update, ht]

theorem update_thrown_iff (prob : Problem Cell Face LocalCoord WorldCoord U)
    (lj : LocalJacobian J Cell Scalar) (nm : NewtonMethod U A J S C Scalar)
    (model : BoxModel U A J) (controller : C) (dt nextDt : Scalar) :
    (model.update prob lj nm controller dt nextDt).thrown =
      (updateLoop lj nm 0 (loopEntry prob lj nm model controller dt nextDt).1
        (loopEntry prob lj nm model controller dt nextDt).2).thrown := by
  cases ht : (updateLoop lj nm 0 (loopEntry prob lj nm model controller dt nextDt).1
      (loopEntry prob lj nm model controller dt nextDt).2).thrown with
  | none => rw [update_of_returned prob lj nm model controller dt nextDt ht]
  | some e => rw [update_of_thrown prob lj nm model controller dt nextDt e ht, ht]

/-! ## `BoxModel::update` -/

/-- C8: with a Newton solver that reports non-convergence on every attempt, `update`
makes exactly 11 `solver.execute` calls and ends by throwing the `Dune::MathError`; it
does not return normally. -/
theorem update_never_converging (prob : Problem Cell Face LocalCoord WorldCoord U)
    (lj : LocalJacobian J Cell Scalar) (nm : NewtonMethod U A J S C Scalar)
    (hnc : ∀ s m c, (nm.execute s m c).converged = false)
    (model : BoxModel U A J) (controller : C) (dt nextDt : Scalar) :
    (∃ dtLast, (model.update prob lj nm controller dt nextDt).thrown =
        some ⟨mathErrorText, dtLast⟩) ∧
      (model.update prob lj nm controller dt nextDt).thrown ≠ none ∧
      numExecuteCalls (model.update prob lj nm controller dt nextDt).run.calls = 11 := by
  obtain ⟨⟨dtLast, ht⟩, hcount⟩ := updateLoop_never_converging lj nm hnc 10 0 rfl
    (loopEntry prob lj nm model controller dt nextDt).1
    (loopEntry prob lj nm model controller dt nextDt).2
  have hu : model.update prob lj nm controller dt nextDt =
      updateLoop lj nm 0 (loopEntry prob lj nm model controller dt nextDt).1
        (loopEntry prob lj nm model controller dt nextDt).2 := by
    simp only [BoxModel.update, ht]
  rw [hu]
  refine ⟨⟨dtLast, ht⟩, by rw [ht]; simp, ?_⟩
  rw [hcount]
  rfl

theorem update_never_converging_witness :
    (∃ dtLast, (exampleModel.update exampleProblem exampleJacobian (exampleNewton none)
        () 1024 0).thrown = some ⟨mathErrorText, dtLast⟩) ∧
      (exampleModel.update exampleProblem exampleJacobian (exampleNewton none)
        () 1024 0).thrown ≠ none ∧
      numExecuteCalls (exampleModel.update exampleProblem exampleJacobian (exampleNewton none)
        () 1024 0).run.calls = 11 :=
  update_never_converging exampleProblem exampleJacobian (exampleNewton none)
    (fun _ _ _ => rfl) exampleModel () 1024 0

/-- C9: if `solver.execute` never writes the previous solution, then at the start of
every attempt of `update` and after every attempt, the rejected ones among them, the
previous solution is the one held at entry to `update`; and when `update` ends by
throwing, the previous solution it leaves behind is the one held at entry. -/
theorem update_rejected_keeps_previous (prob : Problem Cell Face LocalCoord WorldCoord U)
    (lj : LocalJacobian J Cell Scalar) (nm : NewtonMethod U A J S C Scalar)
    (hprev : ∀ s m c, (nm.execute s m c).model._uPrev = m._uPrev)
    (model : BoxModel U A J) (controller : C) (dt nextDt : Scalar) :
    (∀ k,
      (attemptStart lj nm (loopEntry prob lj nm model controller dt nextDt).1
        (loopEntry prob lj nm model controller dt nextDt).2 k).2.model._uPrev = model._uPrev ∧
      (attempt lj nm
        (attemptStart lj nm (loopEntry prob lj nm model controller dt nextDt).1
          (loopEntry prob lj nm model controller dt nextDt).2 k).1
        (attemptStart lj nm (loopEntry prob lj nm model controller dt nextDt).1
          (loopEntry prob lj nm model controller dt nextDt).2 k).2).run.model._uPrev =
        model._uPrev) ∧
    ((model.update prob lj nm controller dt nextDt).thrown ≠ none →
      (model.update prob lj nm controller dt nextDt).run.model._uPrev = model._uPrev) := by
  have hstart : ∀ k,
      (attemptStart lj nm (loopEntry prob lj nm model controller dt nextDt).1
        (loopEntry prob lj nm model controller dt nextDt).2 k).2.model._uPrev = model._uPrev :=
    fun k => attemptStart_uPrev lj nm hprev _ _ k
  refine ⟨fun k => ⟨hstart k, ?_⟩, ?_⟩
  · rw [attempt_model, hprev]
    exact hstart k
  · intro hthrown
    have hloop := updateLoop_uPrev lj nm hprev 10 0 rfl
      (loopEntry prob lj nm model controller dt nextDt).1
      (loopEntry prob lj nm model controller dt nextDt).2
    cases ht : (updateLoop lj nm 0 (loopEntry prob lj nm model controller dt nextDt).1
        (loopEntry prob lj nm model controller dt nextDt).2).thrown with
    | none =>
      exfalso
      apply hthrown
      simp only [BoxModel.update, ht]
    | some e =>
      have hu : model.update prob lj nm controller dt nextDt =
          updateLoop lj nm 0 (loopEntry prob lj nm model controller dt nextDt).1
            (loopEntry prob lj nm model controller dt nextDt).2 := by
        simp only [BoxModel.update, ht]
      rw [hu, hloop]
      rfl

theorem update_rejected_keeps_previous_witness :
    (exampleModel.update exampleProblem exampleJacobian (exampleNewton none)
        () 1024 0).thrown ≠ none ∧
      (exampleModel.update exampleProblem exampleJacobian (exampleNewton none)
        () 1024 0).run.model._uPrev = [1, 2, 3] := by
  have hthrown : (exampleModel.update exampleProblem exampleJacobian (exampleNewton none)
      () 1024 0).thrown ≠ none := by
    rw [update_thrown_iff]
    obtain ⟨⟨dtLast, ht⟩, _⟩ := updateLoop_never_converging exampleJacobian (exampleNewton none)
      (fun _ _ _ => rfl) 10 0 rfl
      (loopEntry exampleProblem exampleJacobian (exampleNewton none) exampleModel () 1024 0).1
      (loopEntry exampleProblem exampleJacobian (exampleNewton none) exampleModel () 1024 0).2
    rw [ht]
    simp
  exact ⟨hthrown, (update_rejected_keeps_previous exampleProblem exampleJacobian
    (exampleNewton none) (fun _ _ _ => rfl) exampleModel () 1024 0).2 hthrown⟩

/-- C10: when `update` returns normally, some attempt `k` (at most the tenth retry)
converged after `k` rejected ones, and the previous solution `update` leaves behind is
the current solution as that converged solve left it: the two lists are equal, so
`uOldTimeStep` and `u` agree at every vertex. -/
theorem update_returned_commits (prob : Problem Cell Face LocalCoord WorldCoord U)
    (lj : LocalJacobian J Cell Scalar) (nm : NewtonMethod U A J S C Scalar)
    (model : BoxModel U A J) (controller : C) (dt nextDt : Scalar)
    (hret : (model.update prob lj nm controller dt nextDt).thrown = none) :
    (model.update prob lj nm controller dt nextDt).run.model._uPrev =
        (model.update prob lj nm controller dt nextDt).run.model._uCur ∧
      (∀ v : Nat, (model.update prob lj nm controller dt nextDt).run.model._uPrev[v]? =
        (model.update prob lj nm controller dt nextDt).run.model._uCur[v]?) ∧
      ∃ k, k ≤ 10 ∧
        (∀ j, j < k →
          (attempt lj nm
            (attemptStart lj nm (loopEntry prob lj nm model controller dt nextDt).1
              (loopEntry prob lj nm model controller dt nextDt).2 j).1
            (attemptStart lj nm (loopEntry prob lj nm model controller dt nextDt).1
              (loopEntry prob lj nm model controller dt nextDt).2 j).2).converged = false) ∧
        (attempt lj nm
          (attemptStart lj nm (loopEntry prob lj nm model controller dt nextDt).1
            (loopEntry prob lj nm model controller dt nextDt).2 k).1
          (attemptStart lj nm (loopEntry prob lj nm model controller dt nextDt).1
            (loopEntry prob lj nm model controller dt nextDt).2 k).2).converged = true ∧
        (model.update prob lj nm controller dt nextDt).run.model._uPrev =
          (attempt lj nm
            (attemptStart lj nm (loopEntry prob lj nm model controller dt nextDt).1
              (loopEntry prob lj nm model controller dt nextDt).2 k).1
            (attemptStart lj nm (loopEntry prob lj nm model controller dt nextDt).1
              (loopEntry prob lj nm model controller dt nextDt).2 k).2).run.model._uCur := by
  rw [update_thrown_iff] at hret
  obtain ⟨k, hk, hrej, hconv, hrun⟩ := updateLoop_returned lj nm 10 0 rfl _ _ hret
  rw [update_of_returned prob lj nm model controller dt nextDt hret]
  refine ⟨rfl, fun v => rfl, k, hk, hrej, hconv, ?_⟩
  show (updateLoop lj nm 0 _ _).run.model._uCur = _
  rw [hrun]

theorem update_returned_commits_witness :
    (exampleModel.update exampleProblem exampleJacobian (exampleNewton (some 3))
        () 1024 0).thrown = none ∧
      (exampleModel.update exampleProblem exampleJacobian (exampleNewton (some 3))
        () 1024 0).run.model._uPrev = [103, 9, 10] ∧
      (exampleModel.update exampleProblem exampleJacobian (exampleNewton (some 3))
        () 1024 0).run.model._uCur = [103, 9, 10] := by
  have hret : (exampleModel.update exampleProblem exampleJacobian (exampleNewton (some 3))
      () 1024 0).thrown = none := by
    simp [BoxModel.update, updateLoop, attempt, retry, loopEntry, exampleNewton]
  have hcur : (exampleModel.update exampleProblem exampleJacobian (exampleNewton (some 3))
      () 1024 0).run.model._uCur = [103, 9, 10] := by
    have hd : (_applyDirichletBoundaries exampleProblem exampleJacobian exampleModel._uCur
        (exampleJacobian.setOldSolution
          (exampleJacobian.setCurrentSolution exampleModel._localJacobian))).1 =
        [100, 6, 7] := by decide
    simp [BoxModel.update, updateLoop, attempt, retry, loopEntry, exampleNewton, hd]
  have h := (update_returned_commits exampleProblem exampleJacobian (exampleNewton (some 3))
    exampleModel () 1024 0 hret).1
  exact ⟨hret, h.trans hcur, hcur⟩

end

end Dune

namespace Dune

section

variable {U A J S C L Scalar Cell Face LocalCoord WorldCoord : Type}

/-! ## Writes into a `BoxFunction` -/

theorem writeEntry_length (f : U → U) (u : List U) (g : Nat) :
    (writeEntry f u g).length = u.length := by
  induction u generalizing g with
  | nil => rfl
  | cons x xs ih =>
    cases g with
    | zero => rfl
    | succ n => simp [writeEntry, ih]

theorem writeEntry_getElem?_self (f : U → U) (u : List U) (g : Nat) :
    (writeEntry f u g)[g]? = (u[g]?).map f := by
  induction u generalizing g with
  | nil => simp [writeEntry]
  | cons x xs ih =>
    cases g with
    | zero => simp [writeEntry]
    | succ n => simp [writeEntry, ih]

theorem writeEntry_getElem?_of_ne (f : U → U) (u : List U) (g k : Nat) (h : g ≠ k) :
    (writeEntry f u g)[k]? = u[k]? := by
  induction u generalizing g k with
  | nil => simp [writeEntry]
  | cons x xs ih =>
    cases g with
    | zero =>
      cases k with
      | zero => exact absurd rfl h
      | succ k => simp [writeEntry]
    | succ n =>
      cases k with
      | zero => simp [writeEntry]
      | succ k => simp [writeEntry, ih n k (fun e => h (by rw [e]))]

/-- A sequence of writes, the item `i` writing `f i` at the index `idx i`: the entry `g`
ends as the fold of the writes that hit `g`, in order, over its old value. -/
theorem foldl_writeEntry_getElem? {ι : Type} (idx : ι → Nat) (f : ι → U → U)
    (items : List ι) (u : List U) (g : Nat) :
    (items.foldl (fun v i => writeEntry (f i) v (idx i)) u)[g]? =
      (u[g]?).map (fun x => (items.filter (fun i => idx i == g)).foldl (fun y i => f i y) x) := by
  induction items generalizing u with
  | nil => simp
  | cons i rest ih =>
    rw [List.foldl_cons, ih]
    by_cases h : idx i = g
    · subst h
      rw [writeEntry_getElem?_self]
      simp [List.filter_cons, Option.map_map, Function.comp_def]
    · rw [writeEntry_getElem?_of_ne _ _ _ _ h]
      simp [List.filter_cons, h]

theorem foldl_writeEntry_length {ι : Type} (idx : ι → Nat) (f : ι → U → U)
    (items : List ι) (u : List U) :
    (items.foldl (fun v i => writeEntry (f i) v (idx i)) u).length = u.length := by
  induction items generalizing u with
  | nil => rfl
  | cons i rest ih => rw [List.foldl_cons, ih, writeEntry_length]

theorem foldl_flatMap_eq {α β γ : Type} (f : γ → β → γ) (g : α → List β) (l : List α) (b : γ) :
    (l.flatMap g).foldl f b = l.foldl (fun acc x => (g x).foldl f acc) b := by
  induction l generalizing b with
  | nil => rfl
  | cons x xs ih => rw [List.flatMap_cons, List.foldl_append, ih, List.foldl_cons]

theorem foldl_ite_eq_foldl_filter {α γ : Type} (p : α → Bool) (h : γ → α → γ) (l : List α)
    (b : γ) :
    l.foldl (fun acc x => if p x then h acc x else acc) b = (l.filter p).foldl h b := by
  induction l generalizing b with
  | nil => rfl
  | cons x xs ih =>
    by_cases hp : p x = true
    · simp [List.filter_cons, hp, ih]
    · simp [List.filter_cons, hp, ih]

/-! ## `BoxModel::evalGlobalDefect` -/

theorem scatterAdd_getElem? [Add U] (prob : Problem Cell Face LocalCoord WorldCoord U)
    (ld : LocalDefect J Cell U L) (cell : Cell) (d : L) (gd : List U) (g : Nat) :
    (scatterAdd prob ld cell d gd)[g]? =
      (gd[g]?).map (fun x =>
        (contributionsOfCell prob ld g (cell, d)).foldl (fun y c => y + c) x) := by
  unfold scatterAdd contributionsOfCell
  rw [foldl_writeEntry_getElem?
    (fun localId => prob.vertexIndex cell (prob.shapeFnEntity cell localId))
    (fun localId x => x + ld.atSubContVol d localId)]
  simp only [List.foldl_map]

theorem scatterAdd_length [Add U] (prob : Problem Cell Face LocalCoord WorldCoord U)
    (ld : LocalDefect J Cell U L) (cell : Cell) (d : L) (gd : List U) :
    (scatterAdd prob ld cell d gd).length = gd.length := by
  unfold scatterAdd
  exact foldl_writeEntry_length
    (fun localId => prob.vertexIndex cell (prob.shapeFnEntity cell localId))
    (fun localId x => x + ld.atSubContVol d localId) _ gd

theorem evalGlobalDefectLoop_getElem? [Add U]
    (prob : Problem Cell Face LocalCoord WorldCoord U) (ld : LocalDefect J Cell U L)
    (uCur uPrev : List U) (g : Nat) :
    ∀ (cells : List Cell) (gd : List U) (jac : J),
      (evalGlobalDefectLoop prob ld uCur uPrev cells gd jac).globDefect[g]? =
        (gd[g]?).map (fun x =>
          (contributions prob ld (localDefects ld uCur uPrev cells jac) g).foldl
            (fun y c => y + c) x) := by
  intro cells
  induction cells with
  | nil => intro gd jac; simp [evalGlobalDefectLoop, localDefects, contributions]
  | cons cell rest ih =>
    intro gd jac
    rcases hc : evalCellDefect ld uCur uPrev jac cell with ⟨_ | d, jac1⟩
    · simp [evalGlobalDefectLoop, localDefects, contributions, hc]
    · simp only [evalGlobalDefectLoop, localDefects, hc, ih, scatterAdd_getElem?,
        contributions, List.flatMap_cons, List.foldl_append, Option.map_map]
      rfl

theorem evalGlobalDefectLoop_length [Add U]
    (prob : Problem Cell Face LocalCoord WorldCoord U) (ld : LocalDefect J Cell U L)
    (uCur uPrev : List U) :
    ∀ (cells : List Cell) (gd : List U) (jac : J),
      (evalGlobalDefectLoop prob ld uCur uPrev cells gd jac).globDefect.length = gd.length := by
  intro cells
  induction cells with
  | nil => intro gd jac; rfl
  | cons cell rest ih =>
    intro gd jac
    rcases hc : evalCellDefect ld uCur uPrev jac cell with ⟨_ | d, jac1⟩
    · simp [evalGlobalDefectLoop, hc]
    · simp only [evalGlobalDefectLoop, hc, ih, scatterAdd_length]

theorem evalGlobalDefectLoop_returned [Add U]
    (prob : Problem Cell Face LocalCoord WorldCoord U) (ld : LocalDefect J Cell U L)
    (uCur uPrev : List U) :
    ∀ (cells : List Cell) (gd : List U) (jac : J),
      (evalGlobalDefectLoop prob ld uCur uPrev cells gd jac).threw = false →
      (localDefects ld uCur uPrev cells jac).map Prod.fst = cells := by
  intro cells
  induction cells with
  | nil => intro gd jac _; rfl
  | cons cell rest ih =>
    intro gd jac h
    rcases hc : evalCellDefect ld uCur uPrev jac cell with ⟨_ | d, jac1⟩
    · simp [evalGlobalDefectLoop, hc] at h
    · simp only [evalGlobalDefectLoop, hc] at h
      simp only [localDefects, hc, List.map_cons, ih _ _ h]

theorem evalGlobalDefectLoop_threw [Add U]
    (prob : Problem Cell Face LocalCoord WorldCoord U) (ld : LocalDefect J Cell U L)
    (uCur uPrev : List U) :
    ∀ (cells : List Cell) (gd : List U) (jac : J),
      (evalGlobalDefectLoop prob ld uCur uPrev cells gd jac).threw = true →
      ∃ pre c post, cells = pre ++ c :: post ∧
        (localDefects ld uCur uPrev cells jac).map Prod.fst = pre ∧
        ∃ jacBefore, (evalCellDefect ld uCur uPrev jacBefore c).1 = none := by
  intro cells
  induction cells with
  | nil => intro gd jac h; simp [evalGlobalDefectLoop] at h
  | cons cell rest ih =>
    intro gd jac h
    rcases hc : evalCellDefect ld uCur uPrev jac cell with ⟨_ | d, jac1⟩
    · exact ⟨[], cell, rest, rfl, by simp [localDefects, hc], jac, by rw [hc]⟩
    · simp only [evalGlobalDefectLoop, hc] at h
      obtain ⟨pre, c, post, hcells, hpre, hfail⟩ := ih _ _ h
      refine ⟨cell :: pre, c, post, by rw [hcells]; rfl, ?_, hfail⟩
      simp only [localDefects, hc, List.map_cons, hpre]

theorem map_zero_eq_of_length_eq [Zero U] (gd gd' : List U) (h : gd'.length = gd.length) :
    gd'.map (fun _ => (0 : U)) = gd.map (fun _ => (0 : U)) := by
  induction gd generalizing gd' with
  | nil =>
    cases gd' with
    | nil => rfl
    | cons x xs => simp at h
  | cons y ys ih =>
    cases gd' with
    | nil => simp at h
    | cons x xs => simp only [List.map_cons, ih xs (by simpa using h)]

/-- C11: when `evalGlobalDefect` returns, every cell has contributed, and for every
vertex id `g` of the global defect the entry `globDefect[g]` is the sum of the local
defect values of all pairs (cell, local vertex id) whose global vertex index is `g`, so
a vertex shared by several cells holds the sum of their contributions; the global defect
keeps its length, and the result is the same for every global defect of that length
passed in. -/
theorem evalGlobalDefect_sums_contributions [AddMonoid U]
    (prob : Problem Cell Face LocalCoord WorldCoord U) (ld : LocalDefect J Cell U L)
    (model : BoxModel U A J) (globDefect : List U)
    (hret : (model.evalGlobalDefect prob ld globDefect).threw = false) :
    (model.evalGlobalDefect prob ld globDefect).globDefect.length = globDefect.length ∧
      (localDefects ld model._uCur model._uPrev prob.leafCells model._localJacobian).map
        Prod.fst = prob.leafCells ∧
      (∀ g, g < globDefect.length →
        (model.evalGlobalDefect prob ld globDefect).globDefect[g]? =
          some (contributions prob ld
            (localDefects ld model._uCur model._uPrev prob.leafCells model._localJacobian)
            g).sum) ∧
      ∀ other : List U, other.length = globDefect.length →
        model.evalGlobalDefect prob ld other = model.evalGlobalDefect prob ld globDefect := by
  refine ⟨?_, ?_, ?_, ?_⟩
  · simp [BoxModel.evalGlobalDefect, evalGlobalDefectLoop_length]
  · exact evalGlobalDefectLoop_returned prob ld _ _ _ _ _ hret
  · intro g hg
    simp only [BoxModel.evalGlobalDefect, evalGlobalDefectLoop_getElem?, List.getElem?_map,
      List.getElem?_eq_getElem hg, Option.map_some', List.sum_eq_foldl]
  · intro other hlen
    simp only [BoxModel.evalGlobalDefect, map_zero_eq_of_length_eq globDefect other hlen]

theorem evalGlobalDefect_sums_contributions_witness :
    (exampleModel.evalGlobalDefect exampleProblem (exampleLocalDefect none) [7, 7, 7]).threw =
        false ∧
      (exampleModel.evalGlobalDefect exampleProblem (exampleLocalDefect none)
        [7, 7, 7]).globDefect = [1, 12, 20] ∧
      (exampleModel.evalGlobalDefect exampleProblem (exampleLocalDefect none)
        [7, 7, 7]).globDefect[1]? =
        some (contributions exampleProblem (exampleLocalDefect none)
          (localDefects (exampleLocalDefect none) exampleModel._uCur exampleModel._uPrev
            exampleProblem.leafCells exampleModel._localJacobian) 1).sum :=
  ⟨by decide, by decide,
    (evalGlobalDefect_sums_contributions exampleProblem (exampleLocalDefect none) exampleModel
      [7, 7, 7] (by decide)).2.2.1 1 (by decide)⟩

/-- C18, as the code has it: when the local defect evaluation fails for a cell,
`evalGlobalDefect` is left at that cell and the global defect keeps what the pass has
added so far: every entry is the sum of the contributions of the cells processed
before the failing one. -/
theorem evalGlobalDefect_failure_keeps_partial [AddMonoid U]
    (prob : Problem Cell Face LocalCoord WorldCoord U) (ld : LocalDefect J Cell U L)
    (model : BoxModel U A J) (globDefect : List U)
    (hthrew : (model.evalGlobalDefect prob ld globDefect).threw = true) :
    ∃ pre c post, prob.leafCells = pre ++ c :: post ∧
      (localDefects ld model._uCur model._uPrev prob.leafCells model._localJacobian).map
        Prod.fst = pre ∧
      (∃ jacBefore, (evalCellDefect ld model._uCur model._uPrev jacBefore c).1 = none) ∧
      ∀ g, g < globDefect.length →
        (model.evalGlobalDefect prob ld globDefect).globDefect[g]? =
          some (contributions prob ld
            (localDefects ld model._uCur model._uPrev prob.leafCells model._localJacobian)
            g).sum := by
  obtain ⟨pre, c, post, hcells, hpre, hfail⟩ :=
    evalGlobalDefectLoop_threw prob ld _ _ _ _ _ hthrew
  refine ⟨pre, c, post, hcells, hpre, hfail, fun g hg => ?_⟩
  simp only [BoxModel.evalGlobalDefect, evalGlobalDefectLoop_getElem?, List.getElem?_map,
    List.getElem?_eq_getElem hg, Option.map_some', List.sum_eq_foldl]

theorem evalGlobalDefect_failure_keeps_partial_witness :
    ∃ pre c post, exampleProblem.leafCells = pre ++ c :: post ∧
      (localDefects (exampleLocalDefect (some 1)) exampleModel._uCur exampleModel._uPrev
        exampleProblem.leafCells exampleModel._localJacobian).map Prod.fst = pre ∧
      (∃ jacBefore, (evalCellDefect (exampleLocalDefect (some 1)) exampleModel._uCur
        exampleModel._uPrev jacBefore c).1 = none) ∧
      ∀ g, g < [7, 7, 7].length →
        (exampleModel.evalGlobalDefect exampleProblem (exampleLocalDefect (some 1))
          [7, 7, 7]).globDefect[g]? =
          some (contributions exampleProblem (exampleLocalDefect (some 1))
            (localDefects (exampleLocalDefect (some 1)) exampleModel._uCur exampleModel._uPrev
              exampleProblem.leafCells exampleModel._localJacobian) g).sum :=
  evalGlobalDefect_failure_keeps_partial exampleProblem (exampleLocalDefect (some 1))
    exampleModel [7, 7, 7] (by decide)

/-- C18 fails as stated: on the two cells of `exampleProblem`, with a local defect
evaluation that succeeds for cell 0 and fails for cell 1, `evalGlobalDefect` is left by
the failure with the contributions 1 and 10 of cell 0 in the global defect. -/
theorem evalGlobalDefect_failure_leaves_contributions :
    (exampleModel.evalGlobalDefect exampleProblem (exampleLocalDefect (some 1))
        [7, 7, 7]).threw = true ∧
      (exampleModel.evalGlobalDefect exampleProblem (exampleLocalDefect (some 1))
        [7, 7, 7]).globDefect = [1, 10, 0] ∧
      (exampleModel.evalGlobalDefect exampleProblem (exampleLocalDefect (some 1))
        [7, 7, 7]).globDefect ≠ [0, 0, 0] := by
  decide

/-! ## `BoxModel::_applyInitialSolution` -/

theorem foldl_applyInitialAtVertex (prob : Problem Cell Face LocalCoord WorldCoord U)
    (cell : Cell) (ids : List Nat)
    (st : List U × List (VertexCall Cell LocalCoord WorldCoord)) :
    ids.foldl (applyInitialAtVertex prob cell) st =
      ((ids.map (vertexVisit prob cell)).foldl
          (fun v c => writeEntry (fun x => prob.initial x c.cell c.globalPos c.localPos) v
            c.globalId) st.1,
        st.2 ++ ids.map (vertexVisit prob cell)) := by
  induction ids generalizing st with
  | nil => simp
  | cons i rest ih =>
    rw [List.foldl_cons, ih]
    simp [applyInitialAtVertex, vertexVisit]

theorem foldl_applyInitial_cells (prob : Problem Cell Face LocalCoord WorldCoord U)
    (cells : List Cell) (st : List U × List (VertexCall Cell LocalCoord WorldCoord)) :
    cells.foldl
        (fun st cell =>
          (List.range (prob.shapeFnSetSize cell)).foldl (applyInitialAtVertex prob cell) st) st =
      ((cells.flatMap (fun cell =>
            (List.range (prob.shapeFnSetSize cell)).map (vertexVisit prob cell))).foldl
          (fun v c => writeEntry (fun x => prob.initial x c.cell c.globalPos c.localPos) v
            c.globalId) st.1,
        st.2 ++ cells.flatMap (fun cell =>
          (List.range (prob.shapeFnSetSize cell)).map (vertexVisit prob cell))) := by
  induction cells generalizing st with
  | nil => simp
  | cons cell rest ih =>
    rw [List.foldl_cons, ih, foldl_applyInitialAtVertex]
    simp [List.flatMap_cons, List.foldl_append]

theorem applyInitialSolution_eq (prob : Problem Cell Face LocalCoord WorldCoord U)
    (u : List U) :
    _applyInitialSolution prob u =
      ((vertexVisits prob).foldl
          (fun v c => writeEntry (fun x => prob.initial x c.cell c.globalPos c.localPos) v
            c.globalId) u,
        vertexVisits prob) := by
  unfold _applyInitialSolution vertexVisits
  rw [foldl_applyInitial_cells]
  simp

/-- C16, as the code has it: `_applyInitialSolution` calls the initial value callback of
the problem once for every pair (leaf cell, local vertex), in the order of the leaf
iteration, on the entry at the global index of the vertex.  The entry of a vertex ends
as the result of the calls made for it, in order, and when the callback does not depend
on the value it is handed, as the value of the last call made for the vertex, the one
in the context of its last visited cell. -/
theorem applyInitialSolution_per_cell_vertex
    (prob : Problem Cell Face LocalCoord WorldCoord U) (u : List U) :
    (_applyInitialSolution prob u).2 = vertexVisits prob ∧
      (_applyInitialSolution prob u).1.length = u.length ∧
      (∀ g (hg : g < u.length),
        (_applyInitialSolution prob u).1[g]? =
          some (initialValueAfter prob
            ((vertexVisits prob).filter (fun c => c.globalId == g)) u[g])) ∧
      ((∀ x y cell globalPos localPos,
          prob.initial x cell globalPos localPos = prob.initial y cell globalPos localPos) →
        ∀ g (hg : g < u.length) c,
          ((vertexVisits prob).filter (fun c => c.globalId == g)).getLast? = some c →
          (_applyInitialSolution prob u).1[g]? =
            some (prob.initial u[g] c.cell c.globalPos c.localPos)) := by
  have hval : ∀ g (hg : g < u.length),
      (_applyInitialSolution prob u).1[g]? =
        some (initialValueAfter prob
          ((vertexVisits prob).filter (fun c => c.globalId == g)) u[g]) := by
    intro g hg
    rw [applyInitialSolution_eq]
    simp only [foldl_writeEntry_getElem? (fun c : VertexCall Cell LocalCoord WorldCoord =>
        c.globalId) (fun c x => prob.initial x c.cell c.globalPos c.localPos),
      List.getElem?_eq_getElem hg, Option.map_some', initialValueAfter]
  refine ⟨by rw [applyInitialSolution_eq], ?_, hval, ?_⟩
  · rw [applyInitialSolution_eq]
    exact foldl_writeEntry_length
      (fun c : VertexCall Cell LocalCoord WorldCoord => c.globalId)
      (fun c x => prob.initial x c.cell c.globalPos c.localPos) _ u
  · intro hconst g hg c hlast
    rw [hval g hg]
    obtain ⟨ys, hys⟩ := List.getLast?_eq_some_iff.mp hlast
    rw [hys, initialValueAfter, List.foldl_append]
    exact congrArg some (hconst _ _ _ _ _)

theorem applyInitialSolution_per_cell_vertex_witness :
    (_applyInitialSolution exampleInitialProblem [0, 0, 0]).2 =
        vertexVisits exampleInitialProblem ∧
      (_applyInitialSolution exampleInitialProblem [0, 0, 0]).1 = [10, 11, 11] ∧
      (_applyInitialSolution exampleInitialProblem [0, 0, 0]).1[1]? =
        some (exampleInitialProblem.initial 0 1 1 0) :=
  ⟨(applyInitialSolution_per_cell_vertex exampleInitialProblem [0, 0, 0]).1, by decide,
    (applyInitialSolution_per_cell_vertex exampleInitialProblem [0, 0, 0]).2.2.2
      (fun _ _ _ _ _ => rfl) 1 (by decide) ⟨1, 1, 1, 0⟩ rfl⟩

/-- C16 fails as stated: on the two cells of `exampleInitialProblem`, which share the
vertex 1, the callback is called twice for the vertex 1, and the value stored for it is
11, the initial value in its last visited cell 1, not 10, the initial value in its
first visited cell 0. -/
theorem applyInitialSolution_shared_vertex :
    ((_applyInitialSolution exampleInitialProblem [0, 0, 0]).2.filter
        (fun c => c.globalId == 1)).length = 2 ∧
      (_applyInitialSolution exampleInitialProblem [0, 0, 0]).1[1]? = some 11 ∧
      ((vertexVisits exampleInitialProblem).find? (fun c => c.globalId == 1)).map
        (fun c => (c.cell, exampleInitialProblem.initial 0 c.cell c.globalPos c.localPos)) =
        some (0, 10) := by
  decide

/-! ## `BoxModel::_applyDirichletBoundaries` -/

theorem foldl_applyDirichletAtVertex (prob : Problem Cell Face LocalCoord WorldCoord U)
    (lj : LocalJacobian J Cell Scalar) (jac : J) (cell : Cell) (face : Face)
    (ids : List Nat) (u : List U) :
    ids.foldl (applyDirichletAtVertex prob lj jac cell face) u =
      ((ids.filter (fun i => lj.bcIsDirichlet jac i)).map (dirichletVisit prob cell face)).foldl
        (fun v c => writeEntry (fun x => prob.dirichlet x c.cell c.face c.globalPos c.localPos)
          v c.globalId) u := by
  induction ids generalizing u with
  | nil => rfl
  | cons i rest ih =>
    rw [List.foldl_cons, ih]
    by_cases hbc : lj.bcIsDirichlet jac i = true
    · simp [applyDirichletAtVertex, hbc, List.filter_cons, dirichletVisit]
    · simp [applyDirichletAtVertex, hbc, List.filter_cons]

theorem foldl_applyDirichletAtCell (prob : Problem Cell Face LocalCoord WorldCoord U)
    (lj : LocalJacobian J Cell Scalar) (cells : List Cell) (st : List U × J) :
    (cells.foldl (applyDirichletAtCell prob lj) st).1 =
      ((boundaryStates prob lj cells st.2).flatMap (dirichletVisitsOfCell prob lj)).foldl
        (fun v c => writeEntry (fun x => prob.dirichlet x c.cell c.face c.globalPos c.localPos)
          v c.globalId) st.1 := by
  induction cells generalizing st with
  | nil => rfl
  | cons cell rest ih =>
    rw [List.foldl_cons, ih]
    by_cases hb : prob.hasBoundaryIntersections cell = true
    · simp only [applyDirichletAtCell, boundaryStates, hb, Bool.not_true, Bool.false_eq_true,
        if_false, List.flatMap_cons, List.foldl_append, dirichletVisitsOfCell,
        foldl_flatMap_eq, foldl_applyDirichletAtVertex]
    · simp [applyDirichletAtCell, boundaryStates, hb]

theorem boundaryStates_mem (prob : Problem Cell Face LocalCoord WorldCoord U)
    (lj : LocalJacobian J Cell Scalar) (cells : List Cell) (jac : J) (cj : Cell × J)
    (h : cj ∈ boundaryStates prob lj cells jac) :
    cj.1 ∈ cells ∧ prob.hasBoundaryIntersections cj.1 = true := by
  induction cells generalizing jac with
  | nil => simp [boundaryStates] at h
  | cons cell rest ih =>
    by_cases hb : prob.hasBoundaryIntersections cell = true
    · simp only [boundaryStates, hb, Bool.not_true, Bool.false_eq_true, if_false,
        List.mem_cons] at h
      rcases h with rfl | h
      · exact ⟨List.mem_cons_self _ _, hb⟩
      · exact ⟨List.mem_cons_of_mem _ (ih _ h).1, (ih _ h).2⟩
    · simp only [boundaryStates, hb, Bool.not_false, if_true] at h
      exact ⟨List.mem_cons_of_mem _ (ih _ h).1, (ih _ h).2⟩

/-- C17: `_applyDirichletBoundaries` keeps the length of `u`; it changes no entry other
than those of the vertices that are, in a cell with boundary intersections, a local
vertex of boundary condition type Dirichlet; the entry of such a vertex ends as the
result of the calls of the dirichlet callback made for it, the value returned by the
last of them. -/
theorem applyDirichletBoundaries_frame (prob : Problem Cell Face LocalCoord WorldCoord U)
    (lj : LocalJacobian J Cell Scalar) (u : List U) (jac : J) :
    (_applyDirichletBoundaries prob lj u jac).1.length = u.length ∧
      (∀ cj ∈ boundaryStates prob lj prob.leafCells jac,
        cj.1 ∈ prob.leafCells ∧ prob.hasBoundaryIntersections cj.1 = true) ∧
      (∀ c, c ∈ dirichletVisits prob lj jac ↔
        ∃ cj ∈ boundaryStates prob lj prob.leafCells jac, ∃ face ∈ prob.intersections cj.1,
          ∃ i, i < prob.shapeFnSetSize cj.1 ∧ lj.bcIsDirichlet cj.2 i = true ∧
            c = dirichletVisit prob cj.1 face i) ∧
      (∀ g, (∀ c ∈ dirichletVisits prob lj jac, c.globalId ≠ g) →
        (_applyDirichletBoundaries prob lj u jac).1[g]? = u[g]?) ∧
      (∀ g (hg : g < u.length),
        (_applyDirichletBoundaries prob lj u jac).1[g]? =
          some (dirichletValueAfter prob
            ((dirichletVisits prob lj jac).filter (fun c => c.globalId == g)) u[g])) ∧
      (∀ g (_ : g < u.length) c,
        ((dirichletVisits prob lj jac).filter (fun c => c.globalId == g)).getLast? = some c →
        ∃ x, (_applyDirichletBoundaries prob lj u jac).1[g]? =
          some (prob.dirichlet x c.cell c.face c.globalPos c.localPos)) := by
  have heq : (_applyDirichletBoundaries prob lj u jac).1 =
      (dirichletVisits prob lj jac).foldl
        (fun v c => writeEntry (fun x => prob.dirichlet x c.cell c.face c.globalPos c.localPos)
          v c.globalId) u := by
    unfold _applyDirichletBoundaries dirichletVisits
    exact foldl_applyDirichletAtCell prob lj prob.leafCells (u, jac)
  have hget : ∀ g, (_applyDirichletBoundaries prob lj u jac).1[g]? =
      (u[g]?).map (fun x => dirichletValueAfter prob
        ((dirichletVisits prob lj jac).filter (fun c => c.globalId == g)) x) := by
    intro g
    rw [heq]
    exact foldl_writeEntry_getElem?
      (fun c : DirichletCall Cell Face LocalCoord WorldCoord => c.globalId)
      (fun c x => prob.dirichlet x c.cell c.face c.globalPos c.localPos) _ u g
  have hval : ∀ g (hg : g < u.length),
      (_applyDirichletBoundaries prob lj u jac).1[g]? =
        some (dirichletValueAfter prob
          ((dirichletVisits prob lj jac).filter (fun c => c.globalId == g)) u[g]) := by
    intro g hg
    rw [hget, List.getElem?_eq_getElem hg, Option.map_some']
  refine ⟨?_, fun cj h => boundaryStates_mem prob lj _ _ cj h, ?_, ?_, hval, ?_⟩
  · rw [heq]
    exact foldl_writeEntry_length
      (fun c : DirichletCall Cell Face LocalCoord WorldCoord => c.globalId)
      (fun c x => prob.dirichlet x c.cell c.face c.globalPos c.localPos) _ u
  · intro c
    simp only [dirichletVisits, dirichletVisitsOfCell, List.mem_flatMap, List.mem_map,
      List.mem_filter, List.mem_range]
    constructor
    · rintro ⟨cj, hcj, face, hface, i, ⟨hi, hbc⟩, rfl⟩
      exact ⟨cj, hcj, face, hface, i, hi, hbc, rfl⟩
    · rintro ⟨cj, hcj, face, hface, i, hi, hbc, rfl⟩
      exact ⟨cj, hcj, face, hface, i, ⟨hi, hbc⟩, rfl⟩
  · intro g hnone
    rw [hget]
    have hnil : (dirichletVisits prob lj jac).filter (fun c => c.globalId == g) = [] := by
      rw [List.filter_eq_nil_iff]
      intro c hc
      simpa using hnone c hc
    rw [hnil]
    simp [dirichletValueAfter]
  · intro g hg c hlast
    obtain ⟨ys, hys⟩ := List.getLast?_eq_some_iff.mp hlast
    refine ⟨dirichletValueAfter prob ys u[g], ?_⟩
    rw [hval g hg, hys]
    simp [dirichletValueAfter, List.foldl_append]

theorem applyDirichletBoundaries_frame_witness :
    (_applyDirichletBoundaries exampleProblem exampleJacobian [5, 6, 7] 0).1 = [100, 6, 7] ∧
      (_applyDirichletBoundaries exampleProblem exampleJacobian [5, 6, 7] 0).1[1]? =
        ([5, 6, 7] : List Nat)[1]? ∧
      (_applyDirichletBoundaries exampleProblem exampleJacobian [5, 6, 7] 0).1[0]? =
        some (dirichletValueAfter exampleProblem
          ((dirichletVisits exampleProblem exampleJacobian 0).filter
            (fun c => c.globalId == 0)) 5) :=
  ⟨by decide,
    (applyDirichletBoundaries_frame exampleProblem exampleJacobian [5, 6, 7] 0).2.2.2.1 1
      (by decide),
    (applyDirichletBoundaries_frame exampleProblem exampleJacobian [5, 6, 7] 0).2.2.2.2.1 0
      (by decide)⟩

end

end Dune

namespace Dune

section

variable {U A J S C Scalar Cell Face LocalCoord WorldCoord : Type}

/-! ## The error of `update` -/

theorem updateLoop_thrown (lj : LocalJacobian J Cell Scalar)
    (nm : NewtonMethod U A J S C Scalar) :
    ∀ (m n : Nat), n + m = 10 → ∀ (solver : S) (r : Run U A J C Scalar) (e : MathError Scalar),
      (updateLoop lj nm n solver r).thrown = some e →
      (∀ j, j ≤ m → (attempt lj nm (attemptStart lj nm solver r j).1
          (attemptStart lj nm solver r j).2).converged = false) ∧
        (updateLoop lj nm n solver r).run =
          (attempt lj nm (attemptStart lj nm solver r m).1
            (attemptStart lj nm solver r m).2).run ∧
        e = { text := mathErrorText, dt := (attemptStart lj nm solver r m).2.dt } := by
  intro m
  induction m with
  | zero =>
    intro n hn solver r e h
    cases hc : (attempt lj nm solver r).converged
    · rw [updateLoop_exhausted lj nm n solver r hc (by omega)] at h ⊢
      refine ⟨fun j hj => ?_, rfl, ?_⟩
      · have hj0 : j = 0 := by omega
        subst hj0
        exact hc
      · simp only [Option.some.injEq] at h
        rw [← h]
        rfl
    · rw [updateLoop_converged lj nm n solver r hc] at h
      simp at h
  | succ m ih =>
    intro n hn solver r e h
    cases hc : (attempt lj nm solver r).converged
    · rw [updateLoop_rejected lj nm n solver r hc (by omega)] at h ⊢
      obtain ⟨hrej, hrun, he⟩ := ih (n + 1) (by omega) _ _ e h
      refine ⟨fun j hj => ?_, ?_, ?_⟩
      · cases j with
        | zero => exact hc
        | succ j => rw [attemptStart_succ]; exact hrej j (by omega)
      · rw [attemptStart_succ]; exact hrun
      · rw [attemptStart_succ]; exact he
    · rw [updateLoop_converged lj nm n solver r hc] at h
      simp at h

theorem numRetryCalls_attempt (lj : LocalJacobian J Cell Scalar)
    (nm : NewtonMethod U A J S C Scalar) (solver : S) (r : Run U A J C Scalar) :
    numRetryCalls (attempt lj nm solver r).run.calls = numRetryCalls r.calls := by
  simp [attempt, numRetryCalls, List.countP_append, List.countP_cons]

theorem numRetryCalls_attemptStart (lj : LocalJacobian J Cell Scalar)
    (nm : NewtonMethod U A J S C Scalar) (solver : S) (r : Run U A J C Scalar) (k : Nat) :
    numRetryCalls (attemptStart lj nm solver r k).2.calls = numRetryCalls r.calls + k := by
  induction k with
  | zero => rfl
  | succ k ih =>
    show numRetryCalls (retry (attempt lj nm _ _).run).calls = _
    have hretry : ∀ x : Run U A J C Scalar,
        numRetryCalls (retry x).calls = numRetryCalls x.calls + 1 := by
      intro x
      simp [retry, numRetryCalls, List.countP_append, List.countP_cons]
    rw [hretry, numRetryCalls_attempt, ih]
    omega

/-- C19: when `update` ends by throwing, all 11 attempts were rejected and the
`Dune::MathError` carries the text naming 10 time step divisions and a time step size
`dt` such that: `dt` is the size set and used in the last attempt, the last three
statements recorded being `setDt(dt)`, the failed `execute` and `suggestTimeStepSize(dt)`;
`dt` comes from the size passed in through 10 retries, each taking the suggestion of the
controller for the size of the attempt before; the caller's `dt` holds the same value;
and `update` incremented `numRetries` 10 times. -/
theorem update_error_reports (prob : Problem Cell Face LocalCoord WorldCoord U)
    (lj : LocalJacobian J Cell Scalar) (nm : NewtonMethod U A J S C Scalar)
    (model : BoxModel U A J) (controller : C) (dt nextDt : Scalar) (e : MathError Scalar)
    (hthrown : (model.update prob lj nm controller dt nextDt).thrown = some e) :
    e.text = mathErrorText ∧
      e.dt = (model.update prob lj nm controller dt nextDt).run.dt ∧
      e.dt = (attemptStart lj nm (loopEntry prob lj nm model controller dt nextDt).1
        (loopEntry prob lj nm model controller dt nextDt).2 10).2.dt ∧
      (attemptStart lj nm (loopEntry prob lj nm model controller dt nextDt).1
        (loopEntry prob lj nm model controller dt nextDt).2 0).2.dt = dt ∧
      (∀ k, k < 10 → ∃ ctl,
        (attemptStart lj nm (loopEntry prob lj nm model controller dt nextDt).1
          (loopEntry prob lj nm model controller dt nextDt).2 (k + 1)).2.dt =
          (nm.suggestTimeStepSize ctl
            (attemptStart lj nm (loopEntry prob lj nm model controller dt nextDt).1
              (loopEntry prob lj nm model controller dt nextDt).2 k).2.dt).1) ∧
      (∀ j, j ≤ 10 →
        (attempt lj nm
          (attemptStart lj nm (loopEntry prob lj nm model controller dt nextDt).1
            (loopEntry prob lj nm model controller dt nextDt).2 j).1
          (attemptStart lj nm (loopEntry prob lj nm model controller dt nextDt).1
            (loopEntry prob lj nm model controller dt nextDt).2 j).2).converged = false) ∧
      (∃ before, (model.update prob lj nm controller dt nextDt).run.calls =
        before ++ [Call.setDt e.dt, Call.execute false,
          Call.suggestTimeStepSize e.dt
            (model.update prob lj nm controller dt nextDt).run.nextDt]) ∧
      numRetryCalls (model.update prob lj nm controller dt nextDt).run.calls = 10 := by
  have hloop : (updateLoop lj nm 0 (loopEntry prob lj nm model controller dt nextDt).1
      (loopEntry prob lj nm model controller dt nextDt).2).thrown = some e := by
    rw [← update_thrown_iff]; exact hthrown
  obtain ⟨hrej, hrun, he⟩ := updateLoop_thrown lj nm 10 0 rfl _ _ e hloop
  rw [update_of_thrown prob lj nm model controller dt nextDt e hloop, hrun]
  have hlast := hrej 10 (le_refl _)
  refine ⟨by rw [he], by rw [he]; rfl, by rw [he], rfl, fun k _ => ⟨_, rfl⟩, hrej, ?_, ?_⟩
  · refine ⟨(attemptStart lj nm (loopEntry prob lj nm model controller dt nextDt).1
      (loopEntry prob lj nm model controller dt nextDt).2 10).2.calls, ?_⟩
    rw [he]
    rw [attempt_converged] at hlast
    simp only [attempt, hlast]
  · rw [numRetryCalls_attempt, numRetryCalls_attemptStart]
    rfl

theorem update_error_reports_witness :
    (exampleModel.update exampleProblem exampleJacobian (exampleNewton none) () 1024 0).thrown =
        some { text := mathErrorText, dt := 1 } ∧
      (exampleModel.update exampleProblem exampleJacobian (exampleNewton none)
        () 1024 0).run.dt = 1 ∧
      numRetryCalls (exampleModel.update exampleProblem exampleJacobian (exampleNewton none)
        () 1024 0).run.calls = 10 := by
  obtain ⟨⟨dtLast, ht⟩, _⟩ := updateLoop_never_converging exampleJacobian (exampleNewton none)
    (fun _ _ _ => rfl) 10 0 rfl
    (loopEntry exampleProblem exampleJacobian (exampleNewton none) exampleModel () 1024 0).1
    (loopEntry exampleProblem exampleJacobian (exampleNewton none) exampleModel () 1024 0).2
  rw [← update_thrown_iff] at ht
  have h := update_error_reports exampleProblem exampleJacobian (exampleNewton none)
    exampleModel () 1024 0 _ ht
  have hdt : dtLast = 1 := h.2.2.1.trans (by decide)
  subst hdt
  exact ⟨ht, h.2.1.symm, h.2.2.2.2.2.2.2⟩

end

end Dune

namespace Dune.AbsoluteSaturationsLawParams

/-! ## `AbsoluteSaturationsLawParams` -/

/-- C20: a freshly constructed `AbsoluteSaturationsLawParams` returns 0 from `Swr()`
and from `Snr()`; after `setSwr(v)`, `Swr()` returns `v` and `Snr()` is what it was;
after `setSnr(v)`, `Snr()` returns `v` and `Swr()` is what it was. -/
theorem accessors_after_setters {RawLawParams Scalar : Type} [Zero Scalar]
    (raw : RawLawParams) (p : AbsoluteSaturationsLawParams RawLawParams Scalar) (v : Scalar) :
    (new raw : AbsoluteSaturationsLawParams RawLawParams Scalar).Swr = 0 ∧
      (new raw : AbsoluteSaturationsLawParams RawLawParams Scalar).Snr = 0 ∧
      (p.setSwr v).Swr = v ∧ (p.setSwr v).Snr = p.Snr ∧
      (p.setSnr v).Snr = v ∧ (p.setSnr v).Swr = p.Swr :=
  ⟨rfl, rfl, rfl, rfl, rfl, rfl⟩

end Dune.AbsoluteSaturationsLawParams

namespace Dumux.OnePLocalResidual

variable {Scalar : Type} [Field Scalar] {dimWorld numEq : Nat}

/-! ## `OnePLocalResidual` -/

/-- C12: `computeFlux` writes into the pressure slot the blend of the upstream and the
downstream density over viscosity, weighted by the upwind weight `w` and `1 - w`, times
the normal flux `-((K * potentialGrad) . normal)`; upstream and downstream are the
current volume variables at `upstreamIdx(normalFlux)` and `downstreamIdx(normalFlux)`.
Every other slot of `flux` keeps its value. -/
theorem computeFlux_eq_upwind_blend (r : OnePLocalResidual Scalar dimWorld numEq)
    (flux : Fin numEq → Scalar) (faceIdx : Int) :
    r.computeFlux flux faceIdx r.pressureIdx =
        upwindCoefficient r.upwindWeight_ (r.upstream faceIdx) (r.downstream faceIdx) *
          normalFlux (r.fluxVariables faceIdx r.curVolVars_) ∧
      upwindCoefficient r.upwindWeight_ (r.upstream faceIdx) (r.downstream faceIdx) =
        r.upwindWeight_ * ((r.upstream faceIdx).density / (r.upstream faceIdx).viscosity) +
          (1 - r.upwindWeight_) *
            ((r.downstream faceIdx).density / (r.downstream faceIdx).viscosity) ∧
      ∀ k, k ≠ r.pressureIdx → r.computeFlux flux faceIdx k = flux k := by
  refine ⟨?_, rfl, fun k hk => ?_⟩
  · simp [computeFlux, upwindCoefficient, mobility, upstream, downstream, normalFlux]
  · simp [computeFlux, Function.update_noteq hk]

theorem computeFlux_eq_upwind_blend_witness :
    (exampleResidual (3 / 4)).computeFlux (fun _ => 0) 0 0 =
      (3 / 4 * (2 / 4) + (1 - 3 / 4) * (3 / 1)) * 10 := by
  have h := (computeFlux_eq_upwind_blend (exampleResidual (3 / 4)) (fun _ => 0) 0).1
  rw [show ((0 : Fin 1)) = (exampleResidual (3 / 4)).pressureIdx from rfl, h]
  simp [upwindCoefficient, mobility, upstream, downstream, exampleResidual, exampleFace,
    normalFlux, Matrix.mulVec, Matrix.dotProduct]
  norm_num

end Dumux.OnePLocalResidual

namespace Dumux

/-! ## Arithmetic of `double` -/

namespace Double

theorem zero_def : (0 : Double) = finite 0 := rfl

theorem one_def : (1 : Double) = finite 1 := rfl

theorem neg_def (x : Double) : -x = neg x := rfl

theorem add_def (x y : Double) : x + y = add x y := rfl

theorem sub_def (x y : Double) : x - y = add x (neg y) := rfl

theorem mul_def (x y : Double) : x * y = mul x y := rfl

theorem div_def (x y : Double) : x / y = div x y := rfl

theorem overflowBound_pos : (0 : ℚ) < overflowBound := by
  unfold overflowBound; positivity

theorem ofRat_zero : ofRat 0 = finite 0 := by
  have hb := overflowBound_pos
  unfold ofRat
  rw [if_neg (by linarith), if_neg (by linarith)]

theorem ofRat_one : ofRat 1 = finite 1 := by
  unfold ofRat overflowBound
  norm_num

theorem ofRat_negate (q : ℚ) : ofRat (-q) = -(ofRat q) := by
  have hb := overflowBound_pos
  show ofRat (-q) = neg (ofRat q)
  unfold ofRat
  split_ifs <;> first | rfl | (exfalso; linarith)

theorem negate_zero : -(0 : Double) = 0 := by
  show finite (-0) = finite 0
  rw [neg_zero]

theorem negate_negate (x : Double) : -(-x) = x := by
  show neg (neg x) = x
  cases x <;> simp [neg]

theorem negate_add (a b : Double) : -(a + b) = -a + -b := by
  show neg (add a b) = add (neg a) (neg b)
  cases a <;> cases b <;> try rfl
  show neg (ofRat _) = ofRat _
  rw [← neg_add]; exact (ofRat_negate _).symm

theorem infTimes_negate (p : Bool) (q : ℚ) : infTimes p (-q) = -(infTimes p q) := by
  show _ = neg _
  unfold infTimes
  rcases lt_trichotomy q 0 with h | h | h
  · have h1 : ¬ (0 < q) := not_lt.mpr h.le
    have h2 : (0 : ℚ) < -q := by linarith
    cases p <;> simp [h.ne, h1, h2, neg]
  · subst h; simp [neg]
  · have h1 : ¬ ((0 : ℚ) < -q) := by intro h'; linarith
    cases p <;> simp [h.ne', h1, h, neg]

theorem infTimes_not (p : Bool) (q : ℚ) : infTimes (!p) q = -(infTimes p q) := by
  show _ = neg _
  unfold infTimes
  by_cases h0 : q = 0
  · simp [h0, neg]
  · by_cases h : 0 < q <;> cases p <;> simp [h0, h, neg]

theorem mul_negate (a b : Double) : a * -b = -(a * b) := by
  show mul a (neg b) = neg (mul a b)
  cases a <;> cases b <;> try rfl
  · show ofRat _ = neg (ofRat _)
    rw [mul_neg]; exact ofRat_negate _
  · exact infTimes_not true _
  · exact infTimes_not false _
  · exact infTimes_negate true _
  · exact infTimes_negate false _

theorem mul_nan (x : Double) : x * nan = nan := by
  show mul x nan = nan
  cases x <;> rfl

theorem add_nan (x : Double) : x + nan = nan := by
  show add x nan = nan
  cases x <;> rfl

theorem nan_add (x : Double) : nan + x = nan := by
  show add nan x = nan
  cases x <;> rfl

theorem nan_mul (x : Double) : nan * x = nan := by
  show mul nan x = nan
  cases x <;> rfl

theorem nan_eq (x : Double) : Double.eq nan x = false := by
  cases x <;> rfl

theorem eq_nan (x : Double) : Double.eq x nan = false := by
  cases x <;> rfl

theorem negate_eq_nan {x : Double} : -x = nan ↔ x = nan := by
  show neg x = nan ↔ x = nan
  cases x <;> simp [neg]

/-- A product with zero which is not NaN is zero. -/
theorem mul_zero_of_ne_nan {x : Double} (h : x * 0 ≠ nan) : x * 0 = 0 := by
  cases x with
  | finite a =>
    show ofRat (a * 0) = finite 0
    rw [mul_zero]; exact ofRat_zero
  | posInf => exact absurd (by simp [mul_def, zero_def, mul, infTimes]) h
  | negInf => exact absurd (by simp [mul_def, zero_def, mul, infTimes]) h
  | nan => exact absurd rfl h

/-- Zero times a number is zero; zero times an infinity or NaN is NaN. -/
theorem zero_mul_eq (x : Double) : 0 * x = if x.isFinite then 0 else nan := by
  cases x with
  | finite a =>
    show ofRat (0 * a) = finite 0
    rw [zero_mul]; exact ofRat_zero
  | posInf => simp [mul_def, zero_def, mul, infTimes, isFinite]
  | negInf => simp [mul_def, zero_def, mul, infTimes, isFinite]
  | nan => rfl

theorem geZero_negate {x : Double} (h0 : x ≠ 0) (hn : x ≠ nan) : (-x).geZero = !x.geZero := by
  cases x with
  | finite a =>
    have ha : a ≠ 0 := fun h => h0 (by rw [h]; rfl)
    show decide (0 ≤ -a) = !decide (0 ≤ a)
    rcases lt_or_gt_of_ne ha with h | h
    · have h1 : (0 : ℚ) ≤ -a := by linarith
      have h2 : ¬ (0 : ℚ) ≤ a := not_le.mpr h
      simp [h1, h2]
    · have h1 : ¬ (0 : ℚ) ≤ -a := by intro h'; linarith
      have h2 : (0 : ℚ) ≤ a := le_of_lt h
      simp [h1, h2]
  | posInf => rfl
  | negInf => rfl
  | nan => exact absurd rfl hn

theorem eq_self {x : Double} (h : x ≠ nan) : Double.eq x x = true := by
  cases x <;> simp [Double.eq] at h ⊢

theorem eq_true_ne_nan {x y : Double} (h : Double.eq x y = true) : x ≠ nan ∧ y ≠ nan := by
  cases x <;> cases y <;> simp [Double.eq] at h ⊢

theorem ofRat_inRange (q : ℚ) : InRange (ofRat q) := by
  unfold ofRat
  split_ifs with h1 h2
  · trivial
  · trivial
  · exact ⟨not_le.mp h2, not_le.mp h1⟩

theorem div_inRange (x y : Double) : InRange (x / y) := by
  have hb := overflowBound_pos
  show InRange (div x y)
  cases x <;> cases y <;> simp only [div] <;> try trivial
  · split_ifs <;> first | trivial | exact ofRat_inRange _
  · exact ⟨by linarith, hb⟩
  · exact ⟨by linarith, hb⟩
  · split_ifs <;> trivial
  · split_ifs <;> trivial

theorem ofRat_of_inRange {q : ℚ} (h : InRange (finite q)) : ofRat q = finite q := by
  unfold ofRat
  rw [if_neg (not_le.mpr h.2), if_neg (not_le.mpr h.1)]

theorem one_mul_of_inRange {x : Double} (h : InRange x) : 1 * x = x := by
  cases x with
  | finite a =>
    show ofRat (1 * a) = finite a
    rw [one_mul]; exact ofRat_of_inRange h
  | posInf => simp [mul_def, one_def, mul, infTimes]
  | negInf => simp [mul_def, one_def, mul, infTimes]
  | nan => rfl

theorem add_zero_of_inRange {x : Double} (h : InRange x) : x + 0 = x := by
  cases x with
  | finite a =>
    show ofRat (a + 0) = finite a
    rw [add_zero]; exact ofRat_of_inRange h
  | posInf => rfl
  | negInf => rfl
  | nan => rfl

theorem zero_add_of_inRange {x : Double} (h : InRange x) : 0 + x = x := by
  cases x with
  | finite a =>
    show ofRat (0 + a) = finite a
    rw [zero_add]; exact ofRat_of_inRange h
  | posInf => rfl
  | negInf => rfl
  | nan => rfl

theorem one_sub_one : (1 : Double) - 1 = 0 := by
  show ofRat (1 + -1) = finite 0
  rw [add_neg_cancel]; exact ofRat_zero

theorem one_sub_zero : (1 : Double) - 0 = 1 := by
  show ofRat (1 + -0) = finite 1
  rw [neg_zero, add_zero]; exact ofRat_one

theorem small_lt_overflowBound : (1024 : ℚ) < overflowBound := by
  unfold overflowBound
  norm_num

theorem ofRat_small {q : ℚ} (h1 : -1024 < q) (h2 : q < 1024) :
    ofRat q = finite q := by
  have hb := small_lt_overflowBound
  unfold ofRat
  rw [if_neg (by linarith), if_neg (by linarith)]

theorem ofRat_large {q : ℚ} (h : overflowBound ≤ q) :
    ofRat q = posInf := by
  unfold ofRat
  rw [if_pos h]

theorem finite_mul_zero (a : ℚ) : finite a * 0 = 0 := by
  show ofRat (a * 0) = finite 0
  rw [mul_zero]; exact ofRat_zero

end Double

theorem foldl_dot_negate {dimWorld : Nat} (x y : Fin dimWorld → Double)
    (l : List (Fin dimWorld)) (acc : Double) :
    l.foldl (fun acc k => acc + x k * -(y k)) (-acc) =
      -(l.foldl (fun acc k => acc + x k * y k) acc) := by
  induction l generalizing acc with
  | nil => rfl
  | cons k l ih =>
    simp only [List.foldl_cons]
    rw [Double.mul_negate, ← Double.negate_add]
    exact ih _

theorem dot_negate {dimWorld : Nat} (x y : Fin dimWorld → Double) :
    dot x (fun k => -(y k)) = -(dot x y) := by
  unfold dot
  have h := foldl_dot_negate x y (List.finRange dimWorld) 0
  rw [Double.negate_zero] at h
  exact h

namespace OnePLocalResidual

variable {dimWorld numEq : Nat}

theorem computeFluxDouble_slot (r : OnePLocalResidual Double dimWorld numEq)
    (flux : Fin numEq → Double) (faceIdx : Int) :
    r.computeFluxDouble flux faceIdx r.pressureIdx =
      upwindCoefficientDouble r.upwindWeight_ (r.upstreamDouble faceIdx)
          (r.downstreamDouble faceIdx) *
        normalFluxDouble (r.fluxVariables faceIdx r.curVolVars_) := by
  unfold computeFluxDouble
  simp only [Function.update_same]
  rfl

theorem normalFluxDouble_opposite (f : SCVFace dimWorld)
    (K : Matrix (Fin dimWorld) (Fin dimWorld) Double) (potentialGrad : Fin dimWorld → Double) :
    normalFluxDouble (f.opposite.fluxVariables K potentialGrad) =
      -(normalFluxDouble (f.fluxVariables K potentialGrad)) := by
  unfold normalFluxDouble
  show -(dot _ (fun k => -(f.normal k))) = _
  rw [dot_negate]
  rfl

/-- The blend times the normal flux, on a face and on the opposite face with the negated
flux. -/
theorem blend_opposite (w : Double) (cur : Int → VolumeVariables Double) (f : SCVFace dimWorld)
    (q : Double)
    (h : upwindCoefficientDouble w (cur (f.upstreamIdx q)) (cur (f.downstreamIdx q)) * q ≠
      Double.nan)
    (h' : upwindCoefficientDouble w (cur (f.opposite.upstreamIdx (-q)))
      (cur (f.opposite.downstreamIdx (-q))) * -q ≠ Double.nan) :
    upwindCoefficientDouble w (cur (f.opposite.upstreamIdx (-q)))
        (cur (f.opposite.downstreamIdx (-q))) * -q =
      -(upwindCoefficientDouble w (cur (f.upstreamIdx q)) (cur (f.downstreamIdx q)) * q) := by
  by_cases h0 : q = 0
  · subst h0
    rw [Double.negate_zero] at h' ⊢
    rw [Double.mul_zero_of_ne_nan h, Double.mul_zero_of_ne_nan h', Double.negate_zero]
  · have hn : q ≠ Double.nan := by
      intro hq; rw [hq, Double.mul_nan] at h; exact h rfl
    have hg := Double.geZero_negate h0 hn
    have hu : f.opposite.upstreamIdx (-q) = f.upstreamIdx q := by
      simp only [SCVFace.upstreamIdx, SCVFace.opposite, hg]
      cases q.geZero <;> rfl
    have hd : f.opposite.downstreamIdx (-q) = f.downstreamIdx q := by
      simp only [SCVFace.downstreamIdx, SCVFace.opposite, hg]
      cases q.geZero <;> rfl
    rw [hu, hd, Double.mul_negate]

/-- The normal flux of the two faces of the example: `-(1 * g) * 2` and its negative. -/
theorem exampleResidualDouble_normalFlux (w : Double) (v0 v1 : VolumeVariables Double) (g : ℚ)
    (h1 : -256 < g) (h2 : g < 256) :
    normalFluxDouble ((exampleResidualDouble w v0 v1 g).fluxVariables 0
        (exampleResidualDouble w v0 v1 g).curVolVars_) = Double.finite (-(g * 2)) ∧
      normalFluxDouble ((exampleResidualDouble w v0 v1 g).fluxVariables 1
        (exampleResidualDouble w v0 v1 g).curVolVars_) = Double.finite (g * 2) := by
  have e1 : Double.ofRat g = Double.finite g := Double.ofRat_small (by linarith) (by linarith)
  have e2 : Double.ofRat (g * 2) = Double.finite (g * 2) :=
    Double.ofRat_small (by linarith) (by linarith)
  have e3 : Double.ofRat (-(g * 2)) = Double.finite (-(g * 2)) :=
    Double.ofRat_small (by linarith) (by linarith)
  constructor
  · simp [normalFluxDouble, exampleResidualDouble, SCVFace.fluxVariables, mv, dot,
      List.finRange, Double.zero_def, Double.one_def, Double.neg_def, Double.add_def,
      Double.mul_def, Double.add, Double.mul, Double.neg, e1, e2]
  · simp [normalFluxDouble, exampleResidualDouble, SCVFace.fluxVariables, SCVFace.opposite, mv,
      dot, List.finRange, Double.zero_def, Double.one_def, Double.neg_def, Double.add_def,
      Double.mul_def, Double.add, Double.mul, Double.neg, e1, e3]

/-- The upstream and downstream states of the two faces of the example for a potential
gradient `g <= 0`: the flux runs from the sub-control volume 0 to the sub-control
volume 1. -/
theorem exampleResidualDouble_upstream (w : Double) (v0 v1 : VolumeVariables Double) (g : ℚ)
    (h1 : -256 < g) (h2 : g ≤ 0) :
    (exampleResidualDouble w v0 v1 g).upstreamDouble 0 = v0 ∧
      (exampleResidualDouble w v0 v1 g).downstreamDouble 0 = v1 ∧
      (g < 0 → (exampleResidualDouble w v0 v1 g).upstreamDouble 1 = v0 ∧
        (exampleResidualDouble w v0 v1 g).downstreamDouble 1 = v1) ∧
      (g = 0 → (exampleResidualDouble w v0 v1 g).upstreamDouble 1 = v1 ∧
        (exampleResidualDouble w v0 v1 g).downstreamDouble 1 = v0) := by
  obtain ⟨n0, n1⟩ := exampleResidualDouble_normalFlux w v0 v1 g h1 (by linarith)
  have hg : (0 : ℚ) ≤ -(g * 2) := by linarith
  refine ⟨?_, ?_, fun hlt => ?_, fun h0 => ?_⟩
  · rw [upstreamDouble, n0]
    simp [exampleResidualDouble, SCVFace.fluxVariables, SCVFace.upstreamIdx, Double.geZero, hg]
  · rw [downstreamDouble, n0]
    simp [exampleResidualDouble, SCVFace.fluxVariables, SCVFace.downstreamIdx, Double.geZero, hg]
  · have hg1 : ¬ (0 : ℚ) ≤ g * 2 := by intro h; linarith
    constructor
    · rw [upstreamDouble, n1]
      simp [exampleResidualDouble, SCVFace.fluxVariables, SCVFace.opposite, SCVFace.upstreamIdx,
        Double.geZero, hg1]
    · rw [downstreamDouble, n1]
      simp [exampleResidualDouble, SCVFace.fluxVariables, SCVFace.opposite,
        SCVFace.downstreamIdx, Double.geZero, hg1]
  · subst h0
    constructor
    · rw [upstreamDouble, n1]
      simp [exampleResidualDouble, SCVFace.fluxVariables, SCVFace.opposite, SCVFace.upstreamIdx,
        Double.geZero]
    · rw [downstreamDouble, n1]
      simp [exampleResidualDouble, SCVFace.fluxVariables, SCVFace.opposite,
        SCVFace.downstreamIdx, Double.geZero]

theorem mobilityDouble_exampleStateA : mobilityDouble exampleStateA = .finite (1 / 2) := by
  norm_num [mobilityDouble, exampleStateA, Double.div_def, Double.div, Double.ofRat_small]

theorem mobilityDouble_exampleStateB : mobilityDouble exampleStateB = .finite 3 := by
  norm_num [mobilityDouble, exampleStateB, Double.div_def, Double.div, Double.ofRat_small]

theorem mobilityDouble_overflowState : mobilityDouble overflowState = .posInf := by
  have h : Double.overflowBound ≤ 2 ^ 1000 / (1 / 2 ^ 100) := by
    unfold Double.overflowBound
    norm_num
  simp only [mobilityDouble, overflowState, Double.div_def, Double.div]
  rw [if_neg (by norm_num), Double.ofRat_large h]

theorem mobilityDouble_zeroViscosityState : mobilityDouble zeroViscosityState = .posInf := by
  norm_num [mobilityDouble, zeroViscosityState, Double.div_def, Double.div]

/-- With upwind weight 1 and an infinite downstream ratio the blend is NaN. -/
theorem upwindCoefficientDouble_one_posInf (up dn : VolumeVariables Double)
    (h : mobilityDouble dn = .posInf) : upwindCoefficientDouble 1 up dn = .nan := by
  unfold upwindCoefficientDouble
  rw [h, Double.one_sub_one, Double.zero_mul_eq]
  exact Double.add_nan _

/-- A density over viscosity that is a number has a nonzero viscosity. -/
theorem viscosity_ne_zero_of_isFinite (v : VolumeVariables Double)
    (h : (mobilityDouble v).isFinite = true) : v.viscosity ≠ 0 := by
  intro hv
  unfold mobilityDouble at h
  rw [hv] at h
  cases hd : v.density with
  | finite a =>
    rw [hd] at h
    simp only [Double.div_def, Double.zero_def, Double.div, if_true] at h
    split_ifs at h <;> simp [Double.isFinite] at h
  | posInf => rw [hd] at h; simp [Double.div_def, Double.zero_def, Double.div, Double.isFinite] at h
  | negInf => rw [hd] at h; simp [Double.div_def, Double.zero_def, Double.div, Double.isFinite] at h
  | nan => rw [hd] at h; simp [Double.div_def, Double.zero_def, Double.div, Double.isFinite] at h

/-- C13 fails as stated: a nonzero viscosity does not keep the density over viscosity
finite.  With upwind weight 1, an upstream state of density 2 and viscosity 4 and a
downstream state of density `2^1000` and viscosity `2^-100`, both viscosities are
nonzero, the downstream density over viscosity overflows to infinity, `1 - 1` times
infinity is NaN, and so are the coefficient and the value `computeFlux` writes: the
coefficient is not the upstream density over viscosity `1/2`. -/
theorem full_upwind_fails_on_overflow :
    (exampleResidualDouble 1 exampleStateA overflowState (-5)).upwindWeight_ = 1 ∧
      (exampleResidualDouble 1 exampleStateA overflowState (-5)).upstreamDouble 0 =
        exampleStateA ∧
      (exampleResidualDouble 1 exampleStateA overflowState (-5)).downstreamDouble 0 =
        overflowState ∧
      exampleStateA.viscosity ≠ 0 ∧ overflowState.viscosity ≠ 0 ∧
      mobilityDouble exampleStateA = .finite (1 / 2) ∧
      mobilityDouble overflowState = .posInf ∧
      upwindCoefficientDouble 1 exampleStateA overflowState = .nan ∧
      (exampleResidualDouble 1 exampleStateA overflowState (-5)).computeFluxDouble
        (fun _ => 0) 0 0 = .nan ∧
      Double.eq (upwindCoefficientDouble 1 exampleStateA overflowState)
        (mobilityDouble exampleStateA) = false := by
  obtain ⟨hu, hd, -, -⟩ :=
    exampleResidualDouble_upstream 1 exampleStateA overflowState (-5) (by norm_num) (by norm_num)
  have hc := upwindCoefficientDouble_one_posInf exampleStateA overflowState
    mobilityDouble_overflowState
  refine ⟨rfl, hu, hd, ?_, ?_, mobilityDouble_exampleStateA, mobilityDouble_overflowState, hc,
    ?_, ?_⟩
  · simp [exampleStateA, Double.zero_def]
  · simp [overflowState, Double.zero_def]
  · rw [show ((0 : Fin 1)) =
        (exampleResidualDouble 1 exampleStateA overflowState (-5)).pressureIdx from rfl,
      computeFluxDouble_slot, hu, hd]
    show upwindCoefficientDouble 1 exampleStateA overflowState * _ = _
    rw [hc]; exact Double.nan_mul _
  · rw [hc]; exact Double.nan_eq _

/-- C13, where the ratio of the other side is a number: in `double`, with upwind weight 1
and a downstream density over viscosity that is a number (neither an infinity nor NaN),
the coefficient multiplying the normal flux in `computeFlux` is the upstream density
over viscosity, and compares equal to it unless that ratio is NaN; with upwind weight 0
and an upstream density over viscosity that is a number it is the downstream density
over viscosity.  When the ratio of the other side is no number the coefficient is
NaN.  A density over viscosity that is a number has a nonzero viscosity. -/
theorem computeFluxDouble_full_upwind (r : OnePLocalResidual Double dimWorld numEq)
    (flux : Fin numEq → Double) (faceIdx : Int) :
    (r.upwindWeight_ = 1 → (mobilityDouble (r.downstreamDouble faceIdx)).isFinite = true →
        upwindCoefficientDouble r.upwindWeight_ (r.upstreamDouble faceIdx)
            (r.downstreamDouble faceIdx) = mobilityDouble (r.upstreamDouble faceIdx) ∧
          r.computeFluxDouble flux faceIdx r.pressureIdx =
            (r.upstreamDouble faceIdx).density / (r.upstreamDouble faceIdx).viscosity *
              normalFluxDouble (r.fluxVariables faceIdx r.curVolVars_) ∧
          (mobilityDouble (r.upstreamDouble faceIdx) ≠ Double.nan →
            Double.eq
              (upwindCoefficientDouble r.upwindWeight_ (r.upstreamDouble faceIdx)
                (r.downstreamDouble faceIdx))
              (mobilityDouble (r.upstreamDouble faceIdx)) = true)) ∧
      (r.upwindWeight_ = 0 → (mobilityDouble (r.upstreamDouble faceIdx)).isFinite = true →
        upwindCoefficientDouble r.upwindWeight_ (r.upstreamDouble faceIdx)
            (r.downstreamDouble faceIdx) = mobilityDouble (r.downstreamDouble faceIdx) ∧
          r.computeFluxDouble flux faceIdx r.pressureIdx =
            (r.downstreamDouble faceIdx).density / (r.downstreamDouble faceIdx).viscosity *
              normalFluxDouble (r.fluxVariables faceIdx r.curVolVars_) ∧
          (mobilityDouble (r.downstreamDouble faceIdx) ≠ Double.nan →
            Double.eq
              (upwindCoefficientDouble r.upwindWeight_ (r.upstreamDouble faceIdx)
                (r.downstreamDouble faceIdx))
              (mobilityDouble (r.downstreamDouble faceIdx)) = true)) ∧
      (r.upwindWeight_ = 1 → (mobilityDouble (r.downstreamDouble faceIdx)).isFinite = false →
        upwindCoefficientDouble r.upwindWeight_ (r.upstreamDouble faceIdx)
            (r.downstreamDouble faceIdx) = Double.nan) ∧
      (r.upwindWeight_ = 0 → (mobilityDouble (r.upstreamDouble faceIdx)).isFinite = false →
        upwindCoefficientDouble r.upwindWeight_ (r.upstreamDouble faceIdx)
            (r.downstreamDouble faceIdx) = Double.nan) ∧
      ((mobilityDouble (r.upstreamDouble faceIdx)).isFinite = true →
        (r.upstreamDouble faceIdx).viscosity ≠ 0) ∧
      ((mobilityDouble (r.downstreamDouble faceIdx)).isFinite = true →
        (r.downstreamDouble faceIdx).viscosity ≠ 0) := by
  have hup : Double.InRange (mobilityDouble (r.upstreamDouble faceIdx)) := Double.div_inRange _ _
  have hdn : Double.InRange (mobilityDouble (r.downstreamDouble faceIdx)) :=
    Double.div_inRange _ _
  refine ⟨fun hw hf => ?_, fun hw hf => ?_, fun hw hf => ?_, fun hw hf => ?_,
    viscosity_ne_zero_of_isFinite _, viscosity_ne_zero_of_isFinite _⟩
  · have hc : upwindCoefficientDouble r.upwindWeight_ (r.upstreamDouble faceIdx)
        (r.downstreamDouble faceIdx) = mobilityDouble (r.upstreamDouble faceIdx) := by
      unfold upwindCoefficientDouble
      rw [hw, Double.one_sub_one, Double.zero_mul_eq, hf, if_pos rfl,
        Double.one_mul_of_inRange hup, Double.add_zero_of_inRange hup]
    refine ⟨hc, ?_, fun hn => ?_⟩
    · rw [computeFluxDouble_slot, hc]; rfl
    · rw [hc]; exact Double.eq_self hn
  · have hc : upwindCoefficientDouble r.upwindWeight_ (r.upstreamDouble faceIdx)
        (r.downstreamDouble faceIdx) = mobilityDouble (r.downstreamDouble faceIdx) := by
      unfold upwindCoefficientDouble
      rw [hw, Double.one_sub_zero, Double.zero_mul_eq, hf, if_pos rfl,
        Double.one_mul_of_inRange hdn, Double.zero_add_of_inRange hdn]
    refine ⟨hc, ?_, fun hn => ?_⟩
    · rw [computeFluxDouble_slot, hc]; rfl
    · rw [hc]; exact Double.eq_self hn
  · unfold upwindCoefficientDouble
    rw [hw, Double.one_sub_one, Double.zero_mul_eq, hf]
    exact Double.add_nan _
  · unfold upwindCoefficientDouble
    rw [hw, Double.zero_mul_eq, hf]
    exact Double.nan_add _


theorem computeFluxDouble_full_upwind_witness :
    upwindCoefficientDouble 1
        ((exampleResidualDouble 1 exampleStateA exampleStateB (-5)).upstreamDouble 0)
        ((exampleResidualDouble 1 exampleStateA exampleStateB (-5)).downstreamDouble 0) =
      .finite (1 / 2) ∧
    upwindCoefficientDouble 0
        ((exampleResidualDouble 0 exampleStateA exampleStateB (-5)).upstreamDouble 0)
        ((exampleResidualDouble 0 exampleStateA exampleStateB (-5)).downstreamDouble 0) =
      .finite 3 := by
  obtain ⟨hu1, hd1, -, -⟩ :=
    exampleResidualDouble_upstream 1 exampleStateA exampleStateB (-5) (by norm_num) (by norm_num)
  obtain ⟨hu0, hd0, -, -⟩ :=
    exampleResidualDouble_upstream 0 exampleStateA exampleStateB (-5) (by norm_num) (by norm_num)
  have h1 := ((computeFluxDouble_full_upwind
    (exampleResidualDouble 1 exampleStateA exampleStateB (-5)) (fun _ => 0) 0).1 rfl
    (by rw [hd1, mobilityDouble_exampleStateB]; rfl)).1
  have h0 := ((computeFluxDouble_full_upwind
    (exampleResidualDouble 0 exampleStateA exampleStateB (-5)) (fun _ => 0) 0).2.1 rfl
    (by rw [hu0, mobilityDouble_exampleStateA]; rfl)).1
  exact ⟨h1.trans (by rw [hu1]; exact mobilityDouble_exampleStateA),
    h0.trans (by rw [hd0]; exact mobilityDouble_exampleStateB)⟩

theorem mobilityDouble_largeState : mobilityDouble largeState = .finite (2 ^ 1023) := by
  have h : Double.InRange (.finite (2 ^ 1023 / 1)) := by
    unfold Double.InRange Double.overflowBound
    norm_num
  simp only [mobilityDouble, largeState, Double.div_def, Double.div]
  rw [if_neg (by norm_num), Double.ofRat_of_inRange h, div_one]

theorem mobilityDouble_unitState : mobilityDouble unitState = .finite 1 := by
  norm_num [mobilityDouble, unitState, Double.div_def, Double.div, Double.ofRat_small]

/-- With upwind weight 2 the blend of the ratios `2^1023` and 1 overflows to infinity,
the blend of 1 and `2^1023` is a number. -/
theorem upwindCoefficientDouble_two :
    upwindCoefficientDouble (.finite 2) largeState unitState = .posInf ∧
      (upwindCoefficientDouble (.finite 2) unitState largeState).isFinite = true := by
  have h1 : Double.ofRat (2 * 2 ^ 1023) = .posInf :=
    Double.ofRat_large (by unfold Double.overflowBound; norm_num)
  have h2 : Double.ofRat (1 + -2) = .finite (-1) := by
    rw [Double.ofRat_small (by norm_num) (by norm_num)]; norm_num
  have h3 : Double.ofRat (-1 * 1) = .finite (-1) := by
    rw [Double.ofRat_small (by norm_num) (by norm_num)]; norm_num
  have h4 : Double.ofRat (2 * 1) = .finite 2 := by
    rw [Double.ofRat_small (by norm_num) (by norm_num)]; norm_num
  have h5 : Double.ofRat (-1 * 2 ^ 1023) = .finite (-1 * 2 ^ 1023) :=
    Double.ofRat_of_inRange (by unfold Double.InRange Double.overflowBound; norm_num)
  have h6 : Double.ofRat (2 + -1 * 2 ^ 1023) = .finite (2 + -1 * 2 ^ 1023) :=
    Double.ofRat_of_inRange (by unfold Double.InRange Double.overflowBound; norm_num)
  constructor
  · unfold upwindCoefficientDouble
    rw [mobilityDouble_largeState, mobilityDouble_unitState]
    simp only [Double.one_def, Double.sub_def, Double.mul_def, Double.add_def, Double.neg,
      Double.add, Double.mul, h1, h2, h3]
  · unfold upwindCoefficientDouble
    rw [mobilityDouble_largeState, mobilityDouble_unitState]
    simp only [Double.one_def, Double.sub_def, Double.mul_def, Double.add_def, Double.neg,
      Double.add, Double.mul, h2, h4, h5, h6, Double.isFinite]

/-- C14 fails as stated.  With upwind weight 1, the state of density 2 and viscosity 4
upstream and a state of viscosity zero downstream, the downstream density over
viscosity is infinite and the blend is NaN: `computeFlux` writes NaN for the face 0
and NaN for the face 1, the face 0 with the opposite orientation, and NaN is not equal
to the negative of NaN.  With upwind weight 2, the states of density `2^1023` and of
density 1, both of viscosity 1, and a zero potential gradient, `computeFlux` writes NaN
for the face 0, where the blend overflows, and 0 for the face 1. -/
theorem opposite_face_fails_on_nan :
    (exampleResidualDouble 1 exampleStateA zeroViscosityState (-5)).computeFluxDouble
        (fun _ => 0) 0 0 = .nan ∧
      (exampleResidualDouble 1 exampleStateA zeroViscosityState (-5)).computeFluxDouble
        (fun _ => 0) 1 0 = .nan ∧
      Double.eq
        ((exampleResidualDouble 1 exampleStateA zeroViscosityState (-5)).computeFluxDouble
          (fun _ => 0) 1 0)
        (-((exampleResidualDouble 1 exampleStateA zeroViscosityState (-5)).computeFluxDouble
          (fun _ => 0) 0 0)) = false ∧
      (exampleResidualDouble (.finite 2) largeState unitState 0).computeFluxDouble
        (fun _ => 0) 0 0 = .nan ∧
      (exampleResidualDouble (.finite 2) largeState unitState 0).computeFluxDouble
        (fun _ => 0) 1 0 = 0 := by
  obtain ⟨hu, hd, hopp, -⟩ := exampleResidualDouble_upstream 1 exampleStateA zeroViscosityState
    (-5) (by norm_num) (by norm_num)
  obtain ⟨hu', hd'⟩ := hopp (by norm_num)
  have hc := upwindCoefficientDouble_one_posInf exampleStateA zeroViscosityState
    mobilityDouble_zeroViscosityState
  have e0 : (exampleResidualDouble 1 exampleStateA zeroViscosityState (-5)).computeFluxDouble
      (fun _ => 0) 0 0 = .nan := by
    rw [show ((0 : Fin 1)) =
        (exampleResidualDouble 1 exampleStateA zeroViscosityState (-5)).pressureIdx from rfl,
      computeFluxDouble_slot, hu, hd]
    show upwindCoefficientDouble 1 exampleStateA zeroViscosityState * _ = _
    rw [hc]; exact Double.nan_mul _
  have e1 : (exampleResidualDouble 1 exampleStateA zeroViscosityState (-5)).computeFluxDouble
      (fun _ => 0) 1 0 = .nan := by
    rw [show ((0 : Fin 1)) =
        (exampleResidualDouble 1 exampleStateA zeroViscosityState (-5)).pressureIdx from rfl,
      computeFluxDouble_slot, hu', hd']
    show upwindCoefficientDouble 1 exampleStateA zeroViscosityState * _ = _
    rw [hc]; exact Double.nan_mul _
  obtain ⟨gu, gd, -, gopp⟩ := exampleResidualDouble_upstream (.finite 2) largeState unitState
    0 (by norm_num) (by norm_num)
  obtain ⟨gu', gd'⟩ := gopp rfl
  obtain ⟨n0, n1⟩ := exampleResidualDouble_normalFlux (.finite 2) largeState unitState 0
    (by norm_num) (by norm_num)
  obtain ⟨c0, c1⟩ := upwindCoefficientDouble_two
  refine ⟨e0, e1, ?_, ?_, ?_⟩
  · rw [e1]; exact Double.nan_eq _
  · rw [show ((0 : Fin 1)) =
        (exampleResidualDouble (.finite 2) largeState unitState 0).pressureIdx from rfl,
      computeFluxDouble_slot, gu, gd, n0]
    show upwindCoefficientDouble (.finite 2) largeState unitState * _ = _
    rw [c0]
    simp [Double.mul_def, Double.mul, Double.infTimes]
  · rw [show ((0 : Fin 1)) =
        (exampleResidualDouble (.finite 2) largeState unitState 0).pressureIdx from rfl,
      computeFluxDouble_slot, gu', gd', n1]
    show upwindCoefficientDouble (.finite 2) unitState largeState * _ = _
    cases hx : upwindCoefficientDouble (.finite 2) unitState largeState with
    | finite a => rw [zero_mul]; exact Double.finite_mul_zero a
    | posInf => rw [hx] at c1; exact absurd c1 (by simp [Double.isFinite])
    | negInf => rw [hx] at c1; exact absurd c1 (by simp [Double.isFinite])
    | nan => rw [hx] at c1; exact absurd c1 (by simp [Double.isFinite])

/-- C14, where neither value is NaN: in `double`, for every upwind weight and all states
of the sub-control volumes, with the upstream and the downstream sub-control volume
of a face selected by the sign of the normal flux, the face with the opposite
orientation (the normal negated, the sub-control volumes `i` and `j` exchanged) has
the negated normal flux and, for a normal flux that is neither zero nor NaN, the same
upstream and the same downstream sub-control volume; the value `computeFlux` writes
for it is the negative of the value it writes for the face whenever neither of the two
values is NaN, and it compares equal to that negative exactly then. -/
theorem computeFluxDouble_opposite_face (r : OnePLocalResidual Double dimWorld numEq)
    (flux : Fin numEq → Double) (faceIdx faceIdx' : Int) (f : SCVFace dimWorld)
    (K : Matrix (Fin dimWorld) (Fin dimWorld) Double) (potentialGrad : Fin dimWorld → Double)
    (hface : r.fluxVariables faceIdx r.curVolVars_ = f.fluxVariables K potentialGrad)
    (hopp : r.fluxVariables faceIdx' r.curVolVars_ = f.opposite.fluxVariables K potentialGrad) :
    normalFluxDouble (r.fluxVariables faceIdx' r.curVolVars_) =
        -(normalFluxDouble (r.fluxVariables faceIdx r.curVolVars_)) ∧
      (normalFluxDouble (r.fluxVariables faceIdx r.curVolVars_) ≠ 0 →
        normalFluxDouble (r.fluxVariables faceIdx r.curVolVars_) ≠ Double.nan →
        r.upstreamDouble faceIdx' = r.upstreamDouble faceIdx ∧
          r.downstreamDouble faceIdx' = r.downstreamDouble faceIdx) ∧
      (r.computeFluxDouble flux faceIdx r.pressureIdx ≠ Double.nan →
        r.computeFluxDouble flux faceIdx' r.pressureIdx ≠ Double.nan →
        r.computeFluxDouble flux faceIdx' r.pressureIdx =
          -(r.computeFluxDouble flux faceIdx r.pressureIdx)) ∧
      (Double.eq (r.computeFluxDouble flux faceIdx' r.pressureIdx)
          (-(r.computeFluxDouble flux faceIdx r.pressureIdx)) = true ↔
        r.computeFluxDouble flux faceIdx r.pressureIdx ≠ Double.nan ∧
          r.computeFluxDouble flux faceIdx' r.pressureIdx ≠ Double.nan) := by
  have hq : normalFluxDouble (r.fluxVariables faceIdx' r.curVolVars_) =
      -(normalFluxDouble (r.fluxVariables faceIdx r.curVolVars_)) := by
    rw [hface, hopp]; exact normalFluxDouble_opposite f K potentialGrad
  have hs : r.computeFluxDouble flux faceIdx r.pressureIdx =
      upwindCoefficientDouble r.upwindWeight_
          (r.curVolVars_ (f.upstreamIdx (normalFluxDouble (f.fluxVariables K potentialGrad))))
          (r.curVolVars_
            (f.downstreamIdx (normalFluxDouble (f.fluxVariables K potentialGrad)))) *
        normalFluxDouble (f.fluxVariables K potentialGrad) := by
    rw [computeFluxDouble_slot, upstreamDouble, downstreamDouble, hface]; rfl
  have hs' : r.computeFluxDouble flux faceIdx' r.pressureIdx =
      upwindCoefficientDouble r.upwindWeight_
          (r.curVolVars_
            (f.opposite.upstreamIdx (-(normalFluxDouble (f.fluxVariables K potentialGrad)))))
          (r.curVolVars_
            (f.opposite.downstreamIdx
              (-(normalFluxDouble (f.fluxVariables K potentialGrad))))) *
        -(normalFluxDouble (f.fluxVariables K potentialGrad)) := by
    rw [computeFluxDouble_slot, upstreamDouble, downstreamDouble, hq, hface, hopp]; rfl
  have hmain : r.computeFluxDouble flux faceIdx r.pressureIdx ≠ Double.nan →
      r.computeFluxDouble flux faceIdx' r.pressureIdx ≠ Double.nan →
      r.computeFluxDouble flux faceIdx' r.pressureIdx =
        -(r.computeFluxDouble flux faceIdx r.pressureIdx) := by
    intro h h'
    rw [hs] at h ⊢
    rw [hs'] at h' ⊢
    exact blend_opposite r.upwindWeight_ r.curVolVars_ f _ h h'
  refine ⟨hq, fun h0 hn => ?_, hmain, ⟨fun h => ?_, fun h => ?_⟩⟩
  · have hg := Double.geZero_negate h0 hn
    rw [hface] at hg
    constructor
    · rw [upstreamDouble, upstreamDouble, hq, hface, hopp]
      show r.curVolVars_ (f.opposite.upstreamIdx _) = r.curVolVars_ (f.upstreamIdx _)
      simp only [SCVFace.upstreamIdx, SCVFace.opposite, hg]
      cases (normalFluxDouble (f.fluxVariables K potentialGrad)).geZero <;> rfl
    · rw [downstreamDouble, downstreamDouble, hq, hface, hopp]
      show r.curVolVars_ (f.opposite.downstreamIdx _) = r.curVolVars_ (f.downstreamIdx _)
      simp only [SCVFace.downstreamIdx, SCVFace.opposite, hg]
      cases (normalFluxDouble (f.fluxVariables K potentialGrad)).geZero <;> rfl
  · obtain ⟨h1, h2⟩ := Double.eq_true_ne_nan h
    exact ⟨fun hx => h2 (Double.negate_eq_nan.mpr hx), h1⟩
  · rw [hmain h.1 h.2]
    exact Double.eq_self (fun hx => h.1 (Double.negate_eq_nan.mp hx))

theorem computeFluxDouble_opposite_face_witness :
    (exampleResidualDouble (.finite (3 / 4)) exampleStateA exampleStateB (-5)).computeFluxDouble
        (fun _ => 0) 0 0 = .finite (45 / 4) ∧
      (exampleResidualDouble (.finite (3 / 4)) exampleStateA exampleStateB (-5)).computeFluxDouble
        (fun _ => 0) 1 0 = .finite (-(45 / 4)) ∧
      (exampleResidualDouble (.finite (3 / 4)) exampleStateA exampleStateB (-5)).computeFluxDouble
          (fun _ => 0) 1 0 =
        -((exampleResidualDouble (.finite (3 / 4)) exampleStateA exampleStateB
          (-5)).computeFluxDouble (fun _ => 0) 0 0) := by
  obtain ⟨hu, hd, hopp, -⟩ := exampleResidualDouble_upstream (.finite (3 / 4)) exampleStateA
    exampleStateB (-5) (by norm_num) (by norm_num)
  obtain ⟨hu', hd'⟩ := hopp (by norm_num)
  obtain ⟨n0, n1⟩ := exampleResidualDouble_normalFlux (.finite (3 / 4)) exampleStateA
    exampleStateB (-5) (by norm_num) (by norm_num)
  have hc : upwindCoefficientDouble (.finite (3 / 4)) exampleStateA exampleStateB =
      .finite (9 / 8) := by
    unfold upwindCoefficientDouble
    rw [mobilityDouble_exampleStateA, mobilityDouble_exampleStateB]
    norm_num [Double.one_def, Double.sub_def, Double.mul_def, Double.add_def, Double.neg,
      Double.add, Double.mul, Double.ofRat_small]
  have e0 : (exampleResidualDouble (.finite (3 / 4)) exampleStateA exampleStateB
      (-5)).computeFluxDouble (fun _ => 0) 0 0 = .finite (45 / 4) := by
    rw [show ((0 : Fin 1)) = (exampleResidualDouble (.finite (3 / 4)) exampleStateA
        exampleStateB (-5)).pressureIdx from rfl, computeFluxDouble_slot, hu, hd, n0]
    show upwindCoefficientDouble (.finite (3 / 4)) exampleStateA exampleStateB * _ = _
    rw [hc]
    norm_num [Double.mul_def, Double.mul, Double.ofRat_small]
  have e1 : (exampleResidualDouble (.finite (3 / 4)) exampleStateA exampleStateB
      (-5)).computeFluxDouble (fun _ => 0) 1 0 = .finite (-(45 / 4)) := by
    rw [show ((0 : Fin 1)) = (exampleResidualDouble (.finite (3 / 4)) exampleStateA
        exampleStateB (-5)).pressureIdx from rfl, computeFluxDouble_slot, hu', hd', n1]
    show upwindCoefficientDouble (.finite (3 / 4)) exampleStateA exampleStateB * _ = _
    rw [hc]
    norm_num [Double.mul_def, Double.mul, Double.ofRat_small]
  have h := computeFluxDouble_opposite_face
    (exampleResidualDouble (.finite (3 / 4)) exampleStateA exampleStateB (-5)) (fun _ => 0) 0 1
    ⟨0, 1, fun _ => .finite 2⟩ (fun _ _ => 1) (fun _ => .finite (-5)) rfl rfl
  exact ⟨e0, e1, h.2.2.1 (ne_of_eq_of_ne e0 (by simp)) (ne_of_eq_of_ne e1 (by simp))⟩

end OnePLocalResidual

end Dumux

namespace Dune

section

variable {U A J S C L Scalar Cell Face LocalCoord WorldCoord : Type}

/-! ## The order of the cells in `evalGlobalDefect` -/

theorem localDefects_of_fixed (ld : LocalDefect J Cell U L) (uCur uPrev : List U)
    (d : Cell → L)
    (hfixed : ∀ jac cell, (evalCellDefect ld uCur uPrev jac cell).1 = some (d cell))
    (cells : List Cell) (jac : J) :
    localDefects ld uCur uPrev cells jac = cells.map (fun cell => (cell, d cell)) := by
  induction cells generalizing jac with
  | nil => rfl
  | cons cell rest ih =>
    rcases hc : evalCellDefect ld uCur uPrev jac cell with ⟨r, jac1⟩
    have h := hfixed jac cell
    rw [hc] at h
    simp only at h
    subst h
    simp only [localDefects, hc, List.map_cons, ih]

theorem evalGlobalDefectLoop_threw_of_fixed [Add U]
    (prob : Problem Cell Face LocalCoord WorldCoord U) (ld : LocalDefect J Cell U L)
    (uCur uPrev : List U) (d : Cell → L)
    (hfixed : ∀ jac cell, (evalCellDefect ld uCur uPrev jac cell).1 = some (d cell))
    (cells : List Cell) (gd : List U) (jac : J) :
    (evalGlobalDefectLoop prob ld uCur uPrev cells gd jac).threw = false := by
  induction cells generalizing gd jac with
  | nil => rfl
  | cons cell rest ih =>
    rcases hc : evalCellDefect ld uCur uPrev jac cell with ⟨r, jac1⟩
    have h := hfixed jac cell
    rw [hc] at h
    simp only at h
    subst h
    simp only [evalGlobalDefectLoop, hc, ih]

theorem foldl_add_eq_add_sum [AddCommMonoid U] (l : List U) (x : U) :
    l.foldl (fun y c => y + c) x = x + l.sum := by
  induction l generalizing x with
  | nil => simp
  | cons a rest ih => rw [List.foldl_cons, ih, List.sum_cons, add_assoc]

/-- C21: when the local defect of every cell is fixed, the same whatever the state of
the local Jacobian and hence whatever the cells visited before, the global defect
assembled by `evalGlobalDefect` is the same for every permutation of the sequence of
leaf cells, the entries being added in a commutative monoid (exact arithmetic). -/
theorem evalGlobalDefect_order_independent [AddCommMonoid U]
    (prob : Problem Cell Face LocalCoord WorldCoord U) (ld : LocalDefect J Cell U L)
    (model : BoxModel U A J) (globDefect : List U) (d : Cell → L)
    (hfixed : ∀ jac cell,
      (evalCellDefect ld model._uCur model._uPrev jac cell).1 = some (d cell))
    (cells : List Cell) (hperm : cells.Perm prob.leafCells) :
    (model.evalGlobalDefect { prob with leafCells := cells } ld globDefect).threw = false ∧
      (model.evalGlobalDefect prob ld globDefect).threw = false ∧
      (model.evalGlobalDefect { prob with leafCells := cells } ld globDefect).globDefect =
        (model.evalGlobalDefect prob ld globDefect).globDefect := by
  refine ⟨evalGlobalDefectLoop_threw_of_fixed _ ld _ _ d hfixed _ _ _,
    evalGlobalDefectLoop_threw_of_fixed _ ld _ _ d hfixed _ _ _, ?_⟩
  apply List.ext_getElem?
  intro g
  simp only [BoxModel.evalGlobalDefect, evalGlobalDefectLoop_getElem?,
    localDefects_of_fixed ld _ _ d hfixed, foldl_add_eq_add_sum]
  have hsum : (contributions { prob with leafCells := cells } ld
        (cells.map (fun cell => (cell, d cell))) g).sum =
      (contributions prob ld (prob.leafCells.map (fun cell => (cell, d cell))) g).sum := by
    apply List.Perm.sum_eq
    unfold contributions
    exact (hperm.map _).flatMap_right _
  rw [hsum]

theorem evalGlobalDefect_order_independent_witness :
    (exampleModel.evalGlobalDefect { exampleProblem with leafCells := [1, 0] }
        (exampleLocalDefect none) [7, 7, 7]).globDefect = [1, 12, 20] ∧
      (exampleModel.evalGlobalDefect { exampleProblem with leafCells := [1, 0] }
        (exampleLocalDefect none) [7, 7, 7]).globDefect =
        (exampleModel.evalGlobalDefect exampleProblem (exampleLocalDefect none)
          [7, 7, 7]).globDefect :=
  ⟨by decide,
    (evalGlobalDefect_order_independent exampleProblem (exampleLocalDefect none) exampleModel
      [7, 7, 7] (fun cell => (cell + 1, 10 * (cell + 1))) (fun _ _ => rfl) [1, 0]
      (List.Perm.swap 0 1 [])).2.2⟩

/-! ## The attempts of `update` -/

theorem updateLoop_converges_at (lj : LocalJacobian J Cell Scalar)
    (nm : NewtonMethod U A J S C Scalar) :
    ∀ (k n : Nat), n + k ≤ 10 → ∀ (solver : S) (r : Run U A J C Scalar),
      (∀ j, j < k → (attempt lj nm (attemptStart lj nm solver r j).1
        (attemptStart lj nm solver r j).2).converged = false) →
      (attempt lj nm (attemptStart lj nm solver r k).1
        (attemptStart lj nm solver r k).2).converged = true →
      updateLoop lj nm n solver r =
        { thrown := none
          run := (attempt lj nm (attemptStart lj nm solver r k).1
            (attemptStart lj nm solver r k).2).run } := by
  intro k
  induction k with
  | zero =>
    intro n _ solver r _ hconv
    exact updateLoop_converged lj nm n solver r hconv
  | succ k ih =>
    intro n hn solver r hrej hconv
    have h0 : (attempt lj nm solver r).converged = false := hrej 0 (Nat.succ_pos k)
    rw [updateLoop_rejected lj nm n solver r h0 (by omega)]
    rw [ih (n + 1) (by omega) (attempt lj nm solver r).solver (retry (attempt lj nm solver r).run)
      (fun j hj => by rw [← attemptStart_succ]; exact hrej (j + 1) (by omega))
      (by rw [← attemptStart_succ]; exact hconv)]
    rw [attemptStart_succ]

theorem numExecuteCalls_attemptStart (lj : LocalJacobian J Cell Scalar)
    (nm : NewtonMethod U A J S C Scalar) (solver : S) (r : Run U A J C Scalar) (k : Nat) :
    numExecuteCalls (attemptStart lj nm solver r k).2.calls = numExecuteCalls r.calls + k := by
  induction k with
  | zero => rfl
  | succ k ih =>
    show numExecuteCalls (retry (attempt lj nm _ _).run).calls = _
    rw [numExecuteCalls_retry, numExecuteCalls_attempt, ih]
    omega

/-- C25: if the first `k` attempts of `update` are rejected and the attempt after them
converges, `k` at most 10, then `update` returns normally after exactly `k + 1` calls
of `solver.execute`; every retry runs with the step size the controller suggested after
the rejected attempt before it; on return `dt` is the step size of the converged
attempt and `nextDt` the suggestion for that `dt` of the controller as the converged
solve left it, the last statements recorded being `setDt(dt)`, the converged `execute`,
`suggestTimeStepSize(dt)` and the assignment of the previous solution. -/
theorem update_converging_after_retries (prob : Problem Cell Face LocalCoord WorldCoord U)
    (lj : LocalJacobian J Cell Scalar) (nm : NewtonMethod U A J S C Scalar)
    (model : BoxModel U A J) (controller : C) (dt nextDt : Scalar) (k : Nat) (hk : k ≤ 10)
    (hrej : ∀ j, j < k →
      (attempt lj nm
        (attemptStart lj nm (loopEntry prob lj nm model controller dt nextDt).1
          (loopEntry prob lj nm model controller dt nextDt).2 j).1
        (attemptStart lj nm (loopEntry prob lj nm model controller dt nextDt).1
          (loopEntry prob lj nm model controller dt nextDt).2 j).2).converged = false)
    (hconv :
      (attempt lj nm
        (attemptStart lj nm (loopEntry prob lj nm model controller dt nextDt).1
          (loopEntry prob lj nm model controller dt nextDt).2 k).1
        (attemptStart lj nm (loopEntry prob lj nm model controller dt nextDt).1
          (loopEntry prob lj nm model controller dt nextDt).2 k).2).converged = true) :
    (model.update prob lj nm controller dt nextDt).thrown = none ∧
      numExecuteCalls (model.update prob lj nm controller dt nextDt).run.calls = k + 1 ∧
      (attemptStart lj nm (loopEntry prob lj nm model controller dt nextDt).1
        (loopEntry prob lj nm model controller dt nextDt).2 0).2.dt = dt ∧
      (∀ j, j < k → ∃ ctl,
        (attemptStart lj nm (loopEntry prob lj nm model controller dt nextDt).1
          (loopEntry prob lj nm model controller dt nextDt).2 (j + 1)).2.dt =
          (nm.suggestTimeStepSize ctl
            (attemptStart lj nm (loopEntry prob lj nm model controller dt nextDt).1
              (loopEntry prob lj nm model controller dt nextDt).2 j).2.dt).1) ∧
      (model.update prob lj nm controller dt nextDt).run.dt =
        (attemptStart lj nm (loopEntry prob lj nm model controller dt nextDt).1
          (loopEntry prob lj nm model controller dt nextDt).2 k).2.dt ∧
      (model.update prob lj nm controller dt nextDt).run.nextDt =
        (nm.suggestTimeStepSize
          (nm.execute
            (attemptStart lj nm (loopEntry prob lj nm model controller dt nextDt).1
              (loopEntry prob lj nm model controller dt nextDt).2 k).1
            { (attemptStart lj nm (loopEntry prob lj nm model controller dt nextDt).1
                (loopEntry prob lj nm model controller dt nextDt).2 k).2.model with
              _localJacobian := lj.setDt
                (attemptStart lj nm (loopEntry prob lj nm model controller dt nextDt).1
                  (loopEntry prob lj nm model controller dt nextDt).2 k).2.model._localJacobian
                (model.update prob lj nm controller dt nextDt).run.dt }
            (attemptStart lj nm (loopEntry prob lj nm model controller dt nextDt).1
              (loopEntry prob lj nm model controller dt nextDt).2 k).2.controller).controller
          (model.update prob lj nm controller dt nextDt).run.dt).1 ∧
      ∃ before, (model.update prob lj nm controller dt nextDt).run.calls =
        before ++ [Call.setDt (model.update prob lj nm controller dt nextDt).run.dt,
          Call.execute true,
          Call.suggestTimeStepSize (model.update prob lj nm controller dt nextDt).run.dt
            (model.update prob lj nm controller dt nextDt).run.nextDt,
          Call.assignPrev] := by
  have hloop := updateLoop_converges_at lj nm k 0 (by omega)
    (loopEntry prob lj nm model controller dt nextDt).1
    (loopEntry prob lj nm model controller dt nextDt).2 hrej hconv
  have hnone : (updateLoop lj nm 0 (loopEntry prob lj nm model controller dt nextDt).1
      (loopEntry prob lj nm model controller dt nextDt).2).thrown = none := by
    rw [hloop]
  rw [update_of_returned prob lj nm model controller dt nextDt hnone, hloop]
  refine ⟨rfl, ?_, rfl, fun j _ => ⟨_, rfl⟩, rfl, rfl, ?_⟩
  · simp only [numExecuteCalls, List.countP_append, List.countP_cons, List.countP_nil,
      Call.isExecute]
    have h1 := numExecuteCalls_attempt lj nm
      (attemptStart lj nm (loopEntry prob lj nm model controller dt nextDt).1
        (loopEntry prob lj nm model controller dt nextDt).2 k).1
      (attemptStart lj nm (loopEntry prob lj nm model controller dt nextDt).1
        (loopEntry prob lj nm model controller dt nextDt).2 k).2
    have h2 := numExecuteCalls_attemptStart lj nm
      (loopEntry prob lj nm model controller dt nextDt).1
      (loopEntry prob lj nm model controller dt nextDt).2 k
    simp only [numExecuteCalls] at h1 h2
    rw [h1, h2]
    simp [loopEntry, Call.isExecute]
  · refine ⟨(attemptStart lj nm (loopEntry prob lj nm model controller dt nextDt).1
      (loopEntry prob lj nm model controller dt nextDt).2 k).2.calls, ?_⟩
    rw [attempt_converged] at hconv
    simp [attempt, hconv]

theorem update_converging_after_retries_witness :
    (exampleModel.update exampleProblem exampleJacobian (exampleNewton (some 3))
        () 1024 0).thrown = none ∧
      numExecuteCalls (exampleModel.update exampleProblem exampleJacobian
        (exampleNewton (some 3)) () 1024 0).run.calls = 3 ∧
      (exampleModel.update exampleProblem exampleJacobian (exampleNewton (some 3))
        () 1024 0).run.dt = 256 ∧
      (exampleModel.update exampleProblem exampleJacobian (exampleNewton (some 3))
        () 1024 0).run.nextDt = 128 := by
  have h := update_converging_after_retries exampleProblem exampleJacobian
    (exampleNewton (some 3)) exampleModel () 1024 0 2 (by decide)
    (fun j hj => by interval_cases j <;> rfl) rfl
  obtain ⟨h1, h2, _, _, h5, h6, _⟩ := h
  have hdt : (exampleModel.update exampleProblem exampleJacobian (exampleNewton (some 3))
      () 1024 0).run.dt = 256 := h5.trans (by decide)
  refine ⟨h1, h2, hdt, ?_⟩
  rw [h6, hdt]
  rfl

/-! ## Dirichlet values in `update` -/

theorem updateLoop_calls (lj : LocalJacobian J Cell Scalar)
    (nm : NewtonMethod U A J S C Scalar) :
    ∀ (m n : Nat), n + m = 10 → ∀ (solver : S) (r : Run U A J C Scalar),
      ∃ rest, (updateLoop lj nm n solver r).run.calls = r.calls ++ rest ∧
        numDirichletCalls rest = 0 := by
  intro m
  induction m with
  | zero =>
    intro n hn solver r
    have ha : ∃ rest, (attempt lj nm solver r).run.calls = r.calls ++ rest ∧
        numDirichletCalls rest = 0 := ⟨_, rfl, rfl⟩
    cases hc : (attempt lj nm solver r).converged
    · rw [updateLoop_exhausted lj nm n solver r hc (by omega)]; exact ha
    · rw [updateLoop_converged lj nm n solver r hc]; exact ha
  | succ m ih =>
    intro n hn solver r
    cases hc : (attempt lj nm solver r).converged
    · rw [updateLoop_rejected lj nm n solver r hc (by omega)]
      obtain ⟨rest, hrest, hzero⟩ := ih (n + 1) (by omega) (attempt lj nm solver r).solver
        (retry (attempt lj nm solver r).run)
      refine ⟨[Call.setDt r.dt, Call.execute (attempt lj nm solver r).converged,
        Call.suggestTimeStepSize r.dt (attempt lj nm solver r).run.nextDt,
        Call.retryMessage (attempt lj nm solver r).run.nextDt] ++ rest, ?_, ?_⟩
      · rw [hrest]
        simp [retry, attempt]
      · simp only [numDirichletCalls, List.countP_append, List.countP_cons, List.countP_nil,
          Call.isApplyDirichlet] at hzero ⊢
        simp [hzero]
    · rw [updateLoop_converged lj nm n solver r hc]; exact ⟨_, rfl, rfl⟩

/-- C22, as the code has it: `update` calls `_applyDirichletBoundaries` exactly once,
before the solver is constructed and the first attempt is made.  The first attempt
starts from the current solution with the Dirichlet values applied; every retry starts
from the model as the rejected solve before it left it, no statement of the loop
applying Dirichlet values again. -/
theorem update_applies_dirichlet_once (prob : Problem Cell Face LocalCoord WorldCoord U)
    (lj : LocalJacobian J Cell Scalar) (nm : NewtonMethod U A J S C Scalar)
    (model : BoxModel U A J) (controller : C) (dt nextDt : Scalar) :
    (∃ rest, (model.update prob lj nm controller dt nextDt).run.calls =
        [Call.setCurrentSolution, Call.setOldSolution, Call.applyDirichletBoundaries,
          Call.newtonMethod] ++ rest ∧ numDirichletCalls rest = 0) ∧
      numDirichletCalls (model.update prob lj nm controller dt nextDt).run.calls = 1 ∧
      (attemptStart lj nm (loopEntry prob lj nm model controller dt nextDt).1
        (loopEntry prob lj nm model controller dt nextDt).2 0).2.model._uCur =
        (_applyDirichletBoundaries prob lj model._uCur
          (lj.setOldSolution (lj.setCurrentSolution model._localJacobian))).1 ∧
      ∀ k,
        (attemptStart lj nm (loopEntry prob lj nm model controller dt nextDt).1
          (loopEntry prob lj nm model controller dt nextDt).2 (k + 1)).2.model =
        (attempt lj nm
          (attemptStart lj nm (loopEntry prob lj nm model controller dt nextDt).1
            (loopEntry prob lj nm model controller dt nextDt).2 k).1
          (attemptStart lj nm (loopEntry prob lj nm model controller dt nextDt).1
            (loopEntry prob lj nm model controller dt nextDt).2 k).2).run.model := by
  obtain ⟨rest, hrest, hzero⟩ := updateLoop_calls lj nm 10 0 rfl
    (loopEntry prob lj nm model controller dt nextDt).1
    (loopEntry prob lj nm model controller dt nextDt).2
  have hcalls : ∃ rest, (model.update prob lj nm controller dt nextDt).run.calls =
      [Call.setCurrentSolution, Call.setOldSolution, Call.applyDirichletBoundaries,
        Call.newtonMethod] ++ rest ∧ numDirichletCalls rest = 0 := by
    cases ht : (updateLoop lj nm 0 (loopEntry prob lj nm model controller dt nextDt).1
        (loopEntry prob lj nm model controller dt nextDt).2).thrown with
    | none =>
      rw [update_of_returned prob lj nm model controller dt nextDt ht]
      refine ⟨rest ++ [Call.assignPrev], ?_, ?_⟩
      · simp only [hrest, List.append_assoc]
        rfl
      · simp only [numDirichletCalls, List.countP_append, List.countP_cons, List.countP_nil,
          Call.isApplyDirichlet] at hzero ⊢
        simp [hzero]
    | some e =>
      rw [update_of_thrown prob lj nm model controller dt nextDt e ht]
      exact ⟨rest, hrest, hzero⟩
  refine ⟨hcalls, ?_, rfl, fun k => rfl⟩
  obtain ⟨rest2, h2, hz2⟩ := hcalls
  rw [h2]
  simp only [numDirichletCalls, List.countP_append, List.countP_cons, List.countP_nil,
    Call.isApplyDirichlet] at hz2 ⊢
  simp [hz2]

theorem update_applies_dirichlet_once_witness :
    numDirichletCalls (exampleModel.update exampleProblem exampleJacobian
        (exampleNewton (some 2)) () 1024 0).run.calls = 1 ∧
      (attemptStart exampleJacobian (exampleNewton (some 2))
        (loopEntry exampleProblem exampleJacobian (exampleNewton (some 2)) exampleModel
          () 1024 0).1
        (loopEntry exampleProblem exampleJacobian (exampleNewton (some 2)) exampleModel
          () 1024 0).2 0).2.model._uCur = [100, 6, 7] :=
  ⟨(update_applies_dirichlet_once exampleProblem exampleJacobian (exampleNewton (some 2))
      exampleModel () 1024 0).2.1,
    (update_applies_dirichlet_once exampleProblem exampleJacobian (exampleNewton (some 2))
      exampleModel () 1024 0).2.2.1.trans (by decide)⟩

/-- C22 fails as stated: with a solver that rejects the first attempt and converges in
the second, `update` returns after two `execute` calls and a single call of
`_applyDirichletBoundaries`, made before the first; the second attempt is not preceded
by one, and it starts from the current solution as the rejected solve left it, the
Dirichlet vertex 0 holding 101 where the Dirichlet value is 100. -/
theorem update_retry_without_dirichlet :
    (exampleModel.update exampleProblem exampleJacobian (exampleNewton (some 2))
        () 1024 0).thrown = none ∧
      (exampleModel.update exampleProblem exampleJacobian (exampleNewton (some 2))
        () 1024 0).run.calls =
        [Call.setCurrentSolution, Call.setOldSolution, Call.applyDirichletBoundaries,
          Call.newtonMethod, Call.setDt 1024, Call.execute false,
          Call.suggestTimeStepSize 1024 512, Call.retryMessage 512, Call.setDt 512,
          Call.execute true, Call.suggestTimeStepSize 512 256, Call.assignPrev] ∧
      dirichletBeforeEachExecute false
        (exampleModel.update exampleProblem exampleJacobian (exampleNewton (some 2))
          () 1024 0).run.calls = false ∧
      (attemptStart exampleJacobian (exampleNewton (some 2))
        (loopEntry exampleProblem exampleJacobian (exampleNewton (some 2)) exampleModel
          () 1024 0).1
        (loopEntry exampleProblem exampleJacobian (exampleNewton (some 2)) exampleModel
          () 1024 0).2 1).2.model._uCur = [101, 7, 8] ∧
      (_applyDirichletBoundaries exampleProblem exampleJacobian [101, 7, 8] 1024).1 =
        [100, 7, 8] := by
  have hloop := updateLoop_converges_at exampleJacobian (exampleNewton (some 2)) 1 0
    (by decide)
    (loopEntry exampleProblem exampleJacobian (exampleNewton (some 2)) exampleModel
      () 1024 0).1
    (loopEntry exampleProblem exampleJacobian (exampleNewton (some 2)) exampleModel
      () 1024 0).2
    (fun j hj => by interval_cases j; rfl) rfl
  have hnone : (updateLoop exampleJacobian (exampleNewton (some 2)) 0
      (loopEntry exampleProblem exampleJacobian (exampleNewton (some 2)) exampleModel
        () 1024 0).1
      (loopEntry exampleProblem exampleJacobian (exampleNewton (some 2)) exampleModel
        () 1024 0).2).thrown = none := by
    rw [hloop]
  have hcalls : (exampleModel.update exampleProblem exampleJacobian (exampleNewton (some 2))
      () 1024 0).run.calls =
      [Call.setCurrentSolution, Call.setOldSolution, Call.applyDirichletBoundaries,
        Call.newtonMethod, Call.setDt 1024, Call.execute false,
        Call.suggestTimeStepSize 1024 512, Call.retryMessage 512, Call.setDt 512,
        Call.execute true, Call.suggestTimeStepSize 512 256, Call.assignPrev] := by
    rw [update_of_returned _ _ _ _ _ _ _ hnone, hloop]
    decide
  refine ⟨?_, hcalls, ?_, by decide, by decide⟩
  · rw [update_thrown_iff]; exact hnone
  · rw [hcalls]; decide

theorem applyInitialSolution_length
    (prob : Problem Cell Face LocalCoord WorldCoord U) (u : List U) :
    (_applyInitialSolution prob u).1.length = u.length := by
  rw [applyInitialSolution_eq]
  exact foldl_writeEntry_length
    (fun c : VertexCall Cell LocalCoord WorldCoord => c.globalId)
    (fun c x => prob.initial x c.cell c.globalPos c.localPos) _ u

/-! ## The lengths of the current and the previous solution -/

theorem applyDirichletBoundaries_length (prob : Problem Cell Face LocalCoord WorldCoord U)
    (lj : LocalJacobian J Cell Scalar) (u : List U) (jac : J) :
    (_applyDirichletBoundaries prob lj u jac).1.length = u.length := by
  unfold _applyDirichletBoundaries
  rw [foldl_applyDirichletAtCell prob lj prob.leafCells (u, jac)]
  exact foldl_writeEntry_length
    (fun c : DirichletCall Cell Face LocalCoord WorldCoord => c.globalId)
    (fun c x => prob.dirichlet x c.cell c.face c.globalPos c.localPos) _ u

theorem attemptStart_lengths (lj : LocalJacobian J Cell Scalar)
    (nm : NewtonMethod U A J S C Scalar)
    (hsolver : ∀ s m c, m._uCur.length = m._uPrev.length →
      (nm.execute s m c).model._uCur.length = (nm.execute s m c).model._uPrev.length)
    (solver : S) (r : Run U A J C Scalar) (hr : r.model._uCur.length = r.model._uPrev.length)
    (k : Nat) :
    (attemptStart lj nm solver r k).2.model._uCur.length =
      (attemptStart lj nm solver r k).2.model._uPrev.length := by
  induction k with
  | zero => exact hr
  | succ k ih =>
    show (attempt lj nm _ _).run.model._uCur.length = (attempt lj nm _ _).run.model._uPrev.length
    rw [attempt_model]
    exact hsolver _ _ _ ih

/-- C23, as the code has it: the current and the previous solution have the same length
after construction; after `initial()` the previous solution is the current one, which
is the initial solution with the Dirichlet values applied, and has the length the
current solution had; after an `update` that returns normally the previous solution is
the current one; and after an `update` that ends by throwing the two lengths are equal
when they were equal at entry and `solver.execute` keeps them equal. -/
theorem solution_lengths_agree (prob : Problem Cell Face LocalCoord WorldCoord U)
    (lj : LocalJacobian J Cell Scalar) (nm : NewtonMethod U A J S C Scalar) :
    (∀ (boxFunction : List U) (opAsm : A) (localJac : J),
      (BoxModel.new boxFunction opAsm localJac)._uCur.length =
        (BoxModel.new boxFunction opAsm localJac)._uPrev.length) ∧
    (∀ model : BoxModel U A J,
      (model.initial prob lj)._uPrev = (model.initial prob lj)._uCur ∧
      (model.initial prob lj)._uCur =
        (_applyDirichletBoundaries prob lj (_applyInitialSolution prob model._uCur).1
          model._localJacobian).1 ∧
      (model.initial prob lj)._uCur.length = model._uCur.length) ∧
    (∀ (model : BoxModel U A J) (controller : C) (dt nextDt : Scalar),
      (model.update prob lj nm controller dt nextDt).thrown = none →
      (model.update prob lj nm controller dt nextDt).run.model._uPrev =
        (model.update prob lj nm controller dt nextDt).run.model._uCur) ∧
    (∀ (model : BoxModel U A J) (controller : C) (dt nextDt : Scalar),
      (∀ s m c, m._uCur.length = m._uPrev.length →
        (nm.execute s m c).model._uCur.length = (nm.execute s m c).model._uPrev.length) →
      model._uCur.length = model._uPrev.length →
      (model.update prob lj nm controller dt nextDt).run.model._uCur.length =
        (model.update prob lj nm controller dt nextDt).run.model._uPrev.length) := by
  refine ⟨fun _ _ _ => rfl, fun model => ⟨rfl, rfl, ?_⟩, ?_, ?_⟩
  · show (_applyDirichletBoundaries prob lj _ _).1.length = _
    rw [applyDirichletBoundaries_length,
      (applyInitialSolution_length prob model._uCur)]
  · intro model controller dt nextDt hret
    rw [update_thrown_iff] at hret
    rw [update_of_returned prob lj nm model controller dt nextDt hret]
  · intro model controller dt nextDt hsolver hlen
    cases ht : (updateLoop lj nm 0 (loopEntry prob lj nm model controller dt nextDt).1
        (loopEntry prob lj nm model controller dt nextDt).2).thrown with
    | none => rw [update_of_returned prob lj nm model controller dt nextDt ht]
    | some e =>
      obtain ⟨_, hrun, _⟩ := updateLoop_thrown lj nm 10 0 rfl _ _ e ht
      rw [update_of_thrown prob lj nm model controller dt nextDt e ht, hrun, attempt_model]
      apply hsolver
      apply attemptStart_lengths lj nm hsolver
      show (_applyDirichletBoundaries prob lj _ _).1.length = _
      rw [applyDirichletBoundaries_length]
      exact hlen

theorem solution_lengths_agree_witness :
    (exampleModel.initial exampleInitialProblem exampleJacobian)._uPrev = [100, 11, 11] ∧
      (exampleModel.initial exampleInitialProblem exampleJacobian)._uCur = [100, 11, 11] ∧
      (exampleModel.update exampleProblem exampleJacobian (exampleNewton none)
        () 1024 0).run.model._uCur.length =
        (exampleModel.update exampleProblem exampleJacobian (exampleNewton none)
          () 1024 0).run.model._uPrev.length := by
  have h := solution_lengths_agree exampleInitialProblem exampleJacobian (exampleNewton none)
  have h2 := solution_lengths_agree exampleProblem exampleJacobian (exampleNewton none)
  have hcur : (exampleModel.initial exampleInitialProblem exampleJacobian)._uCur =
      [100, 11, 11] := (h.2.1 exampleModel).2.1.trans (by decide)
  refine ⟨((h.2.1 exampleModel).1).trans hcur, hcur, ?_⟩
  exact h2.2.2.2 exampleModel () 1024 0
    (fun s m c hm => by simpa [exampleNewton] using hm) (by decide)

/-- C23 fails as stated: with a solver that never converges and drops an unknown of the
current solution in every `execute`, `update` ends by throwing and leaves a current
solution of length 0 beside a previous solution of length 3. -/
theorem update_failure_lengths_differ :
    exampleModel._uCur.length = exampleModel._uPrev.length ∧
      (exampleModel.update exampleProblem exampleJacobian shrinkingNewton
        () 1024 0).thrown ≠ none ∧
      (exampleModel.update exampleProblem exampleJacobian shrinkingNewton
        () 1024 0).run.model._uCur.length = 0 ∧
      (exampleModel.update exampleProblem exampleJacobian shrinkingNewton
        () 1024 0).run.model._uPrev.length = 3 := by
  obtain ⟨⟨dtLast, ht⟩, _⟩ := updateLoop_never_converging exampleJacobian shrinkingNewton
    (fun _ _ _ => rfl) 10 0 rfl
    (loopEntry exampleProblem exampleJacobian shrinkingNewton exampleModel () 1024 0).1
    (loopEntry exampleProblem exampleJacobian shrinkingNewton exampleModel () 1024 0).2
  obtain ⟨_, hrun, _⟩ := updateLoop_thrown exampleJacobian shrinkingNewton 10 0 rfl _ _ _ ht
  refine ⟨by decide, ?_, ?_, ?_⟩
  · rw [update_thrown_iff, ht]; simp
  · rw [update_of_thrown _ _ _ _ _ _ _ _ ht, hrun]; decide
  · rw [update_of_thrown _ _ _ _ _ _ _ _ ht, hrun]; decide

end

end Dune

namespace Ewoms.BlackOilTwoPhaseIndices

/-! ## Arguments of the component index translation outside the canonical range -/

/-- C24 fails for arguments that are no canonical component index: the only assertion
on the argument is `compIdx != disabledCanonicalCompIdx`.  With the gas component
disabled `canonicalToActiveComponentIndex 3` passes it and returns 3, which is not
below `numPhases`; with the water component disabled the argument 3 is mapped to 1,
the active index of the enabled gas component (the value of the canonical argument 2),
and the argument 4 to 2; with the oil component disabled the argument 3 is mapped
to 2. -/
theorem canonicalToActive_out_of_range :
    ¬ ((3 : Int) < numPhases) ∧ ¬ ((2 : Int) < numPhases) ∧
      canonicalToActiveComponentIndex ⟨false, false, false, 0, 2⟩ 3 = some 3 ∧
      canonicalToActiveComponentIndex ⟨false, false, false, 0, 1⟩ 3 = some 1 ∧
      canonicalToActiveComponentIndex ⟨false, false, false, 0, 1⟩ 2 = some 1 ∧
      canonicalToActiveComponentIndex ⟨false, false, false, 0, 1⟩ 4 = some 2 ∧
      canonicalToActiveComponentIndex ⟨false, false, false, 0, 0⟩ 3 = some 2 := by
  decide

/-- C24, for the arguments the function is written for: for a disabled canonical
component in {0,1,2} and a canonical component index, an argument below 3,
`canonicalToActiveComponentIndex` fails its assertion or returns an active index below
`numPhases`. -/
theorem canonicalToActive_valid_of_canonical (c : BlackOilTwoPhaseIndices) (compIdx : Nat)
    (hd : c.disabledCanonicalCompIdx < 3) (hi : compIdx < 3) :
    c.canonicalToActiveComponentIndex compIdx = none ∨
      ∃ j, c.canonicalToActiveComponentIndex compIdx = some j ∧ (j : Int) < numPhases := by
  obtain ⟨s, p, e, off, d⟩ := c
  simp only at hd
  interval_cases d <;> interval_cases compIdx <;> first
    | exact Or.inl rfl
    | exact Or.inr ⟨_, rfl, by decide⟩

theorem canonicalToActive_valid_of_canonical_witness :
    (1 < 3 ∧ 2 < 3) ∧
      (canonicalToActiveComponentIndex ⟨false, false, false, 0, 1⟩ 2 = none ∨
        ∃ j, canonicalToActiveComponentIndex ⟨false, false, false, 0, 1⟩ 2 = some j ∧
          (j : Int) < numPhases) :=
  ⟨by decide, canonicalToActive_valid_of_canonical ⟨false, false, false, 0, 1⟩ 2
    (by decide) (by decide)⟩

/-! ## Equation indices -/

theorem toInt_lt (n : Nat) : toInt n < 2 ^ 31 := by
  unfold toInt; split <;> omega

theorem toInt_ge (n : Nat) : -(2 ^ 31) ≤ toInt n := by
  unfold toInt; split <;> omega

theorem toInt_emod (n : Nat) : toInt n % 2 ^ 32 = (n : Int) % 2 ^ 32 := by
  unfold toInt; split <;> omega

theorem uadd_uadd (a b c : Nat) : uadd (uadd a b) c = uadd a (b + c) := by
  unfold uadd; omega

theorem toInt_uadd_ne (a j k : Nat) (hj : j < 2 ^ 32) (hk : k < 2 ^ 32) (hjk : j ≠ k) :
    toInt (uadd a j) ≠ toInt (uadd a k) := by
  unfold toInt uadd; split <;> split <;> omega

theorem toInt_uadd_succ_ne (a k : Nat) (hk : 2 ≤ k) (hk2 : k < 2 ^ 32) :
    toInt (uadd a 0) + 1 ≠ toInt (uadd a k) := by
  unfold toInt uadd; split <;> split <;> omega

/-- C26, as the code has it: in every configuration the equation index of each optional
feature equals its primary variable offset, both being -1000 when the feature is
disabled; the equation indices in use, the first continuity equation, the one that
follows it and those of the enabled features, are pairwise distinct and `numEq` in
number; and when the last slot is representable as an `int`
(`PVOffset + numEq ≤ 2 ^ 31`) the first continuity equation has the index `PVOffset` and
the common index of an enabled feature lies in `[PVOffset, PVOffset + numEq)`. -/
theorem equation_slots_match_primary_variables (c : BlackOilTwoPhaseIndices) :
    c.contiSolventEqIdx = c.solventSaturationIdx ∧
      c.contiPolymerEqIdx = c.polymerConcentrationIdx ∧
      c.contiEnergyEqIdx = c.temperatureIdx ∧
      (c.enableSolvent = false → c.contiSolventEqIdx = -1000) ∧
      (c.enablePolymer = false → c.contiPolymerEqIdx = -1000) ∧
      (c.enableEnergy = false → c.contiEnergyEqIdx = -1000) ∧
      c.activeEquationIdxs.Nodup ∧
      (c.activeEquationIdxs.length : Int) = c.numEq ∧
      ((c.PVOffset : Int) + c.numEq ≤ 2 ^ 31 →
        c.conti0EqIdx = c.PVOffset ∧
        (c.enableSolvent = true → c.InSlotRange c.contiSolventEqIdx) ∧
        (c.enablePolymer = true → c.InSlotRange c.contiPolymerEqIdx) ∧
        (c.enableEnergy = true → c.InSlotRange c.contiEnergyEqIdx)) := by
  obtain ⟨s, p, e, off, d⟩ := c
  refine ⟨rfl, by cases p <;> rfl, rfl, ?_, ?_, ?_, ?_, ?_, ?_⟩
  · intro h
    simp [contiSolventEqIdx, slotOr, h, toInt_sentinel_feature]
  · intro h
    simp [contiPolymerEqIdx, slotOr, h, toInt_sentinel_feature]
  · intro h
    simp [contiEnergyEqIdx, slotOr, h, toInt_sentinel_feature]
  · cases s <;> cases p <;> cases e <;>
      simp [activeEquationIdxs, enableSolvent, enablePolymer, enableEnergy, conti0EqIdx,
        contiSolventEqIdx, contiPolymerEqIdx, contiEnergyEqIdx, slotOr, offsetPlus,
        numSolvents_, numPolymers_, numEnergy_, toUnsigned_numPhases_pred, toUnsigned_zero,
        toUnsigned_one, uadd_uadd] <;>
      simp (disch := omega) only [toInt_uadd_ne, toInt_uadd_succ_ne, ne_eq, not_false_eq_true,
        and_self]
  · cases s <;> cases p <;> cases e <;>
      simp [activeEquationIdxs, enableSolvent, enablePolymer, enableEnergy, numEq, numPhases,
        numSolvents_, numPolymers_, numEnergy_]
  · intro hfit
    cases s <;> cases p <;> cases e <;>
      simp only [InSlotRange, enableSolvent, enablePolymer, enableEnergy, conti0EqIdx,
        contiSolventEqIdx, contiPolymerEqIdx, contiEnergyEqIdx, slotOr, offsetPlus,
        numSolvents_, numPolymers_, numEnergy_, numEq, toUnsigned_numPhases_pred] at hfit ⊢ <;>
      simp [numPhases, toUnsigned_zero, toUnsigned_one] at hfit ⊢ <;>
      simp (disch := omega) only [toInt_uadd, toInt_uadd2, toInt_uadd3, toInt_uadd4] <;>
      omega

theorem equation_slots_match_primary_variables_witness :
    activeEquationIdxs ⟨true, true, false, 10, 2⟩ = [10, 11, 12, 13] ∧
      contiPolymerEqIdx ⟨true, true, false, 10, 2⟩ =
        polymerConcentrationIdx ⟨true, true, false, 10, 2⟩ ∧
      InSlotRange ⟨true, true, false, 10, 2⟩ (contiPolymerEqIdx ⟨true, true, false, 10, 2⟩) :=
  ⟨by decide, (equation_slots_match_primary_variables ⟨true, true, false, 10, 2⟩).2.1,
    ((equation_slots_match_primary_variables ⟨true, true, false, 10, 2⟩).2.2.2.2.2.2.2.2
      (by decide)).2.2.1 rfl⟩

/-- C26 fails as stated: with `PVOffset = 4294967295` and solvent enabled, the solvent
equation index and the solvent saturation offset are both `PVOffset + 2` wrapped to 1,
which is neither the sentinel nor a slot in `[PVOffset, PVOffset + numEq)`. -/
theorem equation_slot_invalid_at_uint_max :
    let c : BlackOilTwoPhaseIndices := ⟨true, false, false, 4294967295, 1⟩
    c.WellTyped ∧ c.enableSolvent = true ∧ c.contiSolventEqIdx = 1 ∧
      c.solventSaturationIdx = 1 ∧ isSentinel c.contiSolventEqIdx = false ∧
      ¬ c.InSlotRange c.contiSolventEqIdx := by
  decide

end Ewoms.BlackOilTwoPhaseIndices
